import Mathlib

/-!
Verification of the agentic belief-propagation simulator.

This file shallowly embeds the core of the repository in Lean 4:

* `grid_layouts.py` — the five network topologies (`grid4`, `grid8`, `ring`,
  `mesh`, `star`) and their `get_neighbors` functions;
* `chat_gui.py` — the belief-change classification performed in
  `run_conversation_with_gui`;
* `simulation.py` — the per-iteration pair selection and state update of
  `run_simulation`;
* `simulation_logger.py` — the iteration log record writer;
* `replay_chat.py` — the log parser `parse_log_file` used by the replay tool.

Strings are modelled as `List Char` (Python `str` restricted to its list of
characters); Python's non-negative `int` values are modelled as `Nat`, and
signed intermediate arithmetic (grid deltas, ring indices) as `Int`, using
`Int.emod`, which agrees with Python's `%` for positive moduli.
-/

/-! ### Python string primitives -/

/-- Whitespace characters stripped by Python's `str.strip()` (ASCII range). -/
def pyIsSpace (c : Char) : Bool :=
  c = ' ' || c = '\t' || c = '\n' || c = '\x0d' || c = '\x0b' || c = '\x0c'

/-- Python `str.lower()` (ASCII range), applied characterwise. -/
def pyLower (s : List Char) : List Char :=
  s.map Char.toLower

/-- Python `str.strip()`: drop whitespace from both ends. -/
def pyStrip (s : List Char) : List Char :=
  ((s.dropWhile pyIsSpace).reverse.dropWhile pyIsSpace).reverse

/-! ### Change classification (`chat_gui.py`, `run_conversation_with_gui`) -/

/-- The three belief-change classifications. -/
inductive ChangeType where
  | unchanged
  | similar
  | changed
deriving DecidableEq, Repr

/-- String form of a change type as used by the code (lowercase). -/
def ChangeType.text : ChangeType → List Char
  | .unchanged => "unchanged".toList
  | .similar => "similar".toList
  | .changed => "changed".toList

/-- Embeds the change-type computation of `run_conversation_with_gui`
(`chat_gui.py` lines 453–462): `old_clean = defender_belief.lower().strip()`,
`new_clean = new_belief.lower().strip()`; `unchanged` if they are equal, else
`similar` if `new_belief[:20].lower() == defender_belief[:20].lower()`, else
`changed`. -/
def computeChangeType (defender_belief new_belief : List Char) : ChangeType :=
  let old_clean := pyStrip (pyLower defender_belief)
  let new_clean := pyStrip (pyLower new_belief)
  if new_clean = old_clean then .unchanged
  else if pyLower (new_belief.take 20) = pyLower (defender_belief.take 20) then .similar
  else .changed

/-- Rendered from the words of the spec (§4.3): normalize both strings by
trimming surrounding whitespace and lowercasing; equal → `unchanged`; else if
the first 20 characters of the original untrimmed strings, each lowercased,
are equal → `similar`; else `changed`.  Stated for comparison with
`computeChangeType`, which is the translation of the code. -/
def classifySpecRule (old_belief new_belief : List Char) : ChangeType :=
  if pyLower (pyStrip new_belief) = pyLower (pyStrip old_belief) then .unchanged
  else if pyLower (new_belief.take 20) = pyLower (old_belief.take 20) then .similar
  else .changed

/-! ### Topologies (`grid_layouts.py`) -/

/-- Shared body of the two grid `get_neighbors` loops: decode `agent_id` to
`(row, col)` row-major, apply each `(dr, dc)` delta in order, keep in-bounds
cells, re-encode. -/
def gridNeighbors (size : Nat) (deltas : List (Int × Int)) (agent_id : Nat) : List Nat :=
  let row : Int := (agent_id / size : Nat)
  let col : Int := (agent_id % size : Nat)
  deltas.filterMap (fun d =>
    let nr := row + d.1
    let nc := col + d.2
    if 0 ≤ nr ∧ nr < (size : Int) ∧ 0 ≤ nc ∧ nc < (size : Int) then
      some (nr * size + nc).toNat
    else none)

/-- `Grid4Layout.get_neighbors`: the 4 orthogonal in-bounds cells, in the
code's delta order up, down, left, right. -/
def Grid4Layout.get_neighbors (size agent_id : Nat) : List Nat :=
  gridNeighbors size [(-1, 0), (1, 0), (0, -1), (0, 1)] agent_id

/-- `Grid8Layout.get_neighbors`: the 8 orthogonal and diagonal in-bounds
cells, in the code's nested-loop order (`dr` then `dc` over `[-1, 0, 1]`,
skipping `(0, 0)`). -/
def Grid8Layout.get_neighbors (size agent_id : Nat) : List Nat :=
  gridNeighbors size
    [(-1, -1), (-1, 0), (-1, 1), (0, -1), (0, 1), (1, -1), (1, 0), (1, 1)] agent_id

/-- `RingLayout.get_neighbors`: `[(agent_id - 1) % n, (agent_id + 1) % n]`
with Python `%` (Euclidean remainder for a positive modulus). -/
def RingLayout.get_neighbors (n_agents agent_id : Nat) : List Nat :=
  let prev_id : Int := ((agent_id : Int) - 1) % (n_agents : Int)
  let next_id : Int := ((agent_id : Int) + 1) % (n_agents : Int)
  [prev_id.toNat, next_id.toNat]

/-- `MeshLayout.get_neighbors`: `[i for i in range(n_agents) if i != agent_id]`. -/
def MeshLayout.get_neighbors (n_agents agent_id : Nat) : List Nat :=
  (List.range n_agents).filter (fun i => i != agent_id)

/-- `StarLayout.get_neighbors`: hub (`agent_id == 0`) is connected to
`range(1, n_agents)`; every spoke only to the hub. -/
def StarLayout.get_neighbors (n_agents agent_id : Nat) : List Nat :=
  if agent_id = 0 then List.range' 1 (n_agents - 1) else [0]

/-- The five topology variants of `grid_layouts.py`. -/
inductive LayoutKind where
  | grid4
  | grid8
  | ring
  | mesh
  | star
deriving DecidableEq, Repr

/-- Agent count per variant: `size * size` for the grids (the constructors
set `n_agents = size * size`), the given `n_agents` otherwise. -/
def layoutAgentCount : LayoutKind → (size : Nat) → (n_agents : Nat) → Nat
  | .grid4, s, _ => s * s
  | .grid8, s, _ => s * s
  | .ring, _, n => n
  | .mesh, _, n => n
  | .star, _, n => n

/-- Dispatch `get_neighbors` over the five variants. -/
def layoutNeighbors : LayoutKind → (size : Nat) → (n_agents : Nat) → (agent_id : Nat) → List Nat
  | .grid4, s, _, i => Grid4Layout.get_neighbors s i
  | .grid8, s, _, i => Grid8Layout.get_neighbors s i
  | .ring, _, n, i => RingLayout.get_neighbors n i
  | .mesh, _, n, i => MeshLayout.get_neighbors n i
  | .star, _, n, i => StarLayout.get_neighbors n i

/-- Error vocabulary of the spec's topology contract (§7). -/
inductive LayoutError where
  | outOfRange
deriving DecidableEq, Repr

/-- `get_neighbors` as a fallible call: Python methods may raise, which we
model in `Except`.  The bodies of all five `get_neighbors` implementations
contain no `raise` and no partial operation for a non-negative `agent_id`
(given at least one agent), so the translation always returns `.ok` of the
variant's formula. -/
def layoutNeighborsE (k : LayoutKind) (size n_agents agent_id : Nat) :
    Except LayoutError (List Nat) :=
  .ok (layoutNeighbors k size n_agents agent_id)

/-! ### Character-level lemmas -/

theorem toNat_ofNat_of_lt {n : Nat} (h : n < 0xd800) : (Char.ofNat n).toNat = n := by
  have hv : n.isValidChar := Or.inl h
  rw [Char.ofNat, dif_pos hv]
  simp [Char.ofNatAux, Char.toNat, UInt32.toNat, BitVec.toNat_ofNatLt]

theorem pyIsSpace_of_ge (d : Char) (hd : 33 ≤ d.toNat) : pyIsSpace d = false := by
  simp only [pyIsSpace, Bool.or_eq_false_iff, decide_eq_false_iff_not]
  refine ⟨⟨⟨⟨⟨?_, ?_⟩, ?_⟩, ?_⟩, ?_⟩, ?_⟩ <;>
    · intro he
      rw [he] at hd
      simp [Char.toNat, UInt32.size] at hd

theorem pyIsSpace_toLower (c : Char) : pyIsSpace c.toLower = pyIsSpace c := by
  by_cases h : c.toNat ≥ 65 ∧ c.toNat ≤ 90
  · have h1 : (Char.ofNat (c.toNat + 32)).toNat = c.toNat + 32 :=
      toNat_ofNat_of_lt (by omega)
    rw [show c.toLower = Char.ofNat (c.toNat + 32) by simp [Char.toLower, h]]
    rw [pyIsSpace_of_ge _ (by omega), pyIsSpace_of_ge _ (by omega)]
  · rw [show c.toLower = c by simp [Char.toLower, h]]

theorem pyStrip_pyLower (s : List Char) : pyStrip (pyLower s) = pyLower (pyStrip s) := by
  have hcomp : (pyIsSpace ∘ Char.toLower) = pyIsSpace := funext pyIsSpace_toLower
  unfold pyStrip pyLower
  simp only [← List.map_reverse, List.dropWhile_map, hcomp]

/-- C2: for every pair of strings, the change classification computed after a
conversation (`run_conversation_with_gui`) equals the spec's rule: `unchanged`
when the strings agree after trimming and lowercasing, else `similar` when the
first 20 characters of the original untrimmed strings agree after lowercasing,
else `changed`. -/
theorem computeChangeType_eq_spec_rule (old_belief new_belief : List Char) :
    computeChangeType old_belief new_belief = classifySpecRule old_belief new_belief := by
  unfold computeChangeType classifySpecRule
  simp only [pyStrip_pyLower]

/-! ### Grid membership characterization -/

theorem mem_gridNeighbors {s : Nat} {deltas : List (Int × Int)} {a b : Nat} :
    b ∈ gridNeighbors s deltas a ↔
      ∃ d ∈ deltas,
        0 ≤ ((a / s : Nat) : Int) + d.1 ∧ ((a / s : Nat) : Int) + d.1 < (s : Int) ∧
        0 ≤ ((a % s : Nat) : Int) + d.2 ∧ ((a % s : Nat) : Int) + d.2 < (s : Int) ∧
        (b : Int) = (((a / s : Nat) : Int) + d.1) * s + (((a % s : Nat) : Int) + d.2) := by
  unfold gridNeighbors
  simp only [List.mem_filterMap]
  constructor
  · rintro ⟨d, hd, hf⟩
    split at hf
    · next hcond =>
      obtain ⟨h1, h2, h3, h4⟩ := hcond
      injection hf with hf
      refine ⟨d, hd, h1, h2, h3, h4, ?_⟩
      rw [← hf]
      rw [Int.toNat_of_nonneg]
      have : (0 : Int) ≤ (((a / s : Nat) : Int) + d.1) * s :=
        mul_nonneg h1 (Int.natCast_nonneg s)
      omega
    · exact absurd hf (by simp)
  · rintro ⟨d, hd, h1, h2, h3, h4, h5⟩
    refine ⟨d, hd, ?_⟩
    rw [if_pos ⟨h1, h2, h3, h4⟩]
    congr 1
    omega

theorem div_mod_of_encode {s r c n : Nat} (hr : r < s) (hc : c < s)
    (hn : n = r * s + c) : n / s = r ∧ n % s = c ∧ n < s * s := by
  have hs : 0 < s := by omega
  subst hn
  refine ⟨?_, ?_, ?_⟩
  · rw [mul_comm r s, Nat.mul_add_div hs, Nat.div_eq_of_lt hc]
    omega
  · rw [mul_comm r s, Nat.mul_add_mod, Nat.mod_eq_of_lt hc]
  · have h1 : r + 1 ≤ s := hr
    have h2 : (r + 1) * s ≤ s * s := Nat.mul_le_mul_right s h1
    have h3 : (r + 1) * s = r * s + s := by ring
    linarith

theorem gridNeighbors_symm_mp {s : Nat} {deltas : List (Int × Int)}
    (hneg : ∀ d ∈ deltas, (-d.1, -d.2) ∈ deltas) {a b : Nat}
    (ha : a < s * s) (hb : b ∈ gridNeighbors s deltas a) :
    a ∈ gridNeighbors s deltas b := by
  rcases Nat.eq_zero_or_pos s with rfl | hs
  · exact absurd ha (by simp)
  have hra : a / s < s := (Nat.div_lt_iff_lt_mul hs).mpr ha
  have hca : a % s < s := Nat.mod_lt _ hs
  obtain ⟨d, hd, h1, h2, h3, h4, h5⟩ := mem_gridNeighbors.mp hb
  set ra := a / s with hradef
  set ca := a % s with hcadef
  have hencI : (ra : Int) * s + (ca : Int) = a := by
    have henc : ra * s + ca = a := by
      rw [hradef, hcadef, mul_comm]
      exact Nat.div_add_mod a s
    exact_mod_cast henc
  have hbnat : b = ((ra : Int) + d.1).toNat * s + ((ca : Int) + d.2).toNat := by
    have hcast : ((((ra : Int) + d.1).toNat * s + ((ca : Int) + d.2).toNat : Nat) : Int)
        = (b : Int) := by
      push_cast [Int.toNat_of_nonneg h1, Int.toNat_of_nonneg h3]
      linarith [h5]
    exact_mod_cast hcast.symm
  obtain ⟨hbdiv, hbmod, hblt⟩ :=
    div_mod_of_encode (s := s) (r := ((ra : Int) + d.1).toNat) (c := ((ca : Int) + d.2).toNat)
      ((Int.toNat_lt h1).mpr h2) ((Int.toNat_lt h3).mpr h4) hbnat
  have hb1 : ((b / s : Nat) : Int) = (ra : Int) + d.1 := by
    rw [hbdiv]
    exact Int.toNat_of_nonneg h1
  have hb2 : ((b % s : Nat) : Int) = (ca : Int) + d.2 := by
    rw [hbmod]
    exact Int.toNat_of_nonneg h3
  have hras : ((ra : Int)) < (s : Int) := by exact_mod_cast hra
  have hcas : ((ca : Int)) < (s : Int) := by exact_mod_cast hca
  apply mem_gridNeighbors.mpr
  refine ⟨(-d.1, -d.2), hneg d hd, ?_, ?_, ?_, ?_, ?_⟩
  · show (0 : Int) ≤ ((b / s : Nat) : Int) + -d.1
    rw [hb1]
    linarith [Int.natCast_nonneg ra]
  · show ((b / s : Nat) : Int) + -d.1 < (s : Int)
    rw [hb1]
    linarith
  · show (0 : Int) ≤ ((b % s : Nat) : Int) + -d.2
    rw [hb2]
    linarith [Int.natCast_nonneg ca]
  · show ((b % s : Nat) : Int) + -d.2 < (s : Int)
    rw [hb2]
    linarith
  · show (a : Int) = (((b / s : Nat) : Int) + -d.1) * s + (((b % s : Nat) : Int) + -d.2)
    rw [hb1, hb2]
    linear_combination -hencI

/-- Membership in a grid neighborhood implies the member is a valid agent id. -/
theorem mem_gridNeighbors_lt {s : Nat} {deltas : List (Int × Int)} {a b : Nat}
    (hb : b ∈ gridNeighbors s deltas a) : b < s * s := by
  obtain ⟨d, _, h1, h2, h3, h4, h5⟩ := mem_gridNeighbors.mp hb
  set ra := a / s with hradef
  set ca := a % s with hcadef
  have hbnat : b = ((ra : Int) + d.1).toNat * s + ((ca : Int) + d.2).toNat := by
    have hcast : ((((ra : Int) + d.1).toNat * s + ((ca : Int) + d.2).toNat : Nat) : Int)
        = (b : Int) := by
      push_cast [Int.toNat_of_nonneg h1, Int.toNat_of_nonneg h3]
      linarith [h5]
    exact_mod_cast hcast.symm
  exact (div_mod_of_encode ((Int.toNat_lt h1).mpr h2) ((Int.toNat_lt h3).mpr h4) hbnat).2.2

/-! ### Ring, mesh, star characterizations -/

theorem ring_get_neighbors_eq (n a : Nat) (hn : 0 < n) :
    RingLayout.get_neighbors n a = [(a + n - 1) % n, (a + 1) % n] := by
  have hprev : (((a : Int) - 1) % (n : Int)).toNat = (a + n - 1) % n := by
    have h1 : ((a + n - 1 : Nat) : Int) = ((a : Int) - 1) + (n : Int) * 1 := by
      omega
    rw [show ((a : Int) - 1) % (n : Int) = (((a + n - 1 : Nat)) : Int) % (n : Int) by
        rw [h1, Int.add_mul_emod_self_left],
      ← Int.natCast_mod, Int.toNat_ofNat]
  have hnext : (((a : Int) + 1) % (n : Int)).toNat = (a + 1) % n := by
    rw [show ((a : Int) + 1) = (((a + 1 : Nat)) : Int) by push_cast; ring,
      ← Int.natCast_mod, Int.toNat_ofNat]
  show [(((a : Int) - 1) % (n : Int)).toNat, (((a : Int) + 1) % (n : Int)).toNat]
      = [(a + n - 1) % n, (a + 1) % n]
  rw [hprev, hnext]

theorem ring_mem_iff (n a b : Nat) (hn : 0 < n) :
    b ∈ RingLayout.get_neighbors n a ↔ b = (a + n - 1) % n ∨ b = (a + 1) % n := by
  rw [ring_get_neighbors_eq n a hn]
  simp

theorem ring_succ_pred {n a b : Nat} (ha : a < n) (hb : b < n) :
    b = (a + 1) % n ↔ a = (b + n - 1) % n := by
  constructor
  · rintro rfl
    by_cases h : a + 1 < n
    · rw [Nat.mod_eq_of_lt h, show a + 1 + n - 1 = a + n by omega, Nat.add_mod_right,
        Nat.mod_eq_of_lt ha]
    · have hn1 : a + 1 = n := by omega
      rw [hn1, Nat.mod_self, show 0 + n - 1 = a by omega, Nat.mod_eq_of_lt ha]
  · intro h
    by_cases hb1 : 1 ≤ b
    · rw [show b + n - 1 = (b - 1) + n by omega, Nat.add_mod_right,
        Nat.mod_eq_of_lt (by omega)] at h
      rw [h, show b - 1 + 1 = b by omega, Nat.mod_eq_of_lt hb]
    · have hb0 : b = 0 := by omega
      subst hb0
      rw [show 0 + n - 1 = n - 1 by omega, Nat.mod_eq_of_lt (by omega)] at h
      rw [h, show n - 1 + 1 = n by omega, Nat.mod_self]

theorem ring_symm {n a b : Nat} (ha : a < n) (hb : b < n) :
    (b ∈ RingLayout.get_neighbors n a ↔ a ∈ RingLayout.get_neighbors n b) := by
  have hn : 0 < n := by omega
  rw [ring_mem_iff n a b hn, ring_mem_iff n b a hn]
  constructor
  · rintro (h | h)
    · right
      exact (ring_succ_pred hb ha).mpr h
    · left
      exact (ring_succ_pred ha hb).mp h
  · rintro (h | h)
    · right
      exact (ring_succ_pred ha hb).mpr h
    · left
      exact (ring_succ_pred hb ha).mp h

theorem mesh_mem_iff {n a b : Nat} :
    b ∈ MeshLayout.get_neighbors n a ↔ b < n ∧ b ≠ a := by
  unfold MeshLayout.get_neighbors
  simp [List.mem_filter, List.mem_range]

theorem star_mem_hub {n b : Nat} :
    b ∈ StarLayout.get_neighbors n 0 ↔ 1 ≤ b ∧ b < n := by
  unfold StarLayout.get_neighbors
  rw [if_pos rfl, List.mem_range'_1]
  omega

theorem star_mem_spoke {n a b : Nat} (haz : a ≠ 0) :
    b ∈ StarLayout.get_neighbors n a ↔ b = 0 := by
  unfold StarLayout.get_neighbors
  rw [if_neg haz]
  simp

/-! ### Nonemptiness helper for grids -/

theorem gridNeighbors_ne_nil {s a : Nat} {deltas : List (Int × Int)} (hs : 2 ≤ s)
    (ha : a < s * s) (hup : ((-1 : Int), (0 : Int)) ∈ deltas)
    (hdown : ((1 : Int), (0 : Int)) ∈ deltas) :
    gridNeighbors s deltas a ≠ [] := by
  have hra : a / s < s := (Nat.div_lt_iff_lt_mul (by omega)).mpr ha
  have hca : a % s < s := Nat.mod_lt _ (by omega)
  obtain ⟨ra, hradef⟩ : ∃ x, a / s = x := ⟨_, rfl⟩
  obtain ⟨ca, hcadef⟩ : ∃ x, a % s = x := ⟨_, rfl⟩
  rw [hradef] at hra
  rw [hcadef] at hca
  by_cases h : 1 ≤ ra
  · have hmem : ((((ra : Int) + -1) * s + ((ca : Int) + 0)).toNat)
        ∈ gridNeighbors s deltas a := by
      apply mem_gridNeighbors.mpr
      refine ⟨(-1, 0), hup, ?_, ?_, ?_, ?_, ?_⟩ <;> simp only [hradef, hcadef]
      · show (0 : Int) ≤ (ra : Int) + -1
        omega
      · show (ra : Int) + -1 < (s : Int)
        omega
      · show (0 : Int) ≤ (ca : Int) + 0
        omega
      · show (ca : Int) + 0 < (s : Int)
        omega
      · show (((((ra : Int) + -1) * s + ((ca : Int) + 0)).toNat : Nat) : Int)
            = ((ra : Int) + -1) * s + ((ca : Int) + 0)
        rw [Int.toNat_of_nonneg]
        have h0 : (0 : Int) ≤ ((ra : Int) + -1) * s :=
          mul_nonneg (by omega) (Int.natCast_nonneg s)
        omega
    exact List.ne_nil_of_mem hmem
  · have hmem : ((((ra : Int) + 1) * s + ((ca : Int) + 0)).toNat)
        ∈ gridNeighbors s deltas a := by
      apply mem_gridNeighbors.mpr
      refine ⟨(1, 0), hdown, ?_, ?_, ?_, ?_, ?_⟩ <;> simp only [hradef, hcadef]
      · show (0 : Int) ≤ (ra : Int) + 1
        omega
      · show (ra : Int) + 1 < (s : Int)
        omega
      · show (0 : Int) ≤ (ca : Int) + 0
        omega
      · show (ca : Int) + 0 < (s : Int)
        omega
      · show (((((ra : Int) + 1) * s + ((ca : Int) + 0)).toNat : Nat) : Int)
            = ((ra : Int) + 1) * s + ((ca : Int) + 0)
        rw [Int.toNat_of_nonneg]
        have h0 : (0 : Int) ≤ ((ra : Int) + 1) * s :=
          mul_nonneg (by omega) (Int.natCast_nonneg s)
        omega
    exact List.ne_nil_of_mem hmem

/-- C4: for every one of the five topology variants and every pair of agent
ids `a`, `b` in `[0, agent_count)`, `b ∈ get_neighbors a` holds exactly when
`a ∈ get_neighbors b`: adjacency is symmetric. -/
theorem layout_adjacency_symm (k : LayoutKind) (size n_agents a b : Nat)
    (ha : a < layoutAgentCount k size n_agents)
    (hb : b < layoutAgentCount k size n_agents) :
    (b ∈ layoutNeighbors k size n_agents a ↔ a ∈ layoutNeighbors k size n_agents b) := by
  cases k with
  | grid4 =>
    simp only [layoutNeighbors, layoutAgentCount, Grid4Layout.get_neighbors] at *
    exact ⟨fun h => gridNeighbors_symm_mp (by decide) ha h,
      fun h => gridNeighbors_symm_mp (by decide) hb h⟩
  | grid8 =>
    simp only [layoutNeighbors, layoutAgentCount, Grid8Layout.get_neighbors] at *
    exact ⟨fun h => gridNeighbors_symm_mp (by decide) ha h,
      fun h => gridNeighbors_symm_mp (by decide) hb h⟩
  | ring =>
    simp only [layoutNeighbors, layoutAgentCount] at *
    exact ring_symm ha hb
  | mesh =>
    simp only [layoutNeighbors, layoutAgentCount] at *
    rw [mesh_mem_iff, mesh_mem_iff]
    constructor
    · rintro ⟨_, h2⟩
      exact ⟨ha, fun he => h2 he.symm⟩
    · rintro ⟨_, h2⟩
      exact ⟨hb, fun he => h2 he.symm⟩
  | star =>
    simp only [layoutNeighbors, layoutAgentCount] at *
    by_cases haz : a = 0
    · subst haz
      by_cases hbz : b = 0
      · subst hbz
        exact Iff.rfl
      · rw [star_mem_hub, star_mem_spoke hbz]
        constructor
        · intro _
          rfl
        · intro _
          exact ⟨by omega, hb⟩
    · by_cases hbz : b = 0
      · subst hbz
        rw [star_mem_spoke haz, star_mem_hub]
        constructor
        · intro _
          exact ⟨by omega, ha⟩
        · intro _
          rfl
      · rw [star_mem_spoke haz, star_mem_spoke hbz]
        constructor
        · intro h
          exact absurd h hbz
        · intro h
          exact absurd h haz

/-- Witness for `layout_adjacency_symm` at the ring with 6 agents, ids 0, 1. -/
theorem layout_adjacency_symm_witness :
    (0 < layoutAgentCount .ring 0 6 ∧ 1 < layoutAgentCount .ring 0 6) ∧
      (1 ∈ layoutNeighbors .ring 0 6 0 ↔ 0 ∈ layoutNeighbors .ring 0 6 1) :=
  ⟨by decide, layout_adjacency_symm .ring 0 6 0 1 (by decide) (by decide)⟩

/-- C5 counterexample: the ring variant with 6 agents, queried at the
out-of-range agent id 10, returns a neighbor list (`.ok [3, 5]`) instead of
failing with `OutOfRangeError`. -/
theorem get_neighbors_out_of_range_counterexample :
    layoutNeighborsE .ring 0 6 10 = Except.ok [3, 5] ∧
      layoutNeighborsE .ring 0 6 10 ≠ Except.error LayoutError.outOfRange := by
  constructor
  · rfl
  · intro h
    rw [show layoutNeighborsE .ring 0 6 10 = Except.ok [3, 5] from rfl] at h
    exact Except.noConfusion h

/-- C5 amended: `get_neighbors` performs no range validation.  For every
variant and every agent id — in range or not — it returns `.ok` of the
variant's neighbor formula applied to the id, and never an `OutOfRangeError`
(given at least one agent, so the formulas' divisions are defined as in
Python). -/
theorem get_neighbors_no_range_check (k : LayoutKind) (size n_agents agent_id : Nat)
    (hcount : 1 ≤ layoutAgentCount k size n_agents) :
    layoutNeighborsE k size n_agents agent_id
      = Except.ok (layoutNeighbors k size n_agents agent_id) := rfl

/-- Witness for `get_neighbors_no_range_check` at the mesh with 4 agents and
the out-of-range id 7. -/
theorem get_neighbors_no_range_check_witness :
    1 ≤ layoutAgentCount .mesh 0 4 ∧
      layoutNeighborsE .mesh 0 4 7 = Except.ok (layoutNeighbors .mesh 0 4 7) :=
  ⟨by decide, get_neighbors_no_range_check .mesh 0 4 7 (by decide)⟩

/-- C7: every topology variant with at least 2 agents returns a non-empty
neighbor list for every valid agent id, so the engine's uniform neighbor
draw never selects from an empty collection. -/
theorem layoutNeighbors_nonempty (k : LayoutKind) (size n_agents agent_id : Nat)
    (hcount : 2 ≤ layoutAgentCount k size n_agents)
    (hid : agent_id < layoutAgentCount k size n_agents) :
    layoutNeighbors k size n_agents agent_id ≠ [] := by
  cases k with
  | grid4 =>
    simp only [layoutNeighbors, layoutAgentCount, Grid4Layout.get_neighbors] at *
    have hs : 2 ≤ size := by
      by_contra hlt
      push_neg at hlt
      interval_cases size <;> omega
    exact gridNeighbors_ne_nil hs hid (by decide) (by decide)
  | grid8 =>
    simp only [layoutNeighbors, layoutAgentCount, Grid8Layout.get_neighbors] at *
    have hs : 2 ≤ size := by
      by_contra hlt
      push_neg at hlt
      interval_cases size <;> omega
    exact gridNeighbors_ne_nil hs hid (by decide) (by decide)
  | ring =>
    simp [layoutNeighbors, RingLayout.get_neighbors]
  | mesh =>
    simp only [layoutNeighbors, layoutAgentCount] at *
    by_cases haz : agent_id = 0
    · exact List.ne_nil_of_mem (mesh_mem_iff.mpr ⟨by omega, by omega⟩ :
        (1 : Nat) ∈ MeshLayout.get_neighbors n_agents agent_id)
    · exact List.ne_nil_of_mem (mesh_mem_iff.mpr ⟨by omega, by omega⟩ :
        (0 : Nat) ∈ MeshLayout.get_neighbors n_agents agent_id)
  | star =>
    simp only [layoutNeighbors, layoutAgentCount] at *
    by_cases haz : agent_id = 0
    · subst haz
      exact List.ne_nil_of_mem (star_mem_hub.mpr ⟨by omega, by omega⟩ :
        (1 : Nat) ∈ StarLayout.get_neighbors n_agents 0)
    · exact List.ne_nil_of_mem ((star_mem_spoke haz).mpr rfl :
        (0 : Nat) ∈ StarLayout.get_neighbors n_agents agent_id)

/-- Witness for `layoutNeighbors_nonempty` at the star with 5 agents, id 3. -/
theorem layoutNeighbors_nonempty_witness :
    (2 ≤ layoutAgentCount .star 0 5 ∧ 3 < layoutAgentCount .star 0 5) ∧
      layoutNeighbors .star 0 5 3 ≠ [] :=
  ⟨by decide, layoutNeighbors_nonempty .star 0 5 3 (by decide) (by decide)⟩

/-- C8: on a ring of `n` agents, every valid agent id has neighbor list
exactly `[(id - 1) mod n, (id + 1) mod n]` (in natural-number form,
`(id + n - 1) % n` is `(id - 1) mod n`), hence exactly 2 neighbors. -/
theorem ring_get_neighbors_spec (n agent_id : Nat) (hid : agent_id < n) :
    RingLayout.get_neighbors n agent_id
        = [(agent_id + n - 1) % n, (agent_id + 1) % n] ∧
      (RingLayout.get_neighbors n agent_id).length = 2 := by
  refine ⟨ring_get_neighbors_eq n agent_id (by omega), ?_⟩
  rw [ring_get_neighbors_eq n agent_id (by omega)]
  rfl

/-- Witness for `ring_get_neighbors_spec` at `n = 6`, id 0. -/
theorem ring_get_neighbors_spec_witness :
    0 < 6 ∧
      (RingLayout.get_neighbors 6 0 = [(0 + 6 - 1) % 6, (0 + 1) % 6] ∧
        (RingLayout.get_neighbors 6 0).length = 2) :=
  ⟨by decide, ring_get_neighbors_spec 6 0 (by decide)⟩

/-- C9: on the same grid side, every neighbor produced by the grid-4 variant
is also produced by the grid-8 variant: the 4-neighborhood is contained in
the 8-neighborhood. -/
theorem grid4_neighbors_subset_grid8 (size agent_id b : Nat)
    (hid : agent_id < size * size)
    (hb : b ∈ Grid4Layout.get_neighbors size agent_id) :
    b ∈ Grid8Layout.get_neighbors size agent_id := by
  unfold Grid4Layout.get_neighbors at hb
  unfold Grid8Layout.get_neighbors
  obtain ⟨d, hd, hrest⟩ := mem_gridNeighbors.mp hb
  exact mem_gridNeighbors.mpr ⟨d, by fin_cases hd <;> decide, hrest⟩

/-- Witness for `grid4_neighbors_subset_grid8` on the side-3 grid, center
cell 4 and its neighbor 1. -/
theorem grid4_neighbors_subset_grid8_witness :
    (4 < 3 * 3 ∧ 1 ∈ Grid4Layout.get_neighbors 3 4) ∧
      1 ∈ Grid8Layout.get_neighbors 3 4 :=
  ⟨by decide, grid4_neighbors_subset_grid8 3 4 1 (by decide) (by decide)⟩

/-! ### Simulation engine (`simulation.py`, `run_simulation`)

The run's shared random source (Python's seeded global `random`) is modelled
as a tape `Nat → Nat` together with the count `pos` of draws consumed so far:
each of the three per-iteration primitives (`random.randint`,
`random.choice`, `random.random() < 0.5`) consumes exactly one tape cell, in
program order.  Seeding with the same seed yields the same tape, so
determinism questions become questions about functions of `(tape, pos)`. -/

/-- One transcript message: round number, speaker and content. -/
structure Msg where
  round : Nat
  speaker : List Char
  content : List Char
deriving DecidableEq, Repr

/-- A call the engine makes on the logger while iterating
(`simulation_logger.py`): `log_iteration_start`, `log_message`,
`log_decision`, `log_summary`. -/
inductive LogEntry where
  | iterStart (iteration total persuader_id defender_id : Nat)
      (persuader_belief defender_belief : List Char)
  | message (round : Nat) (speaker : List Char) (content : List Char)
  | decision (old_belief new_belief : List Char) (change_type : ChangeType)
  | summary (total_iterations belief_changes : Nat)
deriving DecidableEq, Repr

/-- Successful conversation result: ordered transcript and the defender's
candidate new belief. -/
structure ConvOk where
  history : List Msg
  new_belief : List Char
deriving DecidableEq, Repr

/-- Failed conversation: the messages already streamed (and logged) before
the failure, and the error text. -/
structure ConvErr where
  streamed : List Msg
  errText : List Char
deriving DecidableEq, Repr

/-- The conversation collaborator: a function of the persuader's and
defender's beliefs (the engine's `conversation_func`), which may fail. -/
def Collab : Type :=
  List Char → List Char → Except ConvErr ConvOk

/-- Models `random.randint(0, n - 1)`: one draw, a value in `[0, n)`. -/
def drawNat (tape : Nat → Nat) (pos n : Nat) : Nat :=
  tape pos % n

/-- Models `random.choice(l)`: one draw, an element of `l`. -/
def drawChoice (tape : Nat → Nat) (pos : Nat) (l : List Nat) : Nat :=
  l.getD (tape pos % l.length) 0

/-- Models `random.random() < 0.5`: one draw, a boolean. -/
def drawBool (tape : Nat → Nat) (pos : Nat) : Bool :=
  tape pos % 2 = 0

/-- The pair selection of one iteration (`simulation.py` lines 253–264):
draw `agent_id` from `[0, agent_count)`, then a uniform neighbor from
`get_neighbors(agent_id)`, then one uniform boolean deciding who persuades;
the three draws consume the tape in exactly this order. -/
def selectPair (count : Nat) (nbrs : Nat → List Nat) (tape : Nat → Nat) (pos : Nat) :
    Nat × Nat :=
  let agent_id := drawNat tape pos count
  let neighbors := nbrs agent_id
  let neighbor_id := drawChoice tape (pos + 1) neighbors
  if drawBool tape (pos + 2) then (agent_id, neighbor_id) else (neighbor_id, agent_id)

/-- Engine state across iterations: the per-agent beliefs, the cumulative
`belief_changes` counter, the 1-based current iteration number, the number
of random draws consumed, and the log produced so far. -/
structure EngState where
  beliefs : List (List Char)
  belief_changes : Nat
  iteration : Nat
  pos : Nat
  log : List LogEntry
deriving DecidableEq, Repr

/-- One iteration of the `run_simulation` loop: select the pair, log the
iteration start, run the conversation (logging each streamed message),
then log the decision, apply `set_belief` and count the change; a
collaborator failure propagates, keeping the partial log (iteration header
and streamed messages) but finalizing no decision. -/
def runIteration (collab : Collab) (count : Nat) (nbrs : Nat → List Nat)
    (tape : Nat → Nat) (total : Nat) (st : EngState) :
    Except (ConvErr × EngState) EngState :=
  let pd := selectPair count nbrs tape st.pos
  let persuader_belief := st.beliefs.getD pd.1 []
  let defender_belief := st.beliefs.getD pd.2 []
  let log1 := st.log ++ [.iterStart st.iteration total pd.1 pd.2
    persuader_belief defender_belief]
  match collab persuader_belief defender_belief with
  | .error e =>
      .error (e, { st with
        pos := st.pos + 3,
        log := log1 ++ e.streamed.map (fun m => .message m.round m.speaker m.content) })
  | .ok r =>
      let change_type := computeChangeType defender_belief r.new_belief
      .ok { beliefs := st.beliefs.set pd.2 r.new_belief,
            belief_changes :=
              if change_type = .changed then st.belief_changes + 1 else st.belief_changes,
            iteration := st.iteration + 1,
            pos := st.pos + 3,
            log := (log1 ++ r.history.map (fun m => .message m.round m.speaker m.content))
              ++ [.decision defender_belief r.new_belief change_type] }

/-- The iteration loop, by remaining iteration count; a failed iteration
aborts the remaining ones (the loop body is never retried). -/
def runIters (collab : Collab) (count : Nat) (nbrs : Nat → List Nat)
    (tape : Nat → Nat) (total : Nat) : Nat → EngState → Except (ConvErr × EngState) EngState
  | 0, st => .ok st
  | r + 1, st =>
      match runIteration collab count nbrs tape total st with
      | .error e => .error e
      | .ok st' => runIters collab count nbrs tape total r st'

/-- The whole run: `iterations` loop iterations from a fresh seeded source
and an initialized belief list, then the summary record (written only on
normal completion). -/
def run_simulation (collab : Collab) (count : Nat) (nbrs : Nat → List Nat)
    (tape : Nat → Nat) (iterations : Nat) (beliefs0 : List (List Char)) :
    Except (ConvErr × EngState) EngState :=
  match runIters collab count nbrs tape iterations iterations
      ⟨beliefs0, 0, 1, 0, []⟩ with
  | .error e => .error e
  | .ok st => .ok { st with log := st.log ++ [.summary iterations st.belief_changes] }

/-- The `(persuader_id, defender_id)` role assignments recorded in a log. -/
def logPairs : List LogEntry → List (Nat × Nat)
  | [] => []
  | .iterStart _ _ p d _ _ :: rest => (p, d) :: logPairs rest
  | .message _ _ _ :: rest => logPairs rest
  | .decision _ _ _ :: rest => logPairs rest
  | .summary _ _ :: rest => logPairs rest

/-- The closed-form pair/role sequence: a pure function of the topology and
the random tape, consuming three draws per iteration in the fixed order. -/
def pairList (count : Nat) (nbrs : Nat → List Nat) (tape : Nat → Nat) :
    Nat → Nat → List (Nat × Nat)
  | 0, _ => []
  | r + 1, pos => selectPair count nbrs tape pos :: pairList count nbrs tape r (pos + 3)

/-! ### Engine lemmas -/

theorem logPairs_append (l1 l2 : List LogEntry) :
    logPairs (l1 ++ l2) = logPairs l1 ++ logPairs l2 := by
  induction l1 with
  | nil => rfl
  | cons h t ih => cases h <;> simp [logPairs, ih]

theorem logPairs_map_message (ms : List Msg) :
    logPairs (ms.map (fun m => .message m.round m.speaker m.content)) = [] := by
  induction ms with
  | nil => rfl
  | cons h t ih => simp [logPairs, ih]

theorem runIteration_ok (collab : Collab) (count : Nat) (nbrs : Nat → List Nat)
    (tape : Nat → Nat) (total : Nat) (st : EngState) (res : ConvOk)
    (hres : collab (st.beliefs.getD (selectPair count nbrs tape st.pos).1 [])
        (st.beliefs.getD (selectPair count nbrs tape st.pos).2 []) = Except.ok res) :
    runIteration collab count nbrs tape total st = Except.ok
      { beliefs := st.beliefs.set (selectPair count nbrs tape st.pos).2 res.new_belief,
        belief_changes :=
          if computeChangeType (st.beliefs.getD (selectPair count nbrs tape st.pos).2 [])
              res.new_belief = .changed
          then st.belief_changes + 1 else st.belief_changes,
        iteration := st.iteration + 1,
        pos := st.pos + 3,
        log := ((st.log ++ [.iterStart st.iteration total
            (selectPair count nbrs tape st.pos).1 (selectPair count nbrs tape st.pos).2
            (st.beliefs.getD (selectPair count nbrs tape st.pos).1 [])
            (st.beliefs.getD (selectPair count nbrs tape st.pos).2 [])])
          ++ res.history.map (fun m => .message m.round m.speaker m.content))
          ++ [.decision (st.beliefs.getD (selectPair count nbrs tape st.pos).2 [])
            res.new_belief
            (computeChangeType (st.beliefs.getD (selectPair count nbrs tape st.pos).2 [])
              res.new_belief)] } := by
  unfold runIteration
  simp only [hres]

theorem runIteration_error (collab : Collab) (count : Nat) (nbrs : Nat → List Nat)
    (tape : Nat → Nat) (total : Nat) (st : EngState) (e : ConvErr)
    (hfail : collab (st.beliefs.getD (selectPair count nbrs tape st.pos).1 [])
        (st.beliefs.getD (selectPair count nbrs tape st.pos).2 []) = Except.error e) :
    runIteration collab count nbrs tape total st = Except.error (e,
      { st with
        pos := st.pos + 3,
        log := (st.log ++ [.iterStart st.iteration total
            (selectPair count nbrs tape st.pos).1 (selectPair count nbrs tape st.pos).2
            (st.beliefs.getD (selectPair count nbrs tape st.pos).1 [])
            (st.beliefs.getD (selectPair count nbrs tape st.pos).2 [])])
          ++ e.streamed.map (fun m => .message m.round m.speaker m.content) }) := by
  unfold runIteration
  simp only [hfail]

theorem runIters_ok_of_total (collab : Collab) (count : Nat) (nbrs : Nat → List Nat)
    (tape : Nat → Nat) (total : Nat)
    (htotal : ∀ pb db, ∃ res, collab pb db = Except.ok res) :
    ∀ r st, ∃ st', runIters collab count nbrs tape total r st = Except.ok st' ∧
      logPairs st'.log = logPairs st.log ++ pairList count nbrs tape r st.pos := by
  intro r
  induction r with
  | zero =>
    intro st
    exact ⟨st, rfl, by simp [pairList]⟩
  | succ n ih =>
    intro st
    obtain ⟨res, hres⟩ := htotal (st.beliefs.getD (selectPair count nbrs tape st.pos).1 [])
      (st.beliefs.getD (selectPair count nbrs tape st.pos).2 [])
    have hstep := runIteration_ok collab count nbrs tape total st res hres
    obtain ⟨st', hrun, hpairs⟩ := ih
      { beliefs := st.beliefs.set (selectPair count nbrs tape st.pos).2 res.new_belief,
        belief_changes :=
          if computeChangeType (st.beliefs.getD (selectPair count nbrs tape st.pos).2 [])
              res.new_belief = .changed
          then st.belief_changes + 1 else st.belief_changes,
        iteration := st.iteration + 1,
        pos := st.pos + 3,
        log := ((st.log ++ [.iterStart st.iteration total
            (selectPair count nbrs tape st.pos).1 (selectPair count nbrs tape st.pos).2
            (st.beliefs.getD (selectPair count nbrs tape st.pos).1 [])
            (st.beliefs.getD (selectPair count nbrs tape st.pos).2 [])])
          ++ res.history.map (fun m => .message m.round m.speaker m.content))
          ++ [.decision (st.beliefs.getD (selectPair count nbrs tape st.pos).2 [])
            res.new_belief
            (computeChangeType (st.beliefs.getD (selectPair count nbrs tape st.pos).2 [])
              res.new_belief)] }
    refine ⟨st', ?_, ?_⟩
    · show (match runIteration collab count nbrs tape total st with
        | Except.error e => Except.error e
        | Except.ok st1 => runIters collab count nbrs tape total n st1) = Except.ok st'
      rw [hstep]
      exact hrun
    · rw [hpairs]
      simp [logPairs_append, logPairs_map_message, logPairs, pairList, List.append_assoc]

/-- C3: with the same seed (hence the same random tape), the same belief
catalog and topology, and deterministic stub collaborators that always
succeed, two runs of the engine record identical `(persuader, defender)`
role-assignment sequences; both equal the closed-form `pairList`, a function
of the tape and topology alone, whose per-iteration step draws, in this
fixed order, the agent id, then the neighbor, then the role boolean. -/
theorem run_simulation_pair_determinism (count : Nat) (nbrs : Nat → List Nat)
    (tape : Nat → Nat) (iterations : Nat) (beliefs1 beliefs2 : List (List Char))
    (c1 c2 : Collab)
    (h1 : ∀ pb db, ∃ res, c1 pb db = Except.ok res)
    (h2 : ∀ pb db, ∃ res, c2 pb db = Except.ok res) :
    ∃ st1 st2,
      run_simulation c1 count nbrs tape iterations beliefs1 = Except.ok st1 ∧
      run_simulation c2 count nbrs tape iterations beliefs2 = Except.ok st2 ∧
      logPairs st1.log = logPairs st2.log ∧
      logPairs st1.log = pairList count nbrs tape iterations 0 := by
  obtain ⟨s1, hrun1, hpairs1⟩ := runIters_ok_of_total c1 count nbrs tape iterations h1
    iterations ⟨beliefs1, 0, 1, 0, []⟩
  obtain ⟨s2, hrun2, hpairs2⟩ := runIters_ok_of_total c2 count nbrs tape iterations h2
    iterations ⟨beliefs2, 0, 1, 0, []⟩
  refine ⟨{ s1 with log := s1.log ++ [.summary iterations s1.belief_changes] },
    { s2 with log := s2.log ++ [.summary iterations s2.belief_changes] }, ?_, ?_, ?_, ?_⟩
  · unfold run_simulation
    rw [hrun1]
  · unfold run_simulation
    rw [hrun2]
  · simp only [logPairs_append, logPairs]
    rw [hpairs1, hpairs2]
  · simp only [logPairs_append, logPairs]
    rw [hpairs1]
    simp [logPairs]

/-- Stub collaborator for witnesses: always succeeds, returning the
defender's belief unchanged with an empty transcript. -/
def stubCollab : Collab := fun _ db => Except.ok ⟨[], db⟩

/-- All-zero random tape for witnesses. -/
def zeroTape : Nat → Nat := fun _ => 0

/-- Witness for `run_simulation_pair_determinism`: ring of 2 agents, 2
iterations, stub collaborator, zero tape. -/
theorem run_simulation_pair_determinism_witness :
    ∃ st1 st2,
      run_simulation stubCollab 2 (RingLayout.get_neighbors 2) zeroTape 2
          [['a'], ['b']] = Except.ok st1 ∧
      run_simulation stubCollab 2 (RingLayout.get_neighbors 2) zeroTape 2
          [['a'], ['b']] = Except.ok st2 ∧
      logPairs st1.log = logPairs st2.log ∧
      logPairs st1.log = pairList 2 (RingLayout.get_neighbors 2) zeroTape 2 0 :=
  run_simulation_pair_determinism 2 (RingLayout.get_neighbors 2) zeroTape 2
    [['a'], ['b']] [['a'], ['b']] stubCollab stubCollab
    (fun _ db => ⟨⟨[], db⟩, rfl⟩) (fun _ db => ⟨⟨[], db⟩, rfl⟩)

theorem runIters_add (collab : Collab) (count : Nat) (nbrs : Nat → List Nat)
    (tape : Nat → Nat) (total : Nat) :
    ∀ m n st, runIters collab count nbrs tape total (m + n) st
      = match runIters collab count nbrs tape total m st with
        | Except.error e => Except.error e
        | Except.ok st' => runIters collab count nbrs tape total n st' := by
  intro m
  induction m with
  | zero =>
    intro n st
    simp [runIters]
  | succ k ih =>
    intro n st
    rw [show k + 1 + n = (k + n) + 1 by omega]
    show (match runIteration collab count nbrs tape total st with
      | Except.error e => Except.error e
      | Except.ok st1 => runIters collab count nbrs tape total (k + n) st1) = _
    cases hit : runIteration collab count nbrs tape total st with
    | error e =>
      show Except.error e = _
      have : runIters collab count nbrs tape total (k + 1) st = Except.error e := by
        show (match runIteration collab count nbrs tape total st with
          | Except.error e => Except.error e
          | Except.ok st1 => runIters collab count nbrs tape total k st1) = _
        rw [hit]
      rw [this]
    | ok st1 =>
      show runIters collab count nbrs tape total (k + n) st1 = _
      rw [ih n st1]
      have : runIters collab count nbrs tape total (k + 1) st
          = runIters collab count nbrs tape total k st1 := by
        show (match runIteration collab count nbrs tape total st with
          | Except.error e => Except.error e
          | Except.ok st2 => runIters collab count nbrs tape total k st2) = _
        rw [hit]
      rw [this]

/-- C6: if, after any number of completed iterations, the conversation
collaborator fails on the selected pair, the engine applies no partial
update for that step — the beliefs and the cumulative change counter are
those of the last completed iteration, the already-written log is retained,
the entries added for the failing step contain no decision and no summary
record — and the error propagates, aborting the run however many iterations
remain (no retry). -/
theorem converse_failure_aborts_without_update (collab : Collab) (count : Nat)
    (nbrs : Nat → List Nat) (tape : Nat → Nat) (total k r : Nat)
    (init st : EngState) (e : ConvErr)
    (hk : runIters collab count nbrs tape total k init = Except.ok st)
    (hfail : collab (st.beliefs.getD (selectPair count nbrs tape st.pos).1 [])
        (st.beliefs.getD (selectPair count nbrs tape st.pos).2 []) = Except.error e) :
    ∃ st',
      runIters collab count nbrs tape total (k + (r + 1)) init = Except.error (e, st') ∧
      st'.beliefs = st.beliefs ∧
      st'.belief_changes = st.belief_changes ∧
      st'.log.take st.log.length = st.log ∧
      ∀ entry ∈ st'.log.drop st.log.length,
        (∀ old new ct, entry ≠ LogEntry.decision old new ct) ∧
        (∀ t c, entry ≠ LogEntry.summary t c) := by
  have hit := runIteration_error collab count nbrs tape total st e hfail
  refine ⟨{ st with
      pos := st.pos + 3,
      log := (st.log ++ [.iterStart st.iteration total
          (selectPair count nbrs tape st.pos).1 (selectPair count nbrs tape st.pos).2
          (st.beliefs.getD (selectPair count nbrs tape st.pos).1 [])
          (st.beliefs.getD (selectPair count nbrs tape st.pos).2 [])])
        ++ e.streamed.map (fun m => .message m.round m.speaker m.content) },
    ?_, rfl, rfl, ?_, ?_⟩
  · rw [runIters_add collab count nbrs tape total k (r + 1) init, hk]
    show (match runIteration collab count nbrs tape total st with
      | Except.error e => Except.error e
      | Except.ok st1 => runIters collab count nbrs tape total r st1) = _
    rw [hit]
  · rw [List.append_assoc]
    exact List.take_left st.log _
  · rw [List.append_assoc, List.drop_left st.log _]
    intro entry he
    rcases List.mem_append.mp he with hl | hr
    · rw [List.mem_singleton.mp hl]
      constructor
      · intro old new ct hcon
        exact LogEntry.noConfusion hcon
      · intro t c hcon
        exact LogEntry.noConfusion hcon
    · obtain ⟨m, _, rfl⟩ := List.mem_map.mp hr
      constructor
      · intro old new ct hcon
        exact LogEntry.noConfusion hcon
      · intro t c hcon
        exact LogEntry.noConfusion hcon

/-- Error value used in the C6 witness. -/
def witErr : ConvErr := ⟨[], "backend unavailable".toList⟩

/-- Collaborator that always fails, for the C6 witness. -/
def failCollab : Collab := fun _ _ => Except.error witErr

/-- Initial engine state used in the C6 witness. -/
def witInit : EngState := ⟨[['a'], ['b']], 0, 1, 0, []⟩

/-- Witness for `converse_failure_aborts_without_update`: ring of 2 agents,
failure at the first iteration of a 3-iteration remainder. -/
theorem converse_failure_aborts_without_update_witness :
    (runIters failCollab 2 (RingLayout.get_neighbors 2) zeroTape 5 0 witInit
        = Except.ok witInit ∧
      failCollab
        (witInit.beliefs.getD
          (selectPair 2 (RingLayout.get_neighbors 2) zeroTape witInit.pos).1 [])
        (witInit.beliefs.getD
          (selectPair 2 (RingLayout.get_neighbors 2) zeroTape witInit.pos).2 [])
        = Except.error witErr) ∧
    (∃ st', runIters failCollab 2 (RingLayout.get_neighbors 2) zeroTape 5 (0 + (2 + 1)) witInit
        = Except.error (witErr, st') ∧
      st'.beliefs = witInit.beliefs ∧
      st'.belief_changes = witInit.belief_changes ∧
      st'.log.take witInit.log.length = witInit.log ∧
      ∀ entry ∈ st'.log.drop witInit.log.length,
        (∀ old new ct, entry ≠ LogEntry.decision old new ct) ∧
        (∀ t c, entry ≠ LogEntry.summary t c)) :=
  ⟨⟨rfl, rfl⟩, converse_failure_aborts_without_update failCollab 2
    (RingLayout.get_neighbors 2) zeroTape 5 0 2 witInit witInit witErr rfl rfl⟩
/-! Digits and the string-search primitive of the parser embedding. -/

/-- ASCII decimal digit (the parser's `\d`). -/
def isDigitChar (c : Char) : Bool :=
  48 ≤ c.toNat && c.toNat ≤ 57

/-- ASCII word character (the parser's `\w`). -/
def isWordChar (c : Char) : Bool :=
  isDigitChar c || (65 ≤ c.toNat && c.toNat ≤ 90) || (97 ≤ c.toNat && c.toNat ≤ 122)
    || c = '_'

/-- Decimal digit characters of `n`, most significant first (Python `str(n)`
for a non-negative int). -/
def natDigits (n : Nat) : List Char :=
  if h : n < 10 then [Char.ofNat (48 + n)]
  else natDigits (n / 10) ++ [Char.ofNat (48 + n % 10)]
termination_by n
decreasing_by exact Nat.div_lt_self (by omega) (by omega)

/-- Numeric value of a digit string (Python `int(...)` on a digit group). -/
def digitsToNat (l : List Char) : Nat :=
  l.foldl (fun acc c => acc * 10 + (c.toNat - 48)) 0

theorem digitsToNat_append (a b : List Char) :
    digitsToNat (a ++ b) = b.foldl (fun acc c => acc * 10 + (c.toNat - 48)) (digitsToNat a) := by
  unfold digitsToNat
  rw [List.foldl_append]

theorem digitsToNat_natDigits (n : Nat) : digitsToNat (natDigits n) = n := by
  induction n using Nat.strong_induction_on with
  | _ n ih =>
    unfold natDigits
    split
    · next h =>
      simp [digitsToNat, toNat_ofNat_of_lt (show 48 + n < 0xd800 by omega)]
    · next h =>
      rw [digitsToNat_append, ih (n / 10) (Nat.div_lt_self (by omega) (by omega))]
      simp [toNat_ofNat_of_lt (show 48 + n % 10 < 0xd800 by omega)]
      omega

theorem natDigits_all_digit (n : Nat) : ∀ c ∈ natDigits n, isDigitChar c = true := by
  induction n using Nat.strong_induction_on with
  | _ n ih =>
    unfold natDigits
    split
    · next h =>
      intro c hc
      rw [List.mem_singleton] at hc
      subst hc
      simp [isDigitChar, toNat_ofNat_of_lt (show 48 + n < 0xd800 by omega)]
      omega
    · next h =>
      intro c hc
      rw [List.mem_append] at hc
      rcases hc with hc | hc
      · exact ih (n / 10) (Nat.div_lt_self (by omega) (by omega)) c hc
      · rw [List.mem_singleton] at hc
        subst hc
        simp [isDigitChar, toNat_ofNat_of_lt (show 48 + n % 10 < 0xd800 by omega)]
        omega

theorem natDigits_ne_nil (n : Nat) : natDigits n ≠ [] := by
  unfold natDigits
  split <;> simp

/-- Greedy digit-prefix extraction: `takeWhile` applied to a digit block
followed by a non-digit boundary returns exactly the block. -/
theorem takeWhile_digits_boundary (d r : List Char) (hd : ∀ c ∈ d, isDigitChar c = true)
    (hr : ∀ c, r.head? = some c → isDigitChar c = false) :
    (d ++ r).takeWhile isDigitChar = d := by
  induction d with
  | nil =>
    cases r with
    | nil => rfl
    | cons c rest =>
      simp only [List.nil_append, List.takeWhile]
      rw [hr c rfl]
  | cons c rest ih =>
    simp only [List.cons_append, List.takeWhile]
    rw [hd c (by simp)]
    simp [ih (fun x hx => hd x (by simp [hx]))]

/-! String search: `findFrom s pat i` is the least `j ≥ i` at which `pat`
occurs in `s` (models the scan of `re.search`/lookahead resolution). -/

def findFrom (s pat : List Char) (i : Nat) : Option Nat :=
  (List.range' i (s.length + 1 - i)).find? (fun j => pat.isPrefixOf (s.drop j))

theorem find_range_eq_some {p : Nat → Bool} {i n j : Nat} (hij : i ≤ j) (hjn : j < i + n)
    (hp : p j = true) (hmin : ∀ m, i ≤ m → m < j → p m = false) :
    (List.range' i n).find? p = some j := by
  induction n generalizing i with
  | zero => omega
  | succ n ih =>
    rw [List.range'_succ, List.find?_cons]
    by_cases hii : i = j
    · subst hii
      rw [hp]
    · rw [hmin i le_rfl (by omega)]
      exact ih (by omega) (by omega) (fun m h1 h2 => hmin m (by omega) h2)

theorem findFrom_eq_none (s pat : List Char) (i : Nat)
    (h : ∀ m, i ≤ m → ¬ pat.isPrefixOf (s.drop m)) :
    findFrom s pat i = none := by
  rw [findFrom, List.find?_eq_none]
  intro j hj
  have hji : i ≤ j := (List.mem_range'_1.mp hj).1
  simpa using h j hji

theorem findFrom_eq_some (s pat : List Char) (i j : Nat) (hpat : pat ≠ [])
    (hij : i ≤ j) (hocc : pat.isPrefixOf (s.drop j))
    (hmin : ∀ m, i ≤ m → m < j → ¬ pat.isPrefixOf (s.drop m)) :
    findFrom s pat i = some j := by
  have hplen : 0 < pat.length := List.length_pos.mpr hpat
  have hjlen : j + pat.length ≤ s.length := by
    have h1 : pat.length ≤ (s.drop j).length :=
      (List.isPrefixOf_iff_prefix.mp hocc).length_le
    rw [List.length_drop] at h1
    omega
  rw [findFrom]
  exact find_range_eq_some hij (by omega) hocc
    (fun m h1 h2 => Bool.eq_false_iff.mpr (hmin m h1 h2))

theorem findFrom_here (s pat : List Char) (i : Nat) (hi : i ≤ s.length)
    (hocc : pat.isPrefixOf (s.drop i)) : findFrom s pat i = some i := by
  rw [findFrom]
  have hn : s.length + 1 - i = (s.length - i) + 1 := by omega
  rw [hn, List.range'_succ, List.find?_cons, hocc]

/-! Infix toolkit -/

theorem not_infix_of_char {pat s : List Char} {c : Char} (hc : c ∈ pat) (hs : c ∉ s) :
    ¬ pat <:+: s :=
  fun h => hs (h.subset hc)

theorem infix_of_prefixAt {s pat : List Char} {m : Nat}
    (h : pat.isPrefixOf (s.drop m)) : pat <:+: s := by
  obtain ⟨r, hr⟩ := List.isPrefixOf_iff_prefix.mp h
  exact ⟨s.take m, r, by rw [List.append_assoc, hr, List.take_append_drop]⟩

theorem prefixAt_tail {s pat : List Char} {i m : Nat} (him : i ≤ m)
    (h : pat.isPrefixOf (s.drop m)) : pat <:+: s.drop i := by
  have : s.drop m = (s.drop i).drop (m - i) := by
    rw [List.drop_drop]
    congr 1
    omega
  rw [this] at h
  exact infix_of_prefixAt h

/-- No proper nonempty suffix of `pat` is also a prefix of `pat` of the same
length: rules out occurrences of `pat` straddling into a literal copy of
itself. -/
def selfOverlapFree (pat : List Char) : Bool :=
  (List.range pat.length).all fun k => k == 0 || pat.drop k != pat.take (pat.length - k)

theorem selfOverlapFree_spec {pat : List Char} (h : selfOverlapFree pat = true) :
    ∀ k, 0 < k → k < pat.length → pat.drop k ≠ pat.take (pat.length - k) := by
  intro k hk1 hk2
  rw [selfOverlapFree, List.all_eq_true] at h
  have hk := h k (List.mem_range.mpr hk2)
  rw [Bool.or_eq_true] at hk
  rcases hk with h1 | h1
  · rw [beq_iff_eq] at h1
    omega
  · exact bne_iff_ne.mp h1

theorem infix_of_prefix_drop {s pat : List Char} {m : Nat} (h : pat <+: s.drop m) :
    pat <:+: s := by
  obtain ⟨r, hr⟩ := h
  exact ⟨s.take m, r, by rw [List.append_assoc, hr, List.take_append_drop]⟩

theorem infix_drop_of_prefix_drop {s pat : List Char} {i m : Nat} (him : i ≤ m)
    (h : pat <+: s.drop m) : pat <:+: s.drop i := by
  have heq : s.drop m = (s.drop i).drop (m - i) := by
    rw [List.drop_drop]
    congr 1
    omega
  rw [heq] at h
  exact infix_of_prefix_drop h

theorem findFrom_eq_none_of_not_infix (s pat : List Char) (i : Nat)
    (h : ¬ pat <:+: s.drop i) : findFrom s pat i = none :=
  findFrom_eq_none _ _ _ (fun m hm hpre =>
    h (infix_drop_of_prefix_drop hm (List.isPrefixOf_iff_prefix.mp hpre)))

theorem findFrom_split {x pat y : List Char} (i : Nat) (hpat : pat ≠ [])
    (hi : i ≤ x.length) (hov : selfOverlapFree pat = true)
    (hnx : ¬ pat <:+: x.drop i) :
    findFrom (x ++ (pat ++ y)) pat i = some x.length := by
  apply findFrom_eq_some _ _ _ _ hpat hi
  · rw [List.drop_left]
    exact List.isPrefixOf_iff_prefix.mpr (List.prefix_append pat y)
  · intro m him hmx hpre
    have h1 : pat <+: x.drop m ++ (pat ++ y) := by
      have h0 := List.isPrefixOf_iff_prefix.mp hpre
      rwa [List.drop_append_of_le_length (by omega)] at h0
    by_cases hcase : m + pat.length ≤ x.length
    · have h2 : pat = (x.drop m ++ (pat ++ y)).take pat.length :=
        List.prefix_iff_eq_take.mp h1
      rw [List.take_append_of_le_length (by rw [List.length_drop]; omega)] at h2
      have h3 : pat <+: x.drop m := h2 ▸ List.take_prefix _ _
      exact hnx (infix_drop_of_prefix_drop him h3)
    · push_neg at hcase
      have hk1 : 0 < x.length - m := by omega
      have hk2 : x.length - m < pat.length := by omega
      have hxm_len : (x.drop m).length = x.length - m := by
        rw [List.length_drop]
      have h2 : pat = (x.drop m ++ (pat ++ y)).take pat.length :=
        List.prefix_iff_eq_take.mp h1
      have h3 : pat.drop (x.length - m) = (pat ++ y).take (pat.length - (x.length - m)) := by
        calc pat.drop (x.length - m)
            = ((x.drop m ++ (pat ++ y)).take pat.length).drop (x.length - m) := by rw [← h2]
          _ = ((x.drop m ++ (pat ++ y)).drop (x.length - m)).take
              (pat.length - (x.length - m)) := by rw [List.drop_take]
          _ = (pat ++ y).take (pat.length - (x.length - m)) := by
              rw [List.drop_left' hxm_len]
      have h4 : pat.drop (x.length - m) = pat.take (pat.length - (x.length - m)) := by
        rw [h3, List.take_append_of_le_length (by omega)]
      exact selfOverlapFree_spec hov _ hk1 hk2 h4

/-! Line structure: the written block is a join of newline-free lines, and
occurrences of the parser's patterns are constrained by that structure. -/

/-- Join a list of lines with newline separators (no trailing newline). -/
def joinLines : List (List Char) → List Char
  | [] => []
  | [l] => l
  | l :: L => l ++ '\n' :: joinLines L

theorem joinLines_cons_cons (l l2 : List Char) (L : List (List Char)) :
    joinLines (l :: l2 :: L) = l ++ '\n' :: joinLines (l2 :: L) := rfl

theorem prefix_append_cons_of_not_mem {pat u v : List Char} {c : Char} (hc : c ∉ pat)
    (h : pat <+: u ++ c :: v) : pat <+: u := by
  induction u generalizing pat with
  | nil =>
    cases pat with
    | nil => exact List.nil_prefix
    | cons p pat' =>
      rw [List.nil_append, List.cons_prefix_cons] at h
      exact absurd (h.1 ▸ List.mem_cons_self p pat') hc
  | cons d u ih =>
    cases pat with
    | nil => exact List.nil_prefix
    | cons p pat' =>
      rw [List.cons_append, List.cons_prefix_cons] at h
      rw [h.1]
      rw [List.cons_prefix_cons]
      exact ⟨rfl, ih (fun hmem => hc (List.mem_cons_of_mem p hmem)) h.2⟩

theorem infix_append_cons_split {pat u v : List Char} {c : Char} (hc : c ∉ pat)
    (h : pat <:+: (u ++ c :: v)) : pat <:+: u ∨ pat <:+: v := by
  induction u with
  | nil =>
    rw [List.nil_append, List.infix_cons_iff] at h
    rcases h with h | h
    · exact Or.inl (prefix_append_cons_of_not_mem (u := []) hc h).isInfix
    · exact Or.inr h
  | cons d u ih =>
    rw [List.cons_append, List.infix_cons_iff] at h
    rcases h with h | h
    · exact Or.inl (prefix_append_cons_of_not_mem hc (by simpa using h)).isInfix
    · rcases ih h with h1 | h1
      · exact Or.inl (List.infix_cons h1)
      · exact Or.inr h1

/-- A newline-free pattern occurring in a join of newline-free lines occurs
in one of the lines. -/
theorem infix_joinLines_single {pat : List Char} (hnl : '\n' ∉ pat) (hpat : pat ≠ []) :
    ∀ {L : List (List Char)}, pat <:+: joinLines L → ∃ l ∈ L, pat <:+: l := by
  intro L
  induction L with
  | nil =>
    intro h
    rw [show joinLines [] = [] from rfl, List.infix_nil] at h
    exact absurd h hpat
  | cons l L ih =>
    intro h
    cases L with
    | nil => exact ⟨l, by simp, h⟩
    | cons l2 L2 =>
      rw [joinLines_cons_cons] at h
      rcases infix_append_cons_split hnl h with h1 | h1
      · exact ⟨l, by simp, h1⟩
      · obtain ⟨l', hl', hinf⟩ := ih h1
        exact ⟨l', List.mem_cons_of_mem l hl', hinf⟩

theorem suffix_cons_of_suffix {l u : List Char} {a : Char} (h : l <:+ u) : l <:+ a :: u := by
  obtain ⟨t, ht⟩ := h
  exact ⟨a :: t, by rw [← ht]; rfl⟩

theorem prefix_two_line {p q u v : List Char} (hp : '\n' ∉ p) (hu : '\n' ∉ u)
    (h : (p ++ '\n' :: q) <+: (u ++ '\n' :: v)) : p = u ∧ q <+: v := by
  induction p generalizing u with
  | nil =>
    cases u with
    | nil =>
      rw [List.nil_append, List.nil_append, List.cons_prefix_cons] at h
      exact ⟨rfl, h.2⟩
    | cons e u' =>
      rw [List.nil_append, List.cons_append, List.cons_prefix_cons] at h
      exact absurd (h.1 ▸ List.mem_cons_self e u') hu
  | cons c p' ih =>
    cases u with
    | nil =>
      rw [List.cons_append, List.nil_append, List.cons_prefix_cons] at h
      exact absurd (h.1.symm ▸ List.mem_cons_self c p') hp
    | cons e u' =>
      rw [List.cons_append, List.cons_append, List.cons_prefix_cons] at h
      obtain ⟨h1, h2⟩ := ih (fun hm => hp (List.mem_cons_of_mem c hm))
        (fun hm => hu (List.mem_cons_of_mem e hm)) h.2
      exact ⟨by rw [h.1, h1], h2⟩

theorem infix_two_line_step {p q u v : List Char} (hp : '\n' ∉ p) (hq : '\n' ∉ q)
    (hu : '\n' ∉ u) (h : (p ++ '\n' :: q) <:+: (u ++ '\n' :: v)) :
    (p <:+ u ∧ q <+: v) ∨ (p ++ '\n' :: q) <:+: v := by
  induction u generalizing p with
  | nil =>
    rw [List.nil_append, List.infix_cons_iff] at h
    rcases h with h | h
    · cases p with
      | nil =>
        rw [List.nil_append, List.cons_prefix_cons] at h
        exact Or.inl ⟨List.nil_suffix, h.2⟩
      | cons c p' =>
        rw [List.cons_append, List.cons_prefix_cons] at h
        exact absurd (h.1.symm ▸ List.mem_cons_self c p') hp
    · exact Or.inr h
  | cons d u' ih =>
    rw [List.cons_append, List.infix_cons_iff] at h
    rcases h with h | h
    · have hdu : '\n' ∉ d :: u' := hu
      have := prefix_two_line hp hdu (by simpa using h)
      exact Or.inl ⟨this.1 ▸ List.suffix_rfl, this.2⟩
    · rcases ih hp (fun hm => hu (List.mem_cons_of_mem d hm)) h with ⟨h1, h2⟩ | h1
      · exact Or.inl ⟨suffix_cons_of_suffix h1, h2⟩
      · exact Or.inr h1

/-- A pattern of shape `p ++ '\n' :: q` (`p`, `q` newline-free) occurring in
a join of newline-free lines occurs across a consecutive line pair: `p` as a
suffix of one line and `q` as a prefix of the next. -/
theorem infix_joinLines_two_line {p q : List Char} (hp : '\n' ∉ p) (hq : '\n' ∉ q) :
    ∀ {L : List (List Char)}, (∀ l ∈ L, '\n' ∉ l) →
      (p ++ '\n' :: q) <:+: joinLines L →
      ∃ pr ∈ L.zip L.tail, p <:+ pr.1 ∧ q <+: pr.2 := by
  intro L
  induction L with
  | nil =>
    intro _ h
    rw [show joinLines [] = [] from rfl, List.infix_nil] at h
    exact absurd h (by simp)
  | cons l L ih =>
    intro hL h
    cases L with
    | nil =>
      exact absurd h (not_infix_of_char (c := '\n') (by simp) (hL l (by simp)))
    | cons l2 L2 =>
      rw [joinLines_cons_cons] at h
      rcases infix_two_line_step hp hq (hL l (by simp)) h with ⟨h1, h2⟩ | h1
      · refine ⟨(l, l2), ?_, h1, ?_⟩
        · simp
        · cases L2 with
          | nil => exact h2
          | cons l3 L3 =>
            rw [joinLines_cons_cons] at h2
            exact prefix_append_cons_of_not_mem hq h2
      · obtain ⟨pr, hpr, hinf⟩ := ih (fun x hx => hL x (List.mem_cons_of_mem l hx)) h1
        refine ⟨pr, ?_, hinf⟩
        simp only [List.tail_cons, List.zip_cons_cons]
        exact List.mem_cons_of_mem _ hpr

/-! ### Log writer (`simulation_logger.py`) -/

/-- The 80-character `=` rule line. -/
def eq80 : List Char := List.replicate 80 '='

/-- The 40-character `-` rule line. -/
def dash40 : List Char := List.replicate 40 '-'

/-- Python `str.upper()` (ASCII range), applied characterwise. -/
def pyUpper (s : List Char) : List Char :=
  s.map Char.toUpper

/-- Text of `SimulationLogger.log_iteration_start`: rule, `ITERATION i/total`
and timestamp, rule, the persuader and defender sections, and the
`CONVERSATION` banner. -/
def log_iteration_start (iteration total persuader_id : Nat) (persuader_pos : List Char)
    (defender_id : Nat) (defender_pos : List Char)
    (persuader_belief defender_belief : List Char) (time : List Char) : List Char :=
  eq80 ++ "\n".toList
    ++ "ITERATION ".toList ++ natDigits iteration ++ "/".toList ++ natDigits total
    ++ "\n".toList
    ++ "Time: ".toList ++ time ++ "\n".toList
    ++ eq80 ++ "\n\n".toList
    ++ "PERSUADER: Agent ".toList ++ natDigits persuader_id ++ " @ ".toList
    ++ persuader_pos ++ "\n".toList
    ++ "Belief: ".toList ++ persuader_belief ++ "\n\n".toList
    ++ "DEFENDER: Agent ".toList ++ natDigits defender_id ++ " @ ".toList
    ++ defender_pos ++ "\n".toList
    ++ "Belief: ".toList ++ defender_belief ++ "\n\n".toList
    ++ dash40 ++ "\n".toList ++ "CONVERSATION\n".toList ++ dash40 ++ "\n\n".toList

/-- Text of one `SimulationLogger.log_message` call. -/
def log_message (m : Msg) : List Char :=
  "[Round ".toList ++ natDigits m.round ++ "] ".toList ++ pyUpper m.speaker
    ++ ":\n".toList ++ m.content ++ "\n\n".toList

/-- Text of `SimulationLogger.log_decision`. -/
def log_decision (old_belief new_belief : List Char) (change_type : ChangeType) : List Char :=
  dash40 ++ "\n".toList ++ "DECISION\n".toList ++ dash40 ++ "\n".toList
    ++ "Old belief: ".toList ++ old_belief ++ "\n\n".toList
    ++ "New belief: ".toList ++ new_belief ++ "\n\n".toList
    ++ "Change type: ".toList ++ pyUpper change_type.text ++ "\n\n".toList

/-- The full text an iteration contributes to the log: `log_iteration_start`,
then one `log_message` per transcript entry in order, then `log_decision`. -/
def writeIteration (iteration total persuader_id : Nat) (persuader_pos : List Char)
    (defender_id : Nat) (defender_pos : List Char)
    (persuader_belief defender_belief : List Char) (time : List Char)
    (msgs : List Msg) (old_belief new_belief : List Char)
    (change_type : ChangeType) : List Char :=
  log_iteration_start iteration total persuader_id persuader_pos defender_id defender_pos
      persuader_belief defender_belief time
    ++ (msgs.map log_message).join
    ++ log_decision old_belief new_belief change_type

/-! ### Log parser (`replay_chat.py`, `parse_log_file`)

The regular-expression searches of `parse_log_file` are embedded as
hand-rolled scans with the same leftmost/shortest semantics: `re.search`
finds the leftmost position at which the whole pattern matches, a non-greedy
group extends to the nearest position at which the rest of the pattern (or a
lookahead) succeeds, and a greedy `\d+`/`\w+` takes the longest run.  The
embedding covers a log text containing one iteration block (Python's
`finditer` then visits exactly one match); on a malformed block the
embedding answers `none` where Python would skip the block. -/

/-- One parsed iteration (the dict built per match in `parse_log_file`). -/
structure ParsedIter where
  persuader_id : Nat
  defender_id : Nat
  persuader_belief : List Char
  defender_belief : List Char
  messages : List Msg
  old_belief : List Char
  new_belief : List Char
  change_type : List Char
deriving DecidableEq, Repr

/-- The persuader search:
`PERSUADER: Agent (\d+) @ .+?\nBelief: (.+?)(?=\n\nDEFENDER:)` (DOTALL). -/
def findPersuader (t : List Char) : Option (Nat × List Char) := do
  let p ← findFrom t "PERSUADER: Agent ".toList 0
  let ds := (t.drop (p + 17)).takeWhile isDigitChar
  if ds.isEmpty then none
  else
    let afterDs := p + 17 + ds.length
    if " @ ".toList.isPrefixOf (t.drop afterDs) then
      let q ← findFrom t "\nBelief: ".toList (afterDs + 3 + 1)
      let r ← findFrom t "\n\nDEFENDER:".toList (q + 9 + 1)
      some (digitsToNat ds, pyStrip ((t.drop (q + 9)).take (r - (q + 9))))
    else none

/-- The defender search:
`DEFENDER: Agent (\d+) @ .+?\nBelief: (.+?)(?=\n\n-{40})` (DOTALL). -/
def findDefender (t : List Char) : Option (Nat × List Char) := do
  let p ← findFrom t "DEFENDER: Agent ".toList 0
  let ds := (t.drop (p + 16)).takeWhile isDigitChar
  if ds.isEmpty then none
  else
    let afterDs := p + 16 + ds.length
    if " @ ".toList.isPrefixOf (t.drop afterDs) then
      let q ← findFrom t "\nBelief: ".toList (afterDs + 3 + 1)
      let r ← findFrom t ("\n\n".toList ++ dash40) (q + 9 + 1)
      some (digitsToNat ds, pyStrip ((t.drop (q + 9)).take (r - (q + 9))))
    else none

/-- One step of the message `finditer` over
`\[Round (\d+)\] (PERSUADER|DEFENDER):\n(.+?)(?=\[Round|\n-{40}\nDECISION)`:
returns the parsed message and the position at which scanning resumes. -/
def parseMessagesAux (t : List Char) : Nat → Nat → List Msg
  | 0, _ => []
  | fuel + 1, i =>
    match findFrom t "[Round ".toList i with
    | none => []
    | some p =>
      let ds := (t.drop (p + 7)).takeWhile isDigitChar
      if ds.isEmpty then []
      else
        let j := p + 7 + ds.length
        if "] ".toList.isPrefixOf (t.drop j) then
          let spk : Option (List Char × Nat) :=
            if "PERSUADER:\n".toList.isPrefixOf (t.drop (j + 2)) then
              some ("persuader".toList, 9)
            else if "DEFENDER:\n".toList.isPrefixOf (t.drop (j + 2)) then
              some ("defender".toList, 8)
            else none
          match spk with
          | none => []
          | some (speaker, slen) =>
            let contentStart := j + 2 + slen + 2
            let stop1 := findFrom t "[Round".toList (contentStart + 1)
            let stop2 := findFrom t ("\n".toList ++ dash40 ++ "\nDECISION".toList)
              (contentStart + 1)
            match stop1, stop2 with
            | none, none => []
            | _, _ =>
              let stop := min (stop1.getD t.length) (stop2.getD t.length)
              { round := digitsToNat ds, speaker := speaker,
                content := pyStrip ((t.drop contentStart).take (stop - contentStart)) }
                :: parseMessagesAux t fuel stop
        else []

/-- All messages of an iteration text. -/
def parseMessages (t : List Char) : List Msg :=
  parseMessagesAux t (t.length + 1) 0

/-- The decision search:
`DECISION\n-{40}\nOld belief: (.+?)\n\nNew belief: (.+?)\n\nChange type: (\w+)`. -/
def findDecision (t : List Char) : Option (List Char × List Char × List Char) := do
  let p ← findFrom t ("DECISION\n".toList ++ dash40 ++ "\nOld belief: ".toList) 0
  let oldStart := p + 9 + 40 + 13
  let q ← findFrom t "\n\nNew belief: ".toList (oldStart + 1)
  let newStart := q + 14
  let r ← findFrom t "\n\nChange type: ".toList (newStart + 1)
  let w := (t.drop (r + 15)).takeWhile isWordChar
  if w.isEmpty then none
  else
    some (pyStrip ((t.drop oldStart).take (q - oldStart)),
      pyStrip ((t.drop newStart).take (r - newStart)),
      pyLower (pyStrip w))

/-- Body extraction for one iteration block: the persuader and defender
sections must parse; the decision defaults to the defender's starting belief
and `unchanged` when its section does not parse. -/
def parseIterationBody (t : List Char) : Option ParsedIter := do
  let (pid, pb) ← findPersuader t
  let (did, db) ← findDefender t
  let msgs := parseMessages t
  match findDecision t with
  | some (old, nw, ct) =>
    some ⟨pid, did, pb, db, msgs, old, nw, ct⟩
  | none =>
    some ⟨pid, did, pb, db, msgs, db, db, "unchanged".toList⟩

/-- The block pattern of `parse_log_file`:
`={80}\nITERATION (\d+)/(\d+)\n` followed by the non-greedy body, stopped by
the next block header, the `FINAL GRID` header, or the end of the text;
returns the iteration number and the block text. -/
def parseHeader (content : List Char) : Option (Nat × List Char) := do
  let p ← findFrom content (eq80 ++ "\nITERATION ".toList) 0
  let ds := (content.drop (p + 91)).takeWhile isDigitChar
  if ds.isEmpty then none
  else
    let afterDs := p + 91 + ds.length
    if "/".toList.isPrefixOf (content.drop afterDs) then
      let ts := (content.drop (afterDs + 1)).takeWhile isDigitChar
      if ts.isEmpty then none
      else if "\n".toList.isPrefixOf (content.drop (afterDs + 1 + ts.length)) then
        let bodyStart := afterDs + 1 + ts.length + 1
        let hstop := findFrom content (eq80 ++ "\nITERATION".toList) bodyStart
        let fstop := findFrom content (eq80 ++ "\nFINAL GRID".toList) bodyStart
        let stop := min (hstop.getD content.length) (fstop.getD content.length)
        some (digitsToNat ds, (content.drop p).take (stop - p))
      else none
    else none

/-- `parse_log_file` for a log text holding one iteration block. -/
def parse_log_file (content : List Char) : Option (Nat × ParsedIter) := do
  let (num, t) ← parseHeader content
  let it ← parseIterationBody t
  some (num, it)

/-! ### Line structure of the written block -/

/-- The header line of one logged message. -/
def msgHdrLine (m : Msg) : List Char :=
  "[Round ".toList ++ natDigits m.round ++ "] ".toList ++ pyUpper m.speaker ++ [':']

/-- The lines contributed by the logged messages. -/
def msgLines (msgs : List Msg) : List (List Char) :=
  msgs.flatMap (fun m => [msgHdrLine m, m.content, []])

/-- The lines of the decision section. -/
def decLines (old_belief new_belief : List Char) (ct : ChangeType) : List (List Char) :=
  [dash40, "DECISION".toList, dash40,
    "Old belief: ".toList ++ old_belief, [],
    "New belief: ".toList ++ new_belief, [],
    "Change type: ".toList ++ pyUpper ct.text, [], []]

/-- The lines of a block body (everything after the `ITERATION i/t` line). -/
def bodyLines (time : List Char) (persuader_id : Nat) (persuader_pos : List Char)
    (persuader_belief : List Char) (defender_id : Nat) (defender_pos : List Char)
    (defender_belief : List Char) (msgs : List Msg)
    (old_belief new_belief : List Char) (ct : ChangeType) : List (List Char) :=
  ["Time: ".toList ++ time, eq80, [],
    "PERSUADER: Agent ".toList ++ natDigits persuader_id ++ " @ ".toList ++ persuader_pos,
    "Belief: ".toList ++ persuader_belief, [],
    "DEFENDER: Agent ".toList ++ natDigits defender_id ++ " @ ".toList ++ defender_pos,
    "Belief: ".toList ++ defender_belief, [],
    dash40, "CONVERSATION".toList, dash40, []]
    ++ msgLines msgs ++ decLines old_belief new_belief ct

theorem joinLines_cons_of_ne {l : List Char} {L : List (List Char)} (h : L ≠ []) :
    joinLines (l :: L) = l ++ '\n' :: joinLines L := by
  cases L with
  | nil => exact absurd rfl h
  | cons a L' => rfl

theorem msgLines_decLines_join (msgs : List Msg) (old_belief new_belief : List Char)
    (ct : ChangeType) :
    (msgs.map log_message).join ++ log_decision old_belief new_belief ct
      = joinLines (msgLines msgs ++ decLines old_belief new_belief ct) := by
  induction msgs with
  | nil =>
    show log_decision old_belief new_belief ct = joinLines (decLines old_belief new_belief ct)
    simp [log_decision, decLines, joinLines, dash40]
  | cons m rest ih =>
    rw [List.map_cons,
      show (log_message m :: List.map log_message rest).join
        = log_message m ++ (List.map log_message rest).join from rfl,
      List.append_assoc, ih,
      show msgLines (m :: rest) = msgHdrLine m :: m.content :: [] :: msgLines rest from rfl]
    have hne : msgLines rest ++ decLines old_belief new_belief ct ≠ [] := by
      simp [decLines]
    rw [List.cons_append, List.cons_append, List.cons_append,
      joinLines_cons_cons, joinLines_cons_cons, joinLines_cons_of_ne hne]
    simp [log_message, msgHdrLine]

theorem msgJoin_joinLines (msgs : List Msg) {suf : List Char} {SL : List (List Char)}
    (hSL : SL ≠ []) (hbase : suf = joinLines SL) :
    (msgs.map log_message).join ++ suf = joinLines (msgLines msgs ++ SL) := by
  induction msgs with
  | nil =>
    simpa [msgLines] using hbase
  | cons m rest ih =>
    rw [List.map_cons,
      show (log_message m :: List.map log_message rest).join
        = log_message m ++ (List.map log_message rest).join from rfl,
      List.append_assoc, ih,
      show msgLines (m :: rest) = msgHdrLine m :: m.content :: [] :: msgLines rest from rfl]
    have hne : msgLines rest ++ SL ≠ [] := by
      intro hcon
      exact hSL (List.append_eq_nil.mp hcon).2
    rw [List.cons_append, List.cons_append, List.cons_append,
      joinLines_cons_cons, joinLines_cons_cons, joinLines_cons_of_ne hne]
    simp [log_message, msgHdrLine]

theorem writeIteration_lines (iteration total persuader_id : Nat) (persuader_pos : List Char)
    (defender_id : Nat) (defender_pos : List Char)
    (persuader_belief defender_belief : List Char) (time : List Char)
    (msgs : List Msg) (old_belief new_belief : List Char) (ct : ChangeType) :
    writeIteration iteration total persuader_id persuader_pos defender_id defender_pos
        persuader_belief defender_belief time msgs old_belief new_belief ct
      = (eq80 ++ "\nITERATION ".toList ++ natDigits iteration ++ "/".toList
          ++ natDigits total ++ "\n".toList)
        ++ joinLines (bodyLines time persuader_id persuader_pos persuader_belief
            defender_id defender_pos defender_belief msgs old_belief new_belief ct) := by
  have hdec : log_decision old_belief new_belief ct
      = joinLines (decLines old_belief new_belief ct) := by
    simp [log_decision, decLines, joinLines, dash40]
  have hmsgs : (msgs.map log_message).join ++ log_decision old_belief new_belief ct
      = joinLines (msgLines msgs ++ decLines old_belief new_belief ct) :=
    msgJoin_joinLines msgs (by simp [decLines]) hdec
  have hne0 : msgLines msgs ++ decLines old_belief new_belief ct ≠ [] := by
    intro hcon
    simp [decLines] at hcon
  unfold writeIteration log_iteration_start bodyLines
  simp only [List.cons_append, List.nil_append, List.append_assoc]
  rw [hmsgs]
  simp only [joinLines_cons_cons, joinLines_cons_of_ne hne0]
  simp only [show "\nITERATION ".toList = '\n' :: "ITERATION ".toList from rfl,
    show "\n".toList = ['\n'] from rfl,
    show "\n\n".toList = ['\n', '\n'] from rfl,
    show "CONVERSATION\n".toList = "CONVERSATION".toList ++ ['\n'] from rfl,
    List.cons_append, List.nil_append, List.append_assoc]

/-! ### Cleanliness conditions for round-trip parsing -/

/-- Conditions on a free-text field (belief, message content, decision text)
sufficient for the parser's scans to resolve as written: nonempty,
single-line, and free of the delimiter substrings the parser searches for. -/
def scanClean (s : List Char) : Prop :=
  s ≠ [] ∧ '\n' ∉ s ∧ '=' ∉ s ∧
    ¬ ("PERSUADER: Agent ".toList <:+: s) ∧
    ¬ ("DEFENDER: Agent ".toList <:+: s) ∧
    ¬ ("[Round".toList <:+: s)

/-- The timestamp follows `datetime.isoformat()`: digits and `-:T.`. -/
def timeClean (s : List Char) : Prop :=
  s ≠ [] ∧ ∀ c ∈ s, isDigitChar c = true ∨ c = '-' ∨ c = ':' ∨ c = 'T' ∨ c = '.'

/-- Position labels follow `get_position_label`: lowercase words, digits,
and `()[], ` punctuation. -/
def posClean (s : List Char) : Prop :=
  s ≠ [] ∧ ∀ c ∈ s, c.isLower = true ∨ isDigitChar c = true ∨
    c = '(' ∨ c = ')' ∨ c = '[' ∨ c = ']' ∨ c = ',' ∨ c = ' '

/-- Conditions on a transcript message: clean content and an engine speaker. -/
def msgClean (m : Msg) : Prop :=
  scanClean m.content ∧ (m.speaker = "persuader".toList ∨ m.speaker = "defender".toList)

theorem mem_pyUpper_newline {s : List Char} (h : '\n' ∈ pyUpper s) : '\n' ∈ s := by
  obtain ⟨c, hc, heq⟩ := List.mem_map.mp h
  by_cases hl : c.toNat ≥ 97 ∧ c.toNat ≤ 122
  · exfalso
    have ht : (Char.toUpper c).toNat = c.toNat - 32 := by
      rw [show c.toUpper = Char.ofNat (c.toNat - 32) by simp [Char.toUpper, hl]]
      exact toNat_ofNat_of_lt (by omega)
    rw [heq] at ht
    have h10 : ('\n').toNat = 10 := rfl
    omega
  · rw [show c.toUpper = c by simp [Char.toUpper, hl]] at heq
    exact heq ▸ hc

theorem not_mem_of_all {s : List Char} {P : Char → Prop} {c : Char}
    (hall : ∀ x ∈ s, P x) (hc : ¬ P c) : c ∉ s :=
  fun hmem => hc (hall c hmem)

theorem timeClean_no_newline {s : List Char} (h : timeClean s) : '\n' ∉ s := by
  refine not_mem_of_all h.2 ?_
  intro hcon
  rcases hcon with h1 | h1 | h1 | h1 | h1 <;>
    simp [isDigitChar, Char.toNat, UInt32.size] at h1

theorem posClean_no_newline {s : List Char} (h : posClean s) : '\n' ∉ s := by
  refine not_mem_of_all h.2 ?_
  intro hcon
  rcases hcon with h1 | h1 | h1 | h1 | h1 | h1 | h1 | h1 <;>
    simp [isDigitChar, Char.toNat, Char.isLower, UInt32.size] at h1

theorem natDigits_no_newline (n : Nat) : '\n' ∉ natDigits n := by
  intro hmem
  have hd := natDigits_all_digit n '\n' hmem
  simp [isDigitChar, Char.toNat, UInt32.size] at hd

theorem no_newline_msgHdrLine {m : Msg} (hm : msgClean m) : '\n' ∉ msgHdrLine m := by
  unfold msgHdrLine
  intro hcon
  simp only [List.mem_append, List.mem_singleton] at hcon
  rcases hcon with (((hc | hc) | hc) | hc) | hc
  · simp at hc
  · exact natDigits_no_newline _ hc
  · simp at hc
  · have hmem := mem_pyUpper_newline hc
    rcases hm.2 with hs | hs <;> rw [hs] at hmem <;> simp at hmem
  · simp at hc

theorem no_newline_ctUpper (ct : ChangeType) : '\n' ∉ pyUpper ct.text := by
  cases ct <;> decide

theorem bodyLines_no_newline {time : List Char} {persuader_id : Nat}
    {persuader_pos persuader_belief : List Char} {defender_id : Nat}
    {defender_pos defender_belief : List Char} {msgs : List Msg}
    {old_belief new_belief : List Char} {ct : ChangeType}
    (htime : timeClean time) (hppos : posClean persuader_pos)
    (hdpos : posClean defender_pos) (hpb : '\n' ∉ persuader_belief)
    (hdb : '\n' ∉ defender_belief) (hmsgs : ∀ m ∈ msgs, msgClean m)
    (hold : '\n' ∉ old_belief) (hnw : '\n' ∉ new_belief) :
    ∀ l ∈ bodyLines time persuader_id persuader_pos persuader_belief defender_id
      defender_pos defender_belief msgs old_belief new_belief ct, '\n' ∉ l := by
  intro l hl
  unfold bodyLines at hl
  rw [List.append_assoc, List.mem_append] at hl
  rcases hl with hl | hl
  · fin_cases hl
    · intro hcon
      rcases List.mem_append.mp hcon with hc | hc
      · simp at hc
      · exact timeClean_no_newline htime hc
    · simp [eq80, List.mem_replicate]
    · simp
    · intro hcon
      simp only [List.mem_append] at hcon
      rcases hcon with ((hc | hc) | hc) | hc
      · simp at hc
      · exact natDigits_no_newline _ hc
      · simp at hc
      · exact posClean_no_newline hppos hc
    · intro hcon
      rcases List.mem_append.mp hcon with hc | hc
      · simp at hc
      · exact hpb hc
    · simp
    · intro hcon
      simp only [List.mem_append] at hcon
      rcases hcon with ((hc | hc) | hc) | hc
      · simp at hc
      · exact natDigits_no_newline _ hc
      · simp at hc
      · exact posClean_no_newline hdpos hc
    · intro hcon
      rcases List.mem_append.mp hcon with hc | hc
      · simp at hc
      · exact hdb hc
    · simp
    · simp [dash40, List.mem_replicate]
    · simp
    · simp [dash40, List.mem_replicate]
    · simp
  · rw [List.mem_append] at hl
    rcases hl with hl | hl
    · unfold msgLines at hl
      rw [List.mem_flatMap] at hl
      obtain ⟨m, hm, hml⟩ := hl
      fin_cases hml
      · exact no_newline_msgHdrLine (hmsgs m hm)
      · exact (hmsgs m hm).1.2.1
      · simp
    · unfold decLines at hl
      fin_cases hl
      · simp [dash40, List.mem_replicate]
      · simp
      · simp [dash40, List.mem_replicate]
      · intro hcon
        rcases List.mem_append.mp hcon with hc | hc
        · simp at hc
        · exact hold hc
      · simp
      · intro hcon
        rcases List.mem_append.mp hcon with hc | hc
        · simp at hc
        · exact hnw hc
      · simp
      · intro hcon
        rcases List.mem_append.mp hcon with hc | hc
        · simp at hc
        · exact no_newline_ctUpper ct hc
      · simp
      · simp

/-! ### List helpers for the parser proofs -/

theorem drop_append_plus (u v : List Char) (k : Nat) :
    (u ++ v).drop (u.length + k) = v.drop k := by
  rw [← List.drop_drop, List.drop_left]

theorem infix_cons_right_of_not_mem {c : Char} {pat u v : List Char} (hc : c ∉ u)
    (h : (c :: pat) <:+: u ++ v) : (c :: pat) <:+: v := by
  induction u with
  | nil => simpa using h
  | cons d u ih =>
    rw [List.cons_append, List.infix_cons_iff] at h
    rcases h with h | h
    · rw [List.cons_prefix_cons] at h
      exact absurd (by rw [h.1]; exact List.mem_cons_self d u) hc
    · exact ih (fun hm => hc (List.mem_cons_of_mem d hm)) h

theorem not_prefix_of_head_ne {c d : Char} {X Y : List Char} (h : c ≠ d) :
    ¬ (c :: X <+: d :: Y) := fun hp => h (List.cons_prefix_cons.mp hp).1

theorem joinLines_append {A C : List (List Char)} (hA : A ≠ []) (hC : C ≠ []) :
    joinLines (A ++ C) = joinLines A ++ '\n' :: joinLines C := by
  induction A with
  | nil => exact absurd rfl hA
  | cons a A ih =>
    cases A with
    | nil =>
      cases C with
      | nil => exact absurd rfl hC
      | cons c C' => rfl
    | cons b A' =>
      have ih' := ih (by simp)
      rw [List.cons_append] at ih'
      simp only [List.cons_append]
      rw [joinLines_cons_cons, ih', joinLines_cons_cons]
      simp [List.append_assoc]

theorem joinLines_concat_nil {L : List (List Char)} (hL : L ≠ []) :
    joinLines (L ++ [[]]) = joinLines L ++ ['\n'] := by
  rw [joinLines_append hL (by simp)]
  rfl

theorem pyStrip_append_spaces {t : List Char} (ht : ∀ c ∈ t, pyIsSpace c = true)
    (s : List Char) : pyStrip (s ++ t) = pyStrip s := by
  unfold pyStrip
  have h2 : t.reverse.dropWhile pyIsSpace = [] :=
    List.dropWhile_eq_nil_iff.mpr (fun x hx => ht x (List.mem_reverse.mp hx))
  by_cases hs : s.dropWhile pyIsSpace = []
  · have h1 : (s ++ t).dropWhile pyIsSpace = [] := by
      rw [List.dropWhile_append, hs]
      simpa using List.dropWhile_eq_nil_iff.mpr ht
    rw [h1, hs]
  · have h1 : (s ++ t).dropWhile pyIsSpace = s.dropWhile pyIsSpace ++ t := by
      rw [List.dropWhile_append]
      simp [hs]
    rw [h1, List.reverse_append, List.dropWhile_append, h2]
    simp

/-! ### Consecutive-pair properties of line lists -/

/-- `P` holds of every consecutive pair of lines. -/
def pairsP (P : List Char → List Char → Prop) : List (List Char) → Prop
  | [] => True
  | [_] => True
  | a :: b :: L => P a b ∧ pairsP P (b :: L)

theorem pairsP_cons_cons {P : List Char → List Char → Prop} {a b : List Char}
    {L : List (List Char)} :
    pairsP P (a :: b :: L) ↔ P a b ∧ pairsP P (b :: L) := Iff.rfl

theorem pairsP_zip {P : List Char → List Char → Prop} :
    ∀ {L}, pairsP P L → ∀ pr ∈ L.zip L.tail, P pr.1 pr.2 := by
  intro L
  induction L with
  | nil => intro _ pr hpr; simp at hpr
  | cons a L ih =>
    intro h pr hpr
    cases L with
    | nil => simp at hpr
    | cons b L' =>
      rw [List.tail_cons, List.zip_cons_cons] at hpr
      rcases List.mem_cons.mp hpr with h1 | h1
      · rw [h1]
        exact (pairsP_cons_cons.mp h).1
      · exact ih (pairsP_cons_cons.mp h).2 pr (by rw [List.tail_cons]; exact h1)

theorem pairsP_nil_cons {P : List Char → List Char → Prop} (hP0 : ∀ l, P [] l)
    {L : List (List Char)} (h : pairsP P L) : pairsP P ([] :: L) := by
  cases L with
  | nil => trivial
  | cons a L' => exact ⟨hP0 a, h⟩

theorem pairsP_append_left {P : List Char → List Char → Prop} :
    ∀ {L C}, pairsP P (L ++ C) → pairsP P L := by
  intro L
  induction L with
  | nil => intro C _; trivial
  | cons a L ih =>
    intro C h
    cases L with
    | nil => trivial
    | cons b L' =>
      rw [List.cons_append, List.cons_append, pairsP_cons_cons] at h
      rw [pairsP_cons_cons]
      exact ⟨h.1, ih (C := C) (by rw [List.cons_append]; exact h.2)⟩

theorem pairsP_msgLines {P : List Char → List Char → Prop} (hP0 : ∀ l, P [] l)
    {msgs : List Msg} {C : List (List Char)}
    (hmsg : ∀ m ∈ msgs, P (msgHdrLine m) m.content ∧ P m.content [])
    (hC : pairsP P C) (hCne : C ≠ []) : pairsP P (msgLines msgs ++ C) := by
  induction msgs with
  | nil => simpa [msgLines] using hC
  | cons m rest ih =>
    have hrest := ih (fun x hx => hmsg x (List.mem_cons_of_mem m hx))
    rw [show msgLines (m :: rest) = msgHdrLine m :: m.content :: [] :: msgLines rest from rfl,
      List.cons_append, List.cons_append, List.cons_append,
      pairsP_cons_cons, pairsP_cons_cons]
    refine ⟨(hmsg m (by simp)).1, (hmsg m (by simp)).2, ?_⟩
    exact pairsP_nil_cons hP0 hrest

/-- A two-line pattern misses a join whose consecutive pairs all refute it. -/
theorem not_infix_two_line_of_pairs {p q : List Char} (hp : '\n' ∉ p) (hq : '\n' ∉ q)
    {L : List (List Char)} (hL : ∀ l ∈ L, '\n' ∉ l)
    (hpairs : pairsP (fun l₁ l₂ => ¬(p <:+ l₁ ∧ q <+: l₂)) L) :
    ¬ (p ++ '\n' :: q) <:+: joinLines L := by
  intro hcon
  obtain ⟨pr, hpr, h1, h2⟩ := infix_joinLines_two_line hp hq hL hcon
  exact pairsP_zip hpairs pr hpr ⟨h1, h2⟩

/-! ### The block as a join of newline-free lines -/

/-- The `ITERATION i/total` line. -/
def iterLine (iteration total : Nat) : List Char :=
  "ITERATION ".toList ++ natDigits iteration ++ "/".toList ++ natDigits total

theorem bodyLines_ne_nil (time : List Char) (persuader_id : Nat) (persuader_pos : List Char)
    (persuader_belief : List Char) (defender_id : Nat) (defender_pos : List Char)
    (defender_belief : List Char) (msgs : List Msg)
    (old_belief new_belief : List Char) (ct : ChangeType) :
    bodyLines time persuader_id persuader_pos persuader_belief defender_id
      defender_pos defender_belief msgs old_belief new_belief ct ≠ [] := by
  simp [bodyLines]

theorem writeIteration_joinLines (iteration total persuader_id : Nat)
    (persuader_pos : List Char) (defender_id : Nat) (defender_pos : List Char)
    (persuader_belief defender_belief : List Char) (time : List Char)
    (msgs : List Msg) (old_belief new_belief : List Char) (ct : ChangeType) :
    writeIteration iteration total persuader_id persuader_pos defender_id defender_pos
        persuader_belief defender_belief time msgs old_belief new_belief ct
      = joinLines (eq80 :: iterLine iteration total
          :: bodyLines time persuader_id persuader_pos persuader_belief
              defender_id defender_pos defender_belief msgs old_belief new_belief ct) := by
  rw [writeIteration_lines, joinLines_cons_cons,
    joinLines_cons_of_ne (bodyLines_ne_nil time persuader_id persuader_pos persuader_belief
      defender_id defender_pos defender_belief msgs old_belief new_belief ct)]
  simp only [iterLine,
    show "\nITERATION ".toList = '\n' :: "ITERATION ".toList from rfl,
    show "\n".toList = ['\n'] from rfl]
  simp [List.append_assoc]

/-! ### Character exclusions per line -/

theorem not_mem_timeClean {s : List Char} {c : Char} (h : timeClean s)
    (h1 : isDigitChar c = false) (h2 : c ≠ '-') (h3 : c ≠ ':') (h4 : c ≠ 'T')
    (h5 : c ≠ '.') : c ∉ s := by
  intro hc
  rcases h.2 c hc with hd | hd | hd | hd | hd
  · rw [h1] at hd; cases hd
  · exact h2 hd
  · exact h3 hd
  · exact h4 hd
  · exact h5 hd

theorem not_mem_posClean {s : List Char} {c : Char} (h : posClean s)
    (h0 : c.isLower = false) (h1 : isDigitChar c = false) (h2 : c ≠ '(') (h3 : c ≠ ')')
    (h4 : c ≠ '[') (h5 : c ≠ ']') (h6 : c ≠ ',') (h7 : c ≠ ' ') : c ∉ s := by
  intro hc
  rcases h.2 c hc with hd | hd | hd | hd | hd | hd | hd | hd
  · rw [h0] at hd; cases hd
  · rw [h1] at hd; cases hd
  · exact h2 hd
  · exact h3 hd
  · exact h4 hd
  · exact h5 hd
  · exact h6 hd
  · exact h7 hd

theorem not_mem_natDigits {n : Nat} {c : Char} (h : isDigitChar c = false) :
    c ∉ natDigits n := by
  intro hc
  have := natDigits_all_digit n c hc
  rw [h] at this
  cases this

theorem not_mem_agentLine {c : Char} {lit pos : List Char} {n : Nat} (h1 : c ∉ lit)
    (h2 : isDigitChar c = false) (h3 : c ∉ " @ ".toList) (h4 : c ∉ pos) :
    c ∉ lit ++ natDigits n ++ " @ ".toList ++ pos := by
  intro hc
  simp only [List.mem_append] at hc
  rcases hc with ((hc | hc) | hc) | hc
  · exact h1 hc
  · exact not_mem_natDigits h2 hc
  · exact h3 hc
  · exact h4 hc

theorem not_mem_pyUpper_speaker {m : Msg} {c : Char} (hm : msgClean m)
    (h1 : c ∉ "PERSUADER".toList) (h2 : c ∉ "DEFENDER".toList) :
    c ∉ pyUpper m.speaker := by
  rcases hm.2 with hs | hs <;> rw [hs]
  · rw [show pyUpper "persuader".toList = "PERSUADER".toList by decide]
    exact h1
  · rw [show pyUpper "defender".toList = "DEFENDER".toList by decide]
    exact h2

theorem not_mem_msgHdrLine {m : Msg} {c : Char} (hm : msgClean m)
    (h1 : c ∉ "[Round ".toList) (h2 : isDigitChar c = false) (h3 : c ∉ "] ".toList)
    (h4 : c ∉ "PERSUADER".toList) (h5 : c ∉ "DEFENDER".toList) (h6 : c ≠ ':') :
    c ∉ msgHdrLine m := by
  unfold msgHdrLine
  intro hc
  simp only [List.mem_append, List.mem_singleton] at hc
  rcases hc with (((hc | hc) | hc) | hc) | hc
  · exact h1 hc
  · exact not_mem_natDigits h2 hc
  · exact h3 hc
  · exact not_mem_pyUpper_speaker hm h4 h5 hc
  · exact h6 hc

theorem not_mem_ctUpper {ct : ChangeType} {c : Char}
    (h1 : c ∉ "UNCHANGED".toList) (h2 : c ∉ "SIMILAR".toList) (h3 : c ∉ "CHANGED".toList) :
    c ∉ pyUpper ct.text := by
  cases ct
  · rw [show pyUpper (ChangeType.unchanged.text) = "UNCHANGED".toList by decide]
    exact h1
  · rw [show pyUpper (ChangeType.similar.text) = "SIMILAR".toList by decide]
    exact h2
  · rw [show pyUpper (ChangeType.changed.text) = "CHANGED".toList by decide]
    exact h3

theorem pairsP_mono {P Q : List Char → List Char → Prop} (h : ∀ a b, P a b → Q a b) :
    ∀ {L}, pairsP P L → pairsP Q L := by
  intro L
  induction L with
  | nil => intro _; trivial
  | cons a L ih =>
    intro hp
    cases L with
    | nil => trivial
    | cons b L' =>
      rw [pairsP_cons_cons] at hp ⊢
      exact ⟨h a b hp.1, ih hp.2⟩

theorem not_mem_iterLine {c : Char} {i t : Nat} (h1 : c ∉ "ITERATION ".toList)
    (h2 : isDigitChar c = false) (h3 : c ∉ "/".toList) : c ∉ iterLine i t := by
  unfold iterLine
  intro hc
  simp only [List.mem_append] at hc
  rcases hc with ((hc | hc) | hc) | hc
  · exact h1 hc
  · exact not_mem_natDigits h2 hc
  · exact h3 hc
  · exact not_mem_natDigits h2 hc

/-- Refutation step for `={80}`-anchored two-line patterns. -/
theorem Qeq_refutes {q : List Char} (hq : q ≠ []) {l₁ l₂ : List Char}
    (h : '=' ∉ l₁ ∨ l₂ = []) : ¬ (eq80 <:+ l₁ ∧ q <+: l₂) := by
  rintro ⟨h1, h2⟩
  rcases h with h | h
  · exact h (h1.subset (by simp [eq80, List.mem_replicate]))
  · rw [h] at h2
    exact hq (List.prefix_nil.mp h2)

/-- Refutation step for `-{40}`-anchored two-line patterns. -/
theorem Qdash_refutes {q : List Char} (hq : q ≠ [])
    (hC : ¬ q <+: "CONVERSATION".toList) (hE : ¬ q <+: eq80) {l₁ l₂ : List Char}
    (h : '-' ∉ l₁ ∨ l₂ = [] ∨ l₂ = "CONVERSATION".toList ∨ l₂ = eq80) :
    ¬ (dash40 <:+ l₁ ∧ q <+: l₂) := by
  rintro ⟨h1, h2⟩
  rcases h with h | h | h | h
  · exact h (h1.subset (by simp [dash40, List.mem_replicate]))
  · rw [h] at h2
    exact hq (List.prefix_nil.mp h2)
  · rw [h] at h2
    exact hC h2
  · rw [h] at h2
    exact hE h2

/-- Every consecutive pair of body lines has a `=`-free first line or an
empty second line. -/
theorem pairsP_Qeq_body {time : List Char} {persuader_id : Nat} {persuader_pos : List Char}
    {persuader_belief : List Char} {defender_id : Nat} {defender_pos : List Char}
    {defender_belief : List Char} {msgs : List Msg}
    {old_belief new_belief : List Char} {ct : ChangeType}
    (htime : timeClean time) (hppos : posClean persuader_pos)
    (hdpos : posClean defender_pos) (hmsgs : ∀ m ∈ msgs, msgClean m) :
    pairsP (fun l₁ l₂ => '=' ∉ l₁ ∨ l₂ = [])
      (bodyLines time persuader_id persuader_pos persuader_belief defender_id
        defender_pos defender_belief msgs old_belief new_belief ct) := by
  have hP0 : ∀ l : List Char, ('=' : Char) ∉ ([] : List Char) ∨ l = [] :=
    fun l => Or.inl (by simp)
  have hdec : pairsP (fun l₁ l₂ => '=' ∉ l₁ ∨ l₂ = [])
      (decLines old_belief new_belief ct) := by
    unfold decLines
    exact ⟨Or.inl (by decide), Or.inl (by decide), Or.inl (by decide), Or.inr rfl,
      hP0 _, Or.inr rfl, hP0 _, Or.inr rfl, hP0 _, trivial⟩
  unfold bodyLines
  simp only [List.cons_append, List.nil_append]
  refine ⟨?_, ?_, ?_, ?_, ?_, ?_, ?_, ?_, ?_, ?_, ?_, ?_,
    pairsP_nil_cons hP0 (pairsP_msgLines hP0 ?_ hdec (by simp [decLines]))⟩
  · exact Or.inl (by
      intro hc
      rcases List.mem_append.mp hc with hc | hc
      · simp at hc
      · exact not_mem_timeClean htime (by decide) (by decide) (by decide) (by decide)
          (by decide) hc)
  · exact Or.inr rfl
  · exact hP0 _
  · exact Or.inl (not_mem_agentLine (by decide) (by decide) (by decide)
      (not_mem_posClean hppos (by decide) (by decide) (by decide) (by decide) (by decide)
        (by decide) (by decide) (by decide)))
  · exact Or.inr rfl
  · exact hP0 _
  · exact Or.inl (not_mem_agentLine (by decide) (by decide) (by decide)
      (not_mem_posClean hdpos (by decide) (by decide) (by decide) (by decide) (by decide)
        (by decide) (by decide) (by decide)))
  · exact Or.inr rfl
  · exact hP0 _
  · exact Or.inl (by decide)
  · exact Or.inl (by decide)
  · exact Or.inr rfl
  · intro m hm
    exact ⟨Or.inl (not_mem_msgHdrLine (hmsgs m hm) (by decide) (by decide) (by decide)
      (by decide) (by decide) (by decide)), Or.inr rfl⟩

/-- Every consecutive pair of lines strictly before the `DECISION` line has a
`-`-free first line or a second line that `DECISION`/`Old belief: ` cannot
start. -/
theorem pairsP_Qdash_front {time : List Char} {iteration total persuader_id : Nat}
    {persuader_pos : List Char} {persuader_belief : List Char} {defender_id : Nat}
    {defender_pos : List Char} {defender_belief : List Char} {msgs : List Msg}
    {C : List (List Char)}
    (htime : timeClean time) (hppos : posClean persuader_pos)
    (hdpos : posClean defender_pos) (hmsgs : ∀ m ∈ msgs, msgClean m)
    (hC : pairsP (fun l₁ l₂ => '-' ∉ l₁ ∨ l₂ = [] ∨ l₂ = "CONVERSATION".toList
      ∨ l₂ = eq80) C) (hCne : C ≠ []) :
    pairsP (fun l₁ l₂ => '-' ∉ l₁ ∨ l₂ = [] ∨ l₂ = "CONVERSATION".toList ∨ l₂ = eq80)
      (eq80 :: iterLine iteration total ::
        ("Time: ".toList ++ time) :: eq80 :: [] ::
        ("PERSUADER: Agent ".toList ++ natDigits persuader_id ++ " @ ".toList
          ++ persuader_pos) ::
        ("Belief: ".toList ++ persuader_belief) :: [] ::
        ("DEFENDER: Agent ".toList ++ natDigits defender_id ++ " @ ".toList
          ++ defender_pos) ::
        ("Belief: ".toList ++ defender_belief) :: [] ::
        dash40 :: "CONVERSATION".toList :: dash40 :: [] ::
        (msgLines msgs ++ C)) := by
  have hP0 : ∀ l : List Char, ('-' : Char) ∉ ([] : List Char) ∨ l = []
      ∨ l = "CONVERSATION".toList ∨ l = eq80 := fun l => Or.inl (by simp)
  refine ⟨?_, ?_, ?_, ?_, ?_, ?_, ?_, ?_, ?_, ?_, ?_, ?_, ?_, ?_,
    pairsP_nil_cons hP0 (pairsP_msgLines hP0 ?_ hC hCne)⟩
  · exact Or.inl (by decide)
  · exact Or.inl (not_mem_iterLine (by decide) (by decide) (by decide))
  · exact Or.inr (Or.inr (Or.inr rfl))
  · exact Or.inr (Or.inl rfl)
  · exact hP0 _
  · exact Or.inl (not_mem_agentLine (by decide) (by decide) (by decide)
      (not_mem_posClean hppos (by decide) (by decide) (by decide) (by decide) (by decide)
        (by decide) (by decide) (by decide)))
  · exact Or.inr (Or.inl rfl)
  · exact hP0 _
  · exact Or.inl (not_mem_agentLine (by decide) (by decide) (by decide)
      (not_mem_posClean hdpos (by decide) (by decide) (by decide) (by decide) (by decide)
        (by decide) (by decide) (by decide)))
  · exact Or.inr (Or.inl rfl)
  · exact hP0 _
  · exact Or.inr (Or.inr (Or.inl rfl))
  · exact Or.inl (by decide)
  · exact Or.inr (Or.inl rfl)
  · intro m hm
    exact ⟨Or.inl (not_mem_msgHdrLine (hmsgs m hm) (by decide) (by decide) (by decide)
      (by decide) (by decide) (by decide)), Or.inr (Or.inl rfl)⟩

theorem frontLines_no_newline {time : List Char} {iteration total persuader_id : Nat}
    {persuader_pos persuader_belief : List Char} {defender_id : Nat}
    {defender_pos defender_belief : List Char} {msgs : List Msg}
    {C : List (List Char)} (hC : ∀ l ∈ C, '\n' ∉ l)
    (htime : timeClean time) (hppos : posClean persuader_pos)
    (hdpos : posClean defender_pos) (hpb : '\n' ∉ persuader_belief)
    (hdb : '\n' ∉ defender_belief) (hmsgs : ∀ m ∈ msgs, msgClean m) :
    ∀ l ∈ (eq80 :: iterLine iteration total ::
        ("Time: ".toList ++ time) :: eq80 :: [] ::
        ("PERSUADER: Agent ".toList ++ natDigits persuader_id ++ " @ ".toList
          ++ persuader_pos) ::
        ("Belief: ".toList ++ persuader_belief) :: [] ::
        ("DEFENDER: Agent ".toList ++ natDigits defender_id ++ " @ ".toList
          ++ defender_pos) ::
        ("Belief: ".toList ++ defender_belief) :: [] ::
        dash40 :: "CONVERSATION".toList :: dash40 :: [] ::
        (msgLines msgs ++ C)), '\n' ∉ l := by
  intro l hl
  simp only [List.mem_cons] at hl
  rcases hl with rfl | rfl | rfl | rfl | rfl | rfl | rfl | rfl | rfl | rfl | rfl | rfl
    | rfl | rfl | rfl | hl
  · simp [eq80, List.mem_replicate]
  · exact not_mem_iterLine (by decide) (by decide) (by decide)
  · intro hcon
    rcases List.mem_append.mp hcon with hc | hc
    · simp at hc
    · exact timeClean_no_newline htime hc
  · simp [eq80, List.mem_replicate]
  · simp
  · exact not_mem_agentLine (by decide) (by decide) (by decide)
      (posClean_no_newline hppos)
  · intro hcon
    rcases List.mem_append.mp hcon with hc | hc
    · simp at hc
    · exact hpb hc
  · simp
  · exact not_mem_agentLine (by decide) (by decide) (by decide)
      (posClean_no_newline hdpos)
  · intro hcon
    rcases List.mem_append.mp hcon with hc | hc
    · simp at hc
    · exact hdb hc
  · simp
  · simp [dash40, List.mem_replicate]
  · simp
  · simp [dash40, List.mem_replicate]
  · simp
  · rcases List.mem_append.mp hl with hl | hl
    · unfold msgLines at hl
      rw [List.mem_flatMap] at hl
      obtain ⟨m, hm, hml⟩ := hl
      fin_cases hml
      · exact no_newline_msgHdrLine (hmsgs m hm)
      · exact (hmsgs m hm).1.2.1
      · simp
    · exact hC l hl

/-- No `={80}`-anchored two-line pattern occurs in the body join. -/
theorem no_eqpat_in_body {q : List Char} (hq : q ≠ []) (hqnl : '\n' ∉ q)
    {time : List Char} {persuader_id : Nat} {persuader_pos persuader_belief : List Char}
    {defender_id : Nat} {defender_pos defender_belief : List Char} {msgs : List Msg}
    {old_belief new_belief : List Char} {ct : ChangeType}
    (htime : timeClean time) (hppos : posClean persuader_pos)
    (hdpos : posClean defender_pos) (hpb : '\n' ∉ persuader_belief)
    (hdb : '\n' ∉ defender_belief) (hmsgs : ∀ m ∈ msgs, msgClean m)
    (hold : '\n' ∉ old_belief) (hnw : '\n' ∉ new_belief) :
    ¬ (eq80 ++ '\n' :: q) <:+: joinLines (bodyLines time persuader_id persuader_pos
      persuader_belief defender_id defender_pos defender_belief msgs
      old_belief new_belief ct) :=
  not_infix_two_line_of_pairs (by decide) hqnl
    (bodyLines_no_newline htime hppos hdpos hpb hdb hmsgs hold hnw)
    (pairsP_mono (fun _ _ h => Qeq_refutes hq h) (pairsP_Qeq_body htime hppos hdpos hmsgs))

/-- No `-{40}`-anchored two-line pattern occurs in the join of the lines
before the decision section. -/
theorem no_dashpat_in_front {q : List Char} (hq : q ≠ [])
    (hqC : ¬ q <+: "CONVERSATION".toList) (hqE : ¬ q <+: eq80) (hqnl : '\n' ∉ q)
    {time : List Char} {iteration total persuader_id : Nat}
    {persuader_pos persuader_belief : List Char}
    {defender_id : Nat} {defender_pos defender_belief : List Char} {msgs : List Msg}
    {C : List (List Char)}
    (hCp : pairsP (fun l₁ l₂ => '-' ∉ l₁ ∨ l₂ = [] ∨ l₂ = "CONVERSATION".toList
      ∨ l₂ = eq80) C) (hCne : C ≠ []) (hCnl : ∀ l ∈ C, '\n' ∉ l)
    (htime : timeClean time) (hppos : posClean persuader_pos)
    (hdpos : posClean defender_pos) (hpb : '\n' ∉ persuader_belief)
    (hdb : '\n' ∉ defender_belief) (hmsgs : ∀ m ∈ msgs, msgClean m) :
    ¬ (dash40 ++ '\n' :: q) <:+: joinLines (eq80 :: iterLine iteration total ::
        ("Time: ".toList ++ time) :: eq80 :: [] ::
        ("PERSUADER: Agent ".toList ++ natDigits persuader_id ++ " @ ".toList
          ++ persuader_pos) ::
        ("Belief: ".toList ++ persuader_belief) :: [] ::
        ("DEFENDER: Agent ".toList ++ natDigits defender_id ++ " @ ".toList
          ++ defender_pos) ::
        ("Belief: ".toList ++ defender_belief) :: [] ::
        dash40 :: "CONVERSATION".toList :: dash40 :: [] ::
        (msgLines msgs ++ C)) :=
  not_infix_two_line_of_pairs (by decide) hqnl
    (frontLines_no_newline hCnl htime hppos hdpos hpb hdb hmsgs)
    (pairsP_mono (fun _ _ h => Qdash_refutes hq hqC hqE h)
      (pairsP_Qdash_front htime hppos hdpos hmsgs hCp hCne))

theorem drop_prefix_lit {x lit y : List Char} {n : Nat} (hlen : lit.length = n) :
    (x ++ (lit ++ y)).drop (x.length + n) = y := by
  rw [← List.append_assoc, ← hlen, ← List.length_append, List.drop_left]

theorem if_isPrefix_append {α : Type} (x y : List Char) (a b : α) :
    (if x.isPrefixOf (x ++ y) = true then a else b) = a :=
  if_pos (List.isPrefixOf_iff_prefix.mpr (List.prefix_append _ _))

/-- `parse_log_file`'s block search on a written block: the header matches at
position `0`, no later rule line or `FINAL GRID` header occurs, so the block
text is the whole input and the captured number is the iteration number. -/
theorem parseHeader_block {B : List Char} {iteration total persuader_id : Nat}
    {persuader_pos : List Char} {defender_id : Nat} {defender_pos : List Char}
    {persuader_belief defender_belief time : List Char} {msgs : List Msg}
    {old_belief new_belief : List Char} {ct : ChangeType}
    (htime : timeClean time) (hppos : posClean persuader_pos)
    (hdpos : posClean defender_pos) (hpb : '\n' ∉ persuader_belief)
    (hdb : '\n' ∉ defender_belief) (hmsgs : ∀ m ∈ msgs, msgClean m)
    (hold : '\n' ∉ old_belief) (hnw : '\n' ∉ new_belief)
    (hB : B = writeIteration iteration total persuader_id persuader_pos defender_id
      defender_pos persuader_belief defender_belief time msgs old_belief new_belief ct) :
    parseHeader B = some (iteration, B) := by
  rw [writeIteration_lines] at hB
  have hB1 : B = (eq80 ++ "\nITERATION ".toList)
      ++ (natDigits iteration ++ ("/".toList ++ (natDigits total
      ++ ('\n' :: joinLines (bodyLines time persuader_id persuader_pos persuader_belief
          defender_id defender_pos defender_belief msgs old_belief new_belief ct))))) := by
    rw [hB]
    simp [List.append_assoc]
  have hfind1 : findFrom B (eq80 ++ "\nITERATION ".toList) 0 = some 0 := by
    apply findFrom_here _ _ _ (Nat.zero_le _)
    rw [List.drop_zero, hB1]
    exact List.isPrefixOf_iff_prefix.mpr ⟨_, rfl⟩
  have hlen91 : (eq80 ++ "\nITERATION ".toList).length = 91 := by decide
  have hdrop91 : B.drop (0 + 91) = natDigits iteration ++ ("/".toList ++ (natDigits total
      ++ ('\n' :: joinLines (bodyLines time persuader_id persuader_pos persuader_belief
          defender_id defender_pos defender_belief msgs old_belief new_belief ct)))) := by
    rw [hB1, show 0 + 91 = (eq80 ++ "\nITERATION ".toList).length from by rw [hlen91],
      List.drop_left]
  have hds : (B.drop (0 + 91)).takeWhile isDigitChar = natDigits iteration := by
    rw [hdrop91]
    refine takeWhile_digits_boundary _ _ (natDigits_all_digit iteration) ?_
    intro c hc
    simp only [show ("/".toList : List Char) = ['/'] from rfl, List.cons_append,
      List.head?_cons, Option.some.injEq] at hc
    rw [← hc]
    decide
  unfold parseHeader
  rw [hfind1]
  show (if ((B.drop (0 + 91)).takeWhile isDigitChar).isEmpty = true then none else _) = _
  rw [hds, if_neg (by simp [natDigits_ne_nil])]
  have hdropA : B.drop (0 + 91 + (natDigits iteration).length)
      = "/".toList ++ (natDigits total
      ++ ('\n' :: joinLines (bodyLines time persuader_id persuader_pos persuader_belief
          defender_id defender_pos defender_belief msgs old_belief new_belief ct))) := by
    rw [hB1, show 0 + 91 + (natDigits iteration).length
        = (eq80 ++ "\nITERATION ".toList).length + (natDigits iteration).length from by
      rw [hlen91]]
    exact drop_prefix_lit rfl
  show (if "/".toList.isPrefixOf (B.drop (0 + 91 + (natDigits iteration).length)) = true
    then _ else none) = _
  rw [hdropA, if_isPrefix_append]
  have hB2 : B = ((eq80 ++ "\nITERATION ".toList) ++ natDigits iteration ++ "/".toList)
      ++ (natDigits total
      ++ ('\n' :: joinLines (bodyLines time persuader_id persuader_pos persuader_belief
          defender_id defender_pos defender_belief msgs old_belief new_belief ct))) := by
    rw [hB1]
    simp [List.append_assoc]
  have hlen2 : ((eq80 ++ "\nITERATION ".toList) ++ natDigits iteration ++ "/".toList).length
      = 0 + 91 + (natDigits iteration).length + 1 := by
    rw [List.length_append, List.length_append, hlen91,
      show ("/".toList : List Char).length = 1 from rfl]
  have hdropT : B.drop (0 + 91 + (natDigits iteration).length + 1)
      = natDigits total
      ++ ('\n' :: joinLines (bodyLines time persuader_id persuader_pos persuader_belief
          defender_id defender_pos defender_belief msgs old_belief new_belief ct)) := by
    rw [hB2, ← hlen2, List.drop_left]
  have hts : (B.drop (0 + 91 + (natDigits iteration).length + 1)).takeWhile isDigitChar
      = natDigits total := by
    rw [hdropT]
    refine takeWhile_digits_boundary _ _ (natDigits_all_digit total) ?_
    intro c hc
    simp only [List.head?_cons, Option.some.injEq] at hc
    rw [← hc]
    decide
  show (if ((B.drop (0 + 91 + (natDigits iteration).length + 1)).takeWhile
      isDigitChar).isEmpty = true then none else _) = _
  rw [hts, if_neg (by simp [natDigits_ne_nil])]
  have hB3 : B = (((eq80 ++ "\nITERATION ".toList) ++ natDigits iteration ++ "/".toList)
      ++ natDigits total)
      ++ ('\n' :: joinLines (bodyLines time persuader_id persuader_pos persuader_belief
          defender_id defender_pos defender_belief msgs old_belief new_belief ct)) := by
    rw [hB1]
    simp [List.append_assoc]
  have hlen3 : ((((eq80 ++ "\nITERATION ".toList) ++ natDigits iteration ++ "/".toList)
      ++ natDigits total)).length
      = 0 + 91 + (natDigits iteration).length + 1 + (natDigits total).length := by
    rw [List.length_append, hlen2]
  have hdropN : B.drop (0 + 91 + (natDigits iteration).length + 1 + (natDigits total).length)
      = '\n' :: joinLines (bodyLines time persuader_id persuader_pos persuader_belief
          defender_id defender_pos defender_belief msgs old_belief new_belief ct) := by
    rw [hB3, ← hlen3, List.drop_left]
  show (if "\n".toList.isPrefixOf (B.drop (0 + 91 + (natDigits iteration).length + 1
      + (natDigits total).length)) = true then _ else none) = _
  rw [hdropN, show ('\n' :: joinLines (bodyLines time persuader_id persuader_pos
      persuader_belief defender_id defender_pos defender_belief msgs old_belief
      new_belief ct))
    = "\n".toList ++ joinLines (bodyLines time persuader_id persuader_pos
      persuader_belief defender_id defender_pos defender_belief msgs old_belief
      new_belief ct) from rfl, if_isPrefix_append]
  have hB4 : B = ((eq80 ++ "\nITERATION ".toList ++ natDigits iteration ++ "/".toList
      ++ natDigits total) ++ "\n".toList)
      ++ joinLines (bodyLines time persuader_id persuader_pos persuader_belief
          defender_id defender_pos defender_belief msgs old_belief new_belief ct) := by
    rw [hB]
  have hlen4 : ((eq80 ++ "\nITERATION ".toList ++ natDigits iteration ++ "/".toList
      ++ natDigits total) ++ "\n".toList).length
      = 0 + 91 + (natDigits iteration).length + 1 + (natDigits total).length + 1 := by
    rw [List.length_append, hlen3]
    rfl
  have hdropBody : B.drop (0 + 91 + (natDigits iteration).length + 1
      + (natDigits total).length + 1)
      = joinLines (bodyLines time persuader_id persuader_pos persuader_belief
          defender_id defender_pos defender_belief msgs old_belief new_belief ct) := by
    rw [hB4, ← hlen4, List.drop_left]
  have hstop : findFrom B (eq80 ++ "\nITERATION".toList)
      (0 + 91 + (natDigits iteration).length + 1 + (natDigits total).length + 1) = none := by
    apply findFrom_eq_none_of_not_infix
    rw [hdropBody, show (eq80 ++ "\nITERATION".toList : List Char)
        = eq80 ++ '\n' :: "ITERATION".toList from rfl]
    exact no_eqpat_in_body (by decide) (by decide) htime hppos hdpos hpb hdb hmsgs hold hnw
  have hfstop : findFrom B (eq80 ++ "\nFINAL GRID".toList)
      (0 + 91 + (natDigits iteration).length + 1 + (natDigits total).length + 1) = none := by
    apply findFrom_eq_none_of_not_infix
    rw [hdropBody, show (eq80 ++ "\nFINAL GRID".toList : List Char)
        = eq80 ++ '\n' :: "FINAL GRID".toList from rfl]
    exact no_eqpat_in_body (by decide) (by decide) htime hppos hdpos hpb hdb hmsgs hold hnw
  simp only [hstop, hfstop, Option.getD]
  simp [digitsToNat_natDigits]

/-- The written block as fully right-associated text, with the message and
decision region left as a join. -/
theorem block_text {B : List Char} {iteration total persuader_id : Nat}
    {persuader_pos : List Char} {defender_id : Nat} {defender_pos : List Char}
    {persuader_belief defender_belief time : List Char} {msgs : List Msg}
    {old_belief new_belief : List Char} {ct : ChangeType}
    (hB : B = writeIteration iteration total persuader_id persuader_pos defender_id
      defender_pos persuader_belief defender_belief time msgs old_belief new_belief ct) :
    B = eq80 ++ '\n' :: (iterLine iteration total ++ '\n' :: ("Time: ".toList ++ (time
      ++ '\n' :: (eq80 ++ '\n' :: '\n' :: ("PERSUADER: Agent ".toList
      ++ (natDigits persuader_id ++ (" @ ".toList ++ (persuader_pos
      ++ '\n' :: ("Belief: ".toList ++ (persuader_belief
      ++ '\n' :: '\n' :: ("DEFENDER: Agent ".toList ++ (natDigits defender_id
      ++ (" @ ".toList ++ (defender_pos ++ '\n' :: ("Belief: ".toList
      ++ (defender_belief ++ '\n' :: '\n' :: (dash40
      ++ '\n' :: ("CONVERSATION".toList ++ '\n' :: (dash40 ++ '\n' :: '\n' ::
      joinLines (msgLines msgs ++ decLines old_belief new_belief ct)))))))))))))))))))) := by
  rw [hB, writeIteration_joinLines]
  have hMD : msgLines msgs ++ decLines old_belief new_belief ct ≠ [] := by
    simp [decLines]
  rw [show eq80 :: iterLine iteration total :: bodyLines time persuader_id persuader_pos
        persuader_belief defender_id defender_pos defender_belief msgs old_belief
        new_belief ct
      = [eq80, iterLine iteration total, "Time: ".toList ++ time, eq80, [],
          "PERSUADER: Agent ".toList ++ natDigits persuader_id ++ " @ ".toList
            ++ persuader_pos,
          "Belief: ".toList ++ persuader_belief, [],
          "DEFENDER: Agent ".toList ++ natDigits defender_id ++ " @ ".toList
            ++ defender_pos,
          "Belief: ".toList ++ defender_belief, [],
          dash40, "CONVERSATION".toList, dash40, []]
        ++ (msgLines msgs ++ decLines old_belief new_belief ct) from rfl,
    joinLines_append (by simp) hMD]
  simp [joinLines, List.append_assoc]

set_option maxHeartbeats 1000000 in
/-- The persuader regex on a written block finds the persuader header line and
captures the id digits and the belief up to the defender lookahead. -/
theorem findPersuader_block {B : List Char} {iteration total persuader_id : Nat}
    {persuader_pos : List Char} {defender_id : Nat} {defender_pos : List Char}
    {persuader_belief defender_belief time : List Char} {msgs : List Msg}
    {old_belief new_belief : List Char} {ct : ChangeType}
    (htime : timeClean time) (hppos : posClean persuader_pos)
    (hpb : scanClean persuader_belief)
    (hB : B = writeIteration iteration total persuader_id persuader_pos defender_id
      defender_pos persuader_belief defender_belief time msgs old_belief new_belief ct) :
    findPersuader B = some (persuader_id, pyStrip persuader_belief) := by
  have hbt := block_text hB
  have hplen : 0 < persuader_pos.length := List.length_pos.mpr hppos.1
  have hpblen : 0 < persuader_belief.length := List.length_pos.mpr hpb.1
  have hs1 : B = joinLines [eq80, iterLine iteration total, "Time: ".toList ++ time,
      eq80, [], []]
      ++ ("PERSUADER: Agent ".toList ++ (natDigits persuader_id ++ (" @ ".toList
      ++ (persuader_pos ++ ('\n' :: ("Belief: ".toList ++ (persuader_belief
      ++ ('\n' :: '\n' :: ("DEFENDER:".toList ++ (" Agent ".toList
      ++ (natDigits defender_id ++ (" @ ".toList ++ (defender_pos
      ++ '\n' :: ("Belief: ".toList ++ (defender_belief ++ '\n' :: '\n' :: (dash40
      ++ '\n' :: ("CONVERSATION".toList ++ '\n' :: (dash40 ++ '\n' :: '\n' ::
      joinLines (msgLines msgs ++ decLines old_belief new_belief ct))))))))))))))))))) := by
    rw [hbt]
    simp only [joinLines, show "DEFENDER: Agent ".toList
      = "DEFENDER:".toList ++ " Agent ".toList from rfl]
    simp [List.append_assoc]
  have hfind1 : findFrom B "PERSUADER: Agent ".toList 0
      = some (joinLines [eq80, iterLine iteration total, "Time: ".toList ++ time,
          eq80, [], []]).length := by
    rw [hs1]
    apply findFrom_split 0 (by decide) (Nat.zero_le _) (by decide)
    rw [List.drop_zero]
    intro hcon
    obtain ⟨l, hl, hinf⟩ := infix_joinLines_single (by decide) (by decide) hcon
    fin_cases hl
    · exact not_infix_of_char (show 'P' ∈ "PERSUADER: Agent ".toList by decide)
        (by decide) hinf
    · exact not_infix_of_char (show 'P' ∈ "PERSUADER: Agent ".toList by decide)
        (not_mem_iterLine (by decide) (by decide) (by decide)) hinf
    · refine not_infix_of_char (show 'P' ∈ "PERSUADER: Agent ".toList by decide)
        ?_ hinf
      intro hm
      rcases List.mem_append.mp hm with h | h
      · simp at h
      · exact not_mem_timeClean htime (by decide) (by decide) (by decide) (by decide)
          (by decide) h
    · exact not_infix_of_char (show 'P' ∈ "PERSUADER: Agent ".toList by decide)
        (by decide) hinf
    · rw [List.infix_nil] at hinf
      exact absurd hinf (by decide)
    · rw [List.infix_nil] at hinf
      exact absurd hinf (by decide)
  have hs2 : B = (joinLines [eq80, iterLine iteration total, "Time: ".toList ++ time,
      eq80, [], []] ++ "PERSUADER: Agent ".toList ++ natDigits persuader_id)
      ++ (" @ ".toList ++ (persuader_pos ++ ('\n' :: ("Belief: ".toList
      ++ (persuader_belief ++ ('\n' :: '\n' :: ("DEFENDER:".toList ++ (" Agent ".toList
      ++ (natDigits defender_id ++ (" @ ".toList ++ (defender_pos
      ++ '\n' :: ("Belief: ".toList ++ (defender_belief ++ '\n' :: '\n' :: (dash40
      ++ '\n' :: ("CONVERSATION".toList ++ '\n' :: (dash40 ++ '\n' :: '\n' ::
      joinLines (msgLines msgs ++ decLines old_belief new_belief ct))))))))))))))))) := by
    rw [hs1]
    simp [List.append_assoc]
  have hdropD : B.drop ((joinLines [eq80, iterLine iteration total,
      "Time: ".toList ++ time, eq80, [], []]).length + 17)
      = natDigits persuader_id ++ (" @ ".toList ++ (persuader_pos
      ++ ('\n' :: ("Belief: ".toList ++ (persuader_belief
      ++ ('\n' :: '\n' :: ("DEFENDER:".toList ++ (" Agent ".toList
      ++ (natDigits defender_id ++ (" @ ".toList ++ (defender_pos
      ++ '\n' :: ("Belief: ".toList ++ (defender_belief ++ '\n' :: '\n' :: (dash40
      ++ '\n' :: ("CONVERSATION".toList ++ '\n' :: (dash40 ++ '\n' :: '\n' ::
      joinLines (msgLines msgs ++ decLines old_belief new_belief ct))))))))))))))))) := by
    rw [hs1]
    exact drop_prefix_lit rfl
  have hds : (B.drop ((joinLines [eq80, iterLine iteration total,
      "Time: ".toList ++ time, eq80, [], []]).length + 17)).takeWhile isDigitChar
      = natDigits persuader_id := by
    rw [hdropD]
    refine takeWhile_digits_boundary _ _ (natDigits_all_digit persuader_id) ?_
    intro c hc
    simp only [show (" @ ".toList : List Char) = ' ' :: "@ ".toList from rfl,
      List.cons_append, List.head?_cons, Option.some.injEq] at hc
    rw [← hc]
    decide
  unfold findPersuader
  rw [hfind1]
  show (if ((B.drop ((joinLines [eq80, iterLine iteration total,
      "Time: ".toList ++ time, eq80, [], []]).length + 17)).takeWhile
      isDigitChar).isEmpty = true then none else _) = _
  rw [hds, if_neg (by simp [natDigits_ne_nil])]
  have hlen2 : (joinLines [eq80, iterLine iteration total, "Time: ".toList ++ time,
      eq80, [], []] ++ "PERSUADER: Agent ".toList ++ natDigits persuader_id).length
      = (joinLines [eq80, iterLine iteration total, "Time: ".toList ++ time,
        eq80, [], []]).length + 17 + (natDigits persuader_id).length := by
    rw [List.length_append, List.length_append]
    rfl
  have hdropAt : B.drop ((joinLines [eq80, iterLine iteration total,
      "Time: ".toList ++ time, eq80, [], []]).length + 17
      + (natDigits persuader_id).length)
      = " @ ".toList ++ (persuader_pos ++ ('\n' :: ("Belief: ".toList
      ++ (persuader_belief ++ ('\n' :: '\n' :: ("DEFENDER:".toList ++ (" Agent ".toList
      ++ (natDigits defender_id ++ (" @ ".toList ++ (defender_pos
      ++ '\n' :: ("Belief: ".toList ++ (defender_belief ++ '\n' :: '\n' :: (dash40
      ++ '\n' :: ("CONVERSATION".toList ++ '\n' :: (dash40 ++ '\n' :: '\n' ::
      joinLines (msgLines msgs ++ decLines old_belief new_belief ct)))))))))))))))) := by
    rw [hs2, ← hlen2, List.drop_left]
  show (if " @ ".toList.isPrefixOf (B.drop ((joinLines [eq80, iterLine iteration total,
      "Time: ".toList ++ time, eq80, [], []]).length + 17
      + (natDigits persuader_id).length)) = true then _ else none) = _
  rw [hdropAt, if_isPrefix_append]
  have hs4 : B = (joinLines [eq80, iterLine iteration total, "Time: ".toList ++ time,
      eq80, [], []] ++ "PERSUADER: Agent ".toList ++ natDigits persuader_id
      ++ " @ ".toList ++ persuader_pos)
      ++ ("\nBelief: ".toList ++ (persuader_belief
      ++ ('\n' :: '\n' :: ("DEFENDER:".toList ++ (" Agent ".toList
      ++ (natDigits defender_id ++ (" @ ".toList ++ (defender_pos
      ++ '\n' :: ("Belief: ".toList ++ (defender_belief ++ '\n' :: '\n' :: (dash40
      ++ '\n' :: ("CONVERSATION".toList ++ '\n' :: (dash40 ++ '\n' :: '\n' ::
      joinLines (msgLines msgs ++ decLines old_belief new_belief ct)))))))))))))) := by
    rw [hbt]
    simp only [joinLines, show "DEFENDER: Agent ".toList
        = "DEFENDER:".toList ++ " Agent ".toList from rfl,
      show ("\nBelief: ".toList : List Char) = '\n' :: "Belief: ".toList from rfl]
    simp [List.append_assoc]
  have hlen4 : (joinLines [eq80, iterLine iteration total, "Time: ".toList ++ time,
      eq80, [], []] ++ "PERSUADER: Agent ".toList ++ natDigits persuader_id
      ++ " @ ".toList ++ persuader_pos).length
      = (joinLines [eq80, iterLine iteration total, "Time: ".toList ++ time,
        eq80, [], []]).length + 17 + (natDigits persuader_id).length + 3
        + persuader_pos.length := by
    simp only [List.length_append]
    rfl
  have hfind4 : findFrom B "\nBelief: ".toList
      ((joinLines [eq80, iterLine iteration total, "Time: ".toList ++ time,
        eq80, [], []]).length + 17 + (natDigits persuader_id).length + 3 + 1)
      = some (joinLines [eq80, iterLine iteration total, "Time: ".toList ++ time,
        eq80, [], []] ++ "PERSUADER: Agent ".toList ++ natDigits persuader_id
        ++ " @ ".toList ++ persuader_pos).length := by
    rw [hs4]
    apply findFrom_split _ (by decide) ?_ (by decide) ?_
    · rw [hlen4]
      omega
    · have hxd : (joinLines [eq80, iterLine iteration total, "Time: ".toList ++ time,
          eq80, [], []] ++ "PERSUADER: Agent ".toList ++ natDigits persuader_id
          ++ " @ ".toList ++ persuader_pos).drop
          ((joinLines [eq80, iterLine iteration total, "Time: ".toList ++ time,
            eq80, [], []]).length + 17 + (natDigits persuader_id).length + 3 + 1)
          = persuader_pos.drop 1 := by
        rw [show (joinLines [eq80, iterLine iteration total, "Time: ".toList ++ time,
            eq80, [], []] ++ "PERSUADER: Agent ".toList ++ natDigits persuader_id
            ++ " @ ".toList ++ persuader_pos)
          = (joinLines [eq80, iterLine iteration total, "Time: ".toList ++ time,
            eq80, [], []] ++ "PERSUADER: Agent ".toList ++ natDigits persuader_id
            ++ " @ ".toList) ++ persuader_pos from by simp [List.append_assoc]]
        rw [show (joinLines [eq80, iterLine iteration total, "Time: ".toList ++ time,
            eq80, [], []]).length + 17 + (natDigits persuader_id).length + 3 + 1
          = (joinLines [eq80, iterLine iteration total, "Time: ".toList ++ time,
            eq80, [], []] ++ "PERSUADER: Agent ".toList ++ natDigits persuader_id
            ++ " @ ".toList).length + 1 from by simp only [List.length_append]; rfl]
        exact drop_append_plus _ _ 1
      rw [hxd]
      exact not_infix_of_char (show '\n' ∈ "\nBelief: ".toList by decide)
        (fun hm => posClean_no_newline hppos (List.mem_of_mem_drop hm))
  rw [hfind4, Option.bind_eq_bind, Option.some_bind]
  have hs5 : B = (joinLines [eq80, iterLine iteration total, "Time: ".toList ++ time,
      eq80, [], []] ++ "PERSUADER: Agent ".toList ++ natDigits persuader_id
      ++ " @ ".toList ++ persuader_pos ++ "\nBelief: ".toList ++ persuader_belief)
      ++ ("\n\nDEFENDER:".toList ++ (" Agent ".toList
      ++ (natDigits defender_id ++ (" @ ".toList ++ (defender_pos
      ++ '\n' :: ("Belief: ".toList ++ (defender_belief ++ '\n' :: '\n' :: (dash40
      ++ '\n' :: ("CONVERSATION".toList ++ '\n' :: (dash40 ++ '\n' :: '\n' ::
      joinLines (msgLines msgs ++ decLines old_belief new_belief ct))))))))))) := by
    rw [hbt]
    simp only [joinLines, show "DEFENDER: Agent ".toList
        = "DEFENDER:".toList ++ " Agent ".toList from rfl,
      show ("\nBelief: ".toList : List Char) = '\n' :: "Belief: ".toList from rfl,
      show ("\n\nDEFENDER:".toList : List Char) = '\n' :: '\n' :: "DEFENDER:".toList
        from rfl]
    simp [List.append_assoc]
  have hlen5 : (joinLines [eq80, iterLine iteration total, "Time: ".toList ++ time,
      eq80, [], []] ++ "PERSUADER: Agent ".toList ++ natDigits persuader_id
      ++ " @ ".toList ++ persuader_pos ++ "\nBelief: ".toList
      ++ persuader_belief).length
      = (joinLines [eq80, iterLine iteration total, "Time: ".toList ++ time,
        eq80, [], []] ++ "PERSUADER: Agent ".toList ++ natDigits persuader_id
        ++ " @ ".toList ++ persuader_pos).length + 9 + persuader_belief.length := by
    simp only [List.length_append]
    rfl
  have hfind5 : findFrom B "\n\nDEFENDER:".toList
      ((joinLines [eq80, iterLine iteration total, "Time: ".toList ++ time,
        eq80, [], []] ++ "PERSUADER: Agent ".toList ++ natDigits persuader_id
        ++ " @ ".toList ++ persuader_pos).length + 9 + 1)
      = some (joinLines [eq80, iterLine iteration total, "Time: ".toList ++ time,
        eq80, [], []] ++ "PERSUADER: Agent ".toList ++ natDigits persuader_id
        ++ " @ ".toList ++ persuader_pos ++ "\nBelief: ".toList
        ++ persuader_belief).length := by
    rw [hs5]
    apply findFrom_split _ (by decide) ?_ (by decide) ?_
    · rw [hlen5]
      omega
    · have hxd : (joinLines [eq80, iterLine iteration total, "Time: ".toList ++ time,
          eq80, [], []] ++ "PERSUADER: Agent ".toList ++ natDigits persuader_id
          ++ " @ ".toList ++ persuader_pos ++ "\nBelief: ".toList
          ++ persuader_belief).drop
          ((joinLines [eq80, iterLine iteration total, "Time: ".toList ++ time,
            eq80, [], []] ++ "PERSUADER: Agent ".toList ++ natDigits persuader_id
            ++ " @ ".toList ++ persuader_pos).length + 9 + 1)
          = persuader_belief.drop 1 := by
        rw [show (joinLines [eq80, iterLine iteration total, "Time: ".toList ++ time,
            eq80, [], []] ++ "PERSUADER: Agent ".toList ++ natDigits persuader_id
            ++ " @ ".toList ++ persuader_pos ++ "\nBelief: ".toList ++ persuader_belief)
          = (joinLines [eq80, iterLine iteration total, "Time: ".toList ++ time,
            eq80, [], []] ++ "PERSUADER: Agent ".toList ++ natDigits persuader_id
            ++ " @ ".toList ++ persuader_pos ++ "\nBelief: ".toList) ++ persuader_belief
          from by simp [List.append_assoc]]
        rw [show (joinLines [eq80, iterLine iteration total, "Time: ".toList ++ time,
            eq80, [], []] ++ "PERSUADER: Agent ".toList ++ natDigits persuader_id
            ++ " @ ".toList ++ persuader_pos).length + 9 + 1
          = (joinLines [eq80, iterLine iteration total, "Time: ".toList ++ time,
            eq80, [], []] ++ "PERSUADER: Agent ".toList ++ natDigits persuader_id
            ++ " @ ".toList ++ persuader_pos ++ "\nBelief: ".toList).length + 1
          from by simp only [List.length_append]; rfl]
        exact drop_append_plus _ _ 1
      rw [hxd]
      exact not_infix_of_char (show '\n' ∈ "\n\nDEFENDER:".toList by decide)
        (fun hm => hpb.2.1 (List.mem_of_mem_drop hm))
  rw [hfind5, Option.some_bind]
  have hdrop9 : B.drop ((joinLines [eq80, iterLine iteration total,
      "Time: ".toList ++ time, eq80, [], []] ++ "PERSUADER: Agent ".toList
      ++ natDigits persuader_id ++ " @ ".toList ++ persuader_pos).length + 9)
      = persuader_belief ++ ('\n' :: '\n' :: ("DEFENDER:".toList ++ (" Agent ".toList
      ++ (natDigits defender_id ++ (" @ ".toList ++ (defender_pos
      ++ '\n' :: ("Belief: ".toList ++ (defender_belief ++ '\n' :: '\n' :: (dash40
      ++ '\n' :: ("CONVERSATION".toList ++ '\n' :: (dash40 ++ '\n' :: '\n' ::
      joinLines (msgLines msgs ++ decLines old_belief new_belief ct)))))))))))) := by
    rw [show B = (joinLines [eq80, iterLine iteration total, "Time: ".toList ++ time,
        eq80, [], []] ++ "PERSUADER: Agent ".toList ++ natDigits persuader_id
        ++ " @ ".toList ++ persuader_pos ++ "\nBelief: ".toList)
        ++ (persuader_belief
        ++ ('\n' :: '\n' :: ("DEFENDER:".toList ++ (" Agent ".toList
        ++ (natDigits defender_id ++ (" @ ".toList ++ (defender_pos
        ++ '\n' :: ("Belief: ".toList ++ (defender_belief ++ '\n' :: '\n' :: (dash40
        ++ '\n' :: ("CONVERSATION".toList ++ '\n' :: (dash40 ++ '\n' :: '\n' ::
        joinLines (msgLines msgs ++ decLines old_belief new_belief ct)))))))))))))
      from by rw [hs5]; simp [List.append_assoc]]
    rw [show (joinLines [eq80, iterLine iteration total, "Time: ".toList ++ time,
        eq80, [], []] ++ "PERSUADER: Agent ".toList ++ natDigits persuader_id
        ++ " @ ".toList ++ persuader_pos).length + 9
      = (joinLines [eq80, iterLine iteration total, "Time: ".toList ++ time,
        eq80, [], []] ++ "PERSUADER: Agent ".toList ++ natDigits persuader_id
        ++ " @ ".toList ++ persuader_pos ++ "\nBelief: ".toList).length
      from by simp only [List.length_append]; rfl]
    exact List.drop_left _ _
  rw [hdrop9, digitsToNat_natDigits,
    show (joinLines [eq80, iterLine iteration total, "Time: ".toList ++ time,
        eq80, [], []] ++ "PERSUADER: Agent ".toList ++ natDigits persuader_id
        ++ " @ ".toList ++ persuader_pos ++ "\nBelief: ".toList
        ++ persuader_belief).length
      - ((joinLines [eq80, iterLine iteration total, "Time: ".toList ++ time,
        eq80, [], []] ++ "PERSUADER: Agent ".toList ++ natDigits persuader_id
        ++ " @ ".toList ++ persuader_pos).length + 9)
      = persuader_belief.length from by rw [hlen5]; omega,
    List.take_left]




set_option maxHeartbeats 1000000 in
/-- The defender regex on a written block finds the defender header line and
captures the id digits and the belief up to the `-{40}` lookahead. -/
theorem findDefender_block {B : List Char} {iteration total persuader_id : Nat}
    {persuader_pos : List Char} {defender_id : Nat} {defender_pos : List Char}
    {persuader_belief defender_belief time : List Char} {msgs : List Msg}
    {old_belief new_belief : List Char} {ct : ChangeType}
    (htime : timeClean time) (hppos : posClean persuader_pos)
    (hdpos : posClean defender_pos) (hpb : scanClean persuader_belief)
    (hdb : scanClean defender_belief)
    (hB : B = writeIteration iteration total persuader_id persuader_pos defender_id
      defender_pos persuader_belief defender_belief time msgs old_belief new_belief ct) :
    findDefender B = some (defender_id, pyStrip defender_belief) := by
  have hbt := block_text hB
  have hdlen : 0 < defender_pos.length := List.length_pos.mpr hdpos.1
  have hdblen : 0 < defender_belief.length := List.length_pos.mpr hdb.1
  have hs1 : B = joinLines [eq80, iterLine iteration total, "Time: ".toList ++ time, eq80, [],
        "PERSUADER: Agent ".toList ++ natDigits persuader_id ++ " @ ".toList
          ++ persuader_pos,
        "Belief: ".toList ++ persuader_belief, [], []]
      ++ ("DEFENDER: Agent ".toList ++ (natDigits defender_id ++ (" @ ".toList
      ++ (defender_pos ++ ('\n' :: ("Belief: ".toList ++ (defender_belief
      ++ ('\n' :: '\n' :: (dash40 ++ ('\n' :: ("CONVERSATION".toList
      ++ ('\n' :: (dash40 ++ '\n' :: '\n' :: joinLines (msgLines msgs ++ decLines old_belief new_belief ct)))))))))))))) := by
    rw [hbt]
    simp only [joinLines]
    simp [List.append_assoc]
  have hfind1 : findFrom B "DEFENDER: Agent ".toList 0
      = some (joinLines [eq80, iterLine iteration total, "Time: ".toList ++ time, eq80, [],
        "PERSUADER: Agent ".toList ++ natDigits persuader_id ++ " @ ".toList
          ++ persuader_pos,
        "Belief: ".toList ++ persuader_belief, [], []]).length := by
    rw [hs1]
    apply findFrom_split 0 (by decide) (Nat.zero_le _) (by decide)
    rw [List.drop_zero]
    intro hcon
    obtain ⟨l, hl, hinf⟩ := infix_joinLines_single (by decide) (by decide) hcon
    fin_cases hl
    · exact not_infix_of_char (show 'F' ∈ "DEFENDER: Agent ".toList by decide)
        (by decide) hinf
    · exact not_infix_of_char (show 'F' ∈ "DEFENDER: Agent ".toList by decide)
        (not_mem_iterLine (by decide) (by decide) (by decide)) hinf
    · refine not_infix_of_char (show 'F' ∈ "DEFENDER: Agent ".toList by decide) ?_ hinf
      intro hm
      rcases List.mem_append.mp hm with h | h
      · simp at h
      · exact not_mem_timeClean htime (by decide) (by decide) (by decide) (by decide)
          (by decide) h
    · exact not_infix_of_char (show 'F' ∈ "DEFENDER: Agent ".toList by decide)
        (by decide) hinf
    · rw [List.infix_nil] at hinf
      exact absurd hinf (by decide)
    · exact not_infix_of_char (show 'F' ∈ "DEFENDER: Agent ".toList by decide)
        (not_mem_agentLine (by decide) (by decide) (by decide)
          (not_mem_posClean hppos (by decide) (by decide) (by decide) (by decide)
            (by decide) (by decide) (by decide) (by decide))) hinf
    · rw [show ("DEFENDER: Agent ".toList : List Char)
          = 'D' :: "EFENDER: Agent ".toList from rfl] at hinf
      have h2 := infix_cons_right_of_not_mem (by decide) hinf
      exact hpb.2.2.2.2.1 (by
        rw [show ("DEFENDER: Agent ".toList : List Char)
          = 'D' :: "EFENDER: Agent ".toList from rfl]
        exact h2)
    · rw [List.infix_nil] at hinf
      exact absurd hinf (by decide)
    · rw [List.infix_nil] at hinf
      exact absurd hinf (by decide)
  have hs2 : B = ((joinLines [eq80, iterLine iteration total, "Time: ".toList ++ time, eq80, [],
        "PERSUADER: Agent ".toList ++ natDigits persuader_id ++ " @ ".toList
          ++ persuader_pos,
        "Belief: ".toList ++ persuader_belief, [], []]) ++ "DEFENDER: Agent ".toList ++ natDigits defender_id)
      ++ (" @ ".toList ++ (defender_pos ++ ('\n' :: ("Belief: ".toList
      ++ (defender_belief ++ ('\n' :: '\n' :: (dash40 ++ ('\n' :: ("CONVERSATION".toList
      ++ ('\n' :: (dash40 ++ '\n' :: '\n' :: joinLines (msgLines msgs ++ decLines old_belief new_belief ct)))))))))))) := by
    rw [hs1]
    simp [List.append_assoc]
  have hdropD : B.drop ((joinLines [eq80, iterLine iteration total, "Time: ".toList ++ time, eq80, [],
        "PERSUADER: Agent ".toList ++ natDigits persuader_id ++ " @ ".toList
          ++ persuader_pos,
        "Belief: ".toList ++ persuader_belief, [], []]).length + 16)
      = natDigits defender_id ++ (" @ ".toList
      ++ (defender_pos ++ ('\n' :: ("Belief: ".toList ++ (defender_belief
      ++ ('\n' :: '\n' :: (dash40 ++ ('\n' :: ("CONVERSATION".toList
      ++ ('\n' :: (dash40 ++ '\n' :: '\n' :: joinLines (msgLines msgs ++ decLines old_belief new_belief ct)))))))))))) := by
    rw [hs1]
    exact drop_prefix_lit rfl
  have hds : (B.drop ((joinLines [eq80, iterLine iteration total, "Time: ".toList ++ time, eq80, [],
        "PERSUADER: Agent ".toList ++ natDigits persuader_id ++ " @ ".toList
          ++ persuader_pos,
        "Belief: ".toList ++ persuader_belief, [], []]).length + 16)).takeWhile isDigitChar
      = natDigits defender_id := by
    rw [hdropD]
    refine takeWhile_digits_boundary _ _ (natDigits_all_digit defender_id) ?_
    intro c hc
    simp only [show (" @ ".toList : List Char) = ' ' :: "@ ".toList from rfl,
      List.cons_append, List.head?_cons, Option.some.injEq] at hc
    rw [← hc]
    decide
  unfold findDefender
  rw [hfind1]
  show (if ((B.drop ((joinLines [eq80, iterLine iteration total, "Time: ".toList ++ time, eq80, [],
        "PERSUADER: Agent ".toList ++ natDigits persuader_id ++ " @ ".toList
          ++ persuader_pos,
        "Belief: ".toList ++ persuader_belief, [], []]).length + 16)).takeWhile isDigitChar).isEmpty = true
    then none else _) = _
  rw [hds, if_neg (by simp [natDigits_ne_nil])]
  have hlen2 : ((joinLines [eq80, iterLine iteration total, "Time: ".toList ++ time, eq80, [],
        "PERSUADER: Agent ".toList ++ natDigits persuader_id ++ " @ ".toList
          ++ persuader_pos,
        "Belief: ".toList ++ persuader_belief, [], []]) ++ "DEFENDER: Agent ".toList ++ natDigits defender_id).length
      = (joinLines [eq80, iterLine iteration total, "Time: ".toList ++ time, eq80, [],
        "PERSUADER: Agent ".toList ++ natDigits persuader_id ++ " @ ".toList
          ++ persuader_pos,
        "Belief: ".toList ++ persuader_belief, [], []]).length + 16 + (natDigits defender_id).length := by
    rw [List.length_append, List.length_append]
    rfl
  have hdropAt : B.drop ((joinLines [eq80, iterLine iteration total, "Time: ".toList ++ time, eq80, [],
        "PERSUADER: Agent ".toList ++ natDigits persuader_id ++ " @ ".toList
          ++ persuader_pos,
        "Belief: ".toList ++ persuader_belief, [], []]).length + 16 + (natDigits defender_id).length)
      = " @ ".toList ++ (defender_pos ++ ('\n' :: ("Belief: ".toList
      ++ (defender_belief ++ ('\n' :: '\n' :: (dash40 ++ ('\n' :: ("CONVERSATION".toList
      ++ ('\n' :: (dash40 ++ '\n' :: '\n' :: joinLines (msgLines msgs ++ decLines old_belief new_belief ct))))))))))) := by
    rw [hs2, ← hlen2, List.drop_left]
  show (if " @ ".toList.isPrefixOf (B.drop ((joinLines [eq80, iterLine iteration total, "Time: ".toList ++ time, eq80, [],
        "PERSUADER: Agent ".toList ++ natDigits persuader_id ++ " @ ".toList
          ++ persuader_pos,
        "Belief: ".toList ++ persuader_belief, [], []]).length + 16
      + (natDigits defender_id).length)) = true then _ else none) = _
  rw [hdropAt, if_isPrefix_append]
  have hs4 : B = ((joinLines [eq80, iterLine iteration total, "Time: ".toList ++ time, eq80, [],
        "PERSUADER: Agent ".toList ++ natDigits persuader_id ++ " @ ".toList
          ++ persuader_pos,
        "Belief: ".toList ++ persuader_belief, [], []]) ++ "DEFENDER: Agent ".toList ++ natDigits defender_id
      ++ " @ ".toList ++ defender_pos)
      ++ ("\nBelief: ".toList ++ (defender_belief
      ++ ('\n' :: '\n' :: (dash40 ++ ('\n' :: ("CONVERSATION".toList
      ++ ('\n' :: (dash40 ++ '\n' :: '\n' :: joinLines (msgLines msgs ++ decLines old_belief new_belief ct))))))))) := by
    rw [hs1]
    simp only [show ("\nBelief: ".toList : List Char) = '\n' :: "Belief: ".toList
      from rfl]
    simp [List.append_assoc]
  have hlen4 : ((joinLines [eq80, iterLine iteration total, "Time: ".toList ++ time, eq80, [],
        "PERSUADER: Agent ".toList ++ natDigits persuader_id ++ " @ ".toList
          ++ persuader_pos,
        "Belief: ".toList ++ persuader_belief, [], []]) ++ "DEFENDER: Agent ".toList ++ natDigits defender_id
      ++ " @ ".toList ++ defender_pos).length
      = (joinLines [eq80, iterLine iteration total, "Time: ".toList ++ time, eq80, [],
        "PERSUADER: Agent ".toList ++ natDigits persuader_id ++ " @ ".toList
          ++ persuader_pos,
        "Belief: ".toList ++ persuader_belief, [], []]).length + 16 + (natDigits defender_id).length + 3
        + defender_pos.length := by
    simp only [List.length_append]
    rfl
  have hfind4 : findFrom B "\nBelief: ".toList
      ((joinLines [eq80, iterLine iteration total, "Time: ".toList ++ time, eq80, [],
        "PERSUADER: Agent ".toList ++ natDigits persuader_id ++ " @ ".toList
          ++ persuader_pos,
        "Belief: ".toList ++ persuader_belief, [], []]).length + 16 + (natDigits defender_id).length + 3 + 1)
      = some ((joinLines [eq80, iterLine iteration total, "Time: ".toList ++ time, eq80, [],
        "PERSUADER: Agent ".toList ++ natDigits persuader_id ++ " @ ".toList
          ++ persuader_pos,
        "Belief: ".toList ++ persuader_belief, [], []]) ++ "DEFENDER: Agent ".toList ++ natDigits defender_id
        ++ " @ ".toList ++ defender_pos).length := by
    rw [hs4]
    apply findFrom_split _ (by decide) ?_ (by decide) ?_
    · rw [hlen4]
      omega
    · have hxd : ((joinLines [eq80, iterLine iteration total, "Time: ".toList ++ time, eq80, [],
        "PERSUADER: Agent ".toList ++ natDigits persuader_id ++ " @ ".toList
          ++ persuader_pos,
        "Belief: ".toList ++ persuader_belief, [], []]) ++ "DEFENDER: Agent ".toList ++ natDigits defender_id
          ++ " @ ".toList ++ defender_pos).drop
          ((joinLines [eq80, iterLine iteration total, "Time: ".toList ++ time, eq80, [],
        "PERSUADER: Agent ".toList ++ natDigits persuader_id ++ " @ ".toList
          ++ persuader_pos,
        "Belief: ".toList ++ persuader_belief, [], []]).length + 16 + (natDigits defender_id).length + 3 + 1)
          = defender_pos.drop 1 := by
        rw [show ((joinLines [eq80, iterLine iteration total, "Time: ".toList ++ time, eq80, [],
        "PERSUADER: Agent ".toList ++ natDigits persuader_id ++ " @ ".toList
          ++ persuader_pos,
        "Belief: ".toList ++ persuader_belief, [], []]) ++ "DEFENDER: Agent ".toList ++ natDigits defender_id
            ++ " @ ".toList ++ defender_pos)
          = ((joinLines [eq80, iterLine iteration total, "Time: ".toList ++ time, eq80, [],
        "PERSUADER: Agent ".toList ++ natDigits persuader_id ++ " @ ".toList
          ++ persuader_pos,
        "Belief: ".toList ++ persuader_belief, [], []]) ++ "DEFENDER: Agent ".toList ++ natDigits defender_id
            ++ " @ ".toList) ++ defender_pos from by simp [List.append_assoc]]
        rw [show (joinLines [eq80, iterLine iteration total, "Time: ".toList ++ time, eq80, [],
        "PERSUADER: Agent ".toList ++ natDigits persuader_id ++ " @ ".toList
          ++ persuader_pos,
        "Belief: ".toList ++ persuader_belief, [], []]).length + 16 + (natDigits defender_id).length + 3 + 1
          = ((joinLines [eq80, iterLine iteration total, "Time: ".toList ++ time, eq80, [],
        "PERSUADER: Agent ".toList ++ natDigits persuader_id ++ " @ ".toList
          ++ persuader_pos,
        "Belief: ".toList ++ persuader_belief, [], []]) ++ "DEFENDER: Agent ".toList ++ natDigits defender_id
            ++ " @ ".toList).length + 1 from by simp only [List.length_append]; rfl]
        exact drop_append_plus _ _ 1
      rw [hxd]
      exact not_infix_of_char (show '\n' ∈ "\nBelief: ".toList by decide)
        (fun hm => posClean_no_newline hdpos (List.mem_of_mem_drop hm))
  rw [hfind4, Option.bind_eq_bind, Option.some_bind]
  have hs5 : B = ((joinLines [eq80, iterLine iteration total, "Time: ".toList ++ time, eq80, [],
        "PERSUADER: Agent ".toList ++ natDigits persuader_id ++ " @ ".toList
          ++ persuader_pos,
        "Belief: ".toList ++ persuader_belief, [], []]) ++ "DEFENDER: Agent ".toList ++ natDigits defender_id
      ++ " @ ".toList ++ defender_pos ++ "\nBelief: ".toList ++ defender_belief)
      ++ (("\n\n".toList ++ dash40) ++ ('\n' :: ("CONVERSATION".toList
      ++ ('\n' :: (dash40 ++ '\n' :: '\n' :: joinLines (msgLines msgs ++ decLines old_belief new_belief ct)))))) := by
    rw [hs1]
    simp only [show ("\nBelief: ".toList : List Char) = '\n' :: "Belief: ".toList
      from rfl, show ("\n\n".toList : List Char) = ['\n', '\n'] from rfl]
    simp [List.append_assoc]
  have hlen5 : ((joinLines [eq80, iterLine iteration total, "Time: ".toList ++ time, eq80, [],
        "PERSUADER: Agent ".toList ++ natDigits persuader_id ++ " @ ".toList
          ++ persuader_pos,
        "Belief: ".toList ++ persuader_belief, [], []]) ++ "DEFENDER: Agent ".toList ++ natDigits defender_id
      ++ " @ ".toList ++ defender_pos ++ "\nBelief: ".toList
      ++ defender_belief).length
      = ((joinLines [eq80, iterLine iteration total, "Time: ".toList ++ time, eq80, [],
        "PERSUADER: Agent ".toList ++ natDigits persuader_id ++ " @ ".toList
          ++ persuader_pos,
        "Belief: ".toList ++ persuader_belief, [], []]) ++ "DEFENDER: Agent ".toList ++ natDigits defender_id
        ++ " @ ".toList ++ defender_pos).length + 9 + defender_belief.length := by
    simp only [List.length_append]
    rfl
  have hfind5 : findFrom B ("\n\n".toList ++ dash40)
      (((joinLines [eq80, iterLine iteration total, "Time: ".toList ++ time, eq80, [],
        "PERSUADER: Agent ".toList ++ natDigits persuader_id ++ " @ ".toList
          ++ persuader_pos,
        "Belief: ".toList ++ persuader_belief, [], []]) ++ "DEFENDER: Agent ".toList ++ natDigits defender_id
        ++ " @ ".toList ++ defender_pos).length + 9 + 1)
      = some ((joinLines [eq80, iterLine iteration total, "Time: ".toList ++ time, eq80, [],
        "PERSUADER: Agent ".toList ++ natDigits persuader_id ++ " @ ".toList
          ++ persuader_pos,
        "Belief: ".toList ++ persuader_belief, [], []]) ++ "DEFENDER: Agent ".toList ++ natDigits defender_id
        ++ " @ ".toList ++ defender_pos ++ "\nBelief: ".toList
        ++ defender_belief).length := by
    rw [hs5]
    apply findFrom_split _ (by decide) ?_ (by decide) ?_
    · rw [hlen5]
      omega
    · have hxd : ((joinLines [eq80, iterLine iteration total, "Time: ".toList ++ time, eq80, [],
        "PERSUADER: Agent ".toList ++ natDigits persuader_id ++ " @ ".toList
          ++ persuader_pos,
        "Belief: ".toList ++ persuader_belief, [], []]) ++ "DEFENDER: Agent ".toList ++ natDigits defender_id
          ++ " @ ".toList ++ defender_pos ++ "\nBelief: ".toList
          ++ defender_belief).drop
          (((joinLines [eq80, iterLine iteration total, "Time: ".toList ++ time, eq80, [],
        "PERSUADER: Agent ".toList ++ natDigits persuader_id ++ " @ ".toList
          ++ persuader_pos,
        "Belief: ".toList ++ persuader_belief, [], []]) ++ "DEFENDER: Agent ".toList ++ natDigits defender_id
            ++ " @ ".toList ++ defender_pos).length + 9 + 1)
          = defender_belief.drop 1 := by
        rw [show ((joinLines [eq80, iterLine iteration total, "Time: ".toList ++ time, eq80, [],
        "PERSUADER: Agent ".toList ++ natDigits persuader_id ++ " @ ".toList
          ++ persuader_pos,
        "Belief: ".toList ++ persuader_belief, [], []]) ++ "DEFENDER: Agent ".toList ++ natDigits defender_id
            ++ " @ ".toList ++ defender_pos ++ "\nBelief: ".toList ++ defender_belief)
          = ((joinLines [eq80, iterLine iteration total, "Time: ".toList ++ time, eq80, [],
        "PERSUADER: Agent ".toList ++ natDigits persuader_id ++ " @ ".toList
          ++ persuader_pos,
        "Belief: ".toList ++ persuader_belief, [], []]) ++ "DEFENDER: Agent ".toList ++ natDigits defender_id
            ++ " @ ".toList ++ defender_pos ++ "\nBelief: ".toList) ++ defender_belief
          from by simp [List.append_assoc]]
        rw [show ((joinLines [eq80, iterLine iteration total, "Time: ".toList ++ time, eq80, [],
        "PERSUADER: Agent ".toList ++ natDigits persuader_id ++ " @ ".toList
          ++ persuader_pos,
        "Belief: ".toList ++ persuader_belief, [], []]) ++ "DEFENDER: Agent ".toList ++ natDigits defender_id
            ++ " @ ".toList ++ defender_pos).length + 9 + 1
          = ((joinLines [eq80, iterLine iteration total, "Time: ".toList ++ time, eq80, [],
        "PERSUADER: Agent ".toList ++ natDigits persuader_id ++ " @ ".toList
          ++ persuader_pos,
        "Belief: ".toList ++ persuader_belief, [], []]) ++ "DEFENDER: Agent ".toList ++ natDigits defender_id
            ++ " @ ".toList ++ defender_pos ++ "\nBelief: ".toList).length + 1
          from by simp only [List.length_append]; rfl]
        exact drop_append_plus _ _ 1
      rw [hxd]
      exact not_infix_of_char (show '\n' ∈ ("\n\n".toList ++ dash40) by decide)
        (fun hm => hdb.2.1 (List.mem_of_mem_drop hm))
  rw [hfind5, Option.some_bind]
  have hdrop9 : B.drop (((joinLines [eq80, iterLine iteration total, "Time: ".toList ++ time, eq80, [],
        "PERSUADER: Agent ".toList ++ natDigits persuader_id ++ " @ ".toList
          ++ persuader_pos,
        "Belief: ".toList ++ persuader_belief, [], []]) ++ "DEFENDER: Agent ".toList ++ natDigits defender_id
      ++ " @ ".toList ++ defender_pos).length + 9)
      = defender_belief ++ ('\n' :: '\n' :: (dash40 ++ ('\n' :: ("CONVERSATION".toList
      ++ ('\n' :: (dash40 ++ '\n' :: '\n' :: joinLines (msgLines msgs ++ decLines old_belief new_belief ct))))))) := by
    rw [show B = ((joinLines [eq80, iterLine iteration total, "Time: ".toList ++ time, eq80, [],
        "PERSUADER: Agent ".toList ++ natDigits persuader_id ++ " @ ".toList
          ++ persuader_pos,
        "Belief: ".toList ++ persuader_belief, [], []]) ++ "DEFENDER: Agent ".toList ++ natDigits defender_id
        ++ " @ ".toList ++ defender_pos ++ "\nBelief: ".toList)
        ++ (defender_belief ++ ('\n' :: '\n' :: (dash40 ++ ('\n' ::
        ("CONVERSATION".toList ++ ('\n' :: (dash40 ++ '\n' :: '\n' :: joinLines (msgLines msgs ++ decLines old_belief new_belief ct))))))))
      from by rw [hs5]; simp [List.append_assoc]]
    rw [show ((joinLines [eq80, iterLine iteration total, "Time: ".toList ++ time, eq80, [],
        "PERSUADER: Agent ".toList ++ natDigits persuader_id ++ " @ ".toList
          ++ persuader_pos,
        "Belief: ".toList ++ persuader_belief, [], []]) ++ "DEFENDER: Agent ".toList ++ natDigits defender_id
        ++ " @ ".toList ++ defender_pos).length + 9
      = ((joinLines [eq80, iterLine iteration total, "Time: ".toList ++ time, eq80, [],
        "PERSUADER: Agent ".toList ++ natDigits persuader_id ++ " @ ".toList
          ++ persuader_pos,
        "Belief: ".toList ++ persuader_belief, [], []]) ++ "DEFENDER: Agent ".toList ++ natDigits defender_id
        ++ " @ ".toList ++ defender_pos ++ "\nBelief: ".toList).length
      from by simp only [List.length_append]; rfl]
    exact List.drop_left _ _
  rw [hdrop9, digitsToNat_natDigits,
    show ((joinLines [eq80, iterLine iteration total, "Time: ".toList ++ time, eq80, [],
        "PERSUADER: Agent ".toList ++ natDigits persuader_id ++ " @ ".toList
          ++ persuader_pos,
        "Belief: ".toList ++ persuader_belief, [], []]) ++ "DEFENDER: Agent ".toList ++ natDigits defender_id
        ++ " @ ".toList ++ defender_pos ++ "\nBelief: ".toList
        ++ defender_belief).length
      - (((joinLines [eq80, iterLine iteration total, "Time: ".toList ++ time, eq80, [],
        "PERSUADER: Agent ".toList ++ natDigits persuader_id ++ " @ ".toList
          ++ persuader_pos,
        "Belief: ".toList ++ persuader_belief, [], []]) ++ "DEFENDER: Agent ".toList ++ natDigits defender_id
        ++ " @ ".toList ++ defender_pos).length + 9)
      = defender_belief.length from by rw [hlen5]; omega,
    List.take_left]

set_option maxHeartbeats 1000000 in
/-- The decision regex on a written block matches at the `DECISION` banner and
captures the old belief, the new belief, and the change-type word. -/
theorem findDecision_block {B : List Char} {iteration total persuader_id : Nat}
    {persuader_pos : List Char} {defender_id : Nat} {defender_pos : List Char}
    {persuader_belief defender_belief time : List Char} {msgs : List Msg}
    {old_belief new_belief : List Char} {ct : ChangeType}
    (htime : timeClean time) (hppos : posClean persuader_pos)
    (hdpos : posClean defender_pos) (hpb : scanClean persuader_belief)
    (hdb : scanClean defender_belief) (hmsgs : ∀ m ∈ msgs, msgClean m)
    (hold : scanClean old_belief) (hnw : scanClean new_belief)
    (hB : B = writeIteration iteration total persuader_id persuader_pos defender_id
      defender_pos persuader_belief defender_belief time msgs old_belief new_belief ct) :
    findDecision B = some (pyStrip old_belief, pyStrip new_belief, ct.text) := by
  have holdlen : 0 < old_belief.length := List.length_pos.mpr hold.1
  have hnwlen : 0 < new_belief.length := List.length_pos.mpr hnw.1
  have hFL : eq80 :: iterLine iteration total :: bodyLines time persuader_id
        persuader_pos persuader_belief defender_id defender_pos defender_belief msgs
        old_belief new_belief ct
      = (eq80 :: iterLine iteration total ::
        ("Time: ".toList ++ time) :: eq80 :: [] ::
        ("PERSUADER: Agent ".toList ++ natDigits persuader_id ++ " @ ".toList
          ++ persuader_pos) ::
        ("Belief: ".toList ++ persuader_belief) :: [] ::
        ("DEFENDER: Agent ".toList ++ natDigits defender_id ++ " @ ".toList
          ++ defender_pos) ::
        ("Belief: ".toList ++ defender_belief) :: [] ::
        dash40 :: "CONVERSATION".toList :: dash40 :: [] ::
        (msgLines msgs ++ [dash40]))
        ++ ("DECISION".toList :: dash40 :: ("Old belief: ".toList ++ old_belief) :: []
          :: ("New belief: ".toList ++ new_belief) :: []
          :: ("Change type: ".toList ++ pyUpper ct.text) :: [] :: [[]]) := by
    unfold bodyLines decLines
    simp [List.append_assoc]
  have hsD : B = joinLines (eq80 :: iterLine iteration total ::
        ("Time: ".toList ++ time) :: eq80 :: [] ::
        ("PERSUADER: Agent ".toList ++ natDigits persuader_id ++ " @ ".toList
          ++ persuader_pos) ::
        ("Belief: ".toList ++ persuader_belief) :: [] ::
        ("DEFENDER: Agent ".toList ++ natDigits defender_id ++ " @ ".toList
          ++ defender_pos) ::
        ("Belief: ".toList ++ defender_belief) :: [] ::
        dash40 :: "CONVERSATION".toList :: dash40 :: [] ::
        (msgLines msgs ++ [dash40, []]))
      ++ (("DECISION\n".toList ++ dash40 ++ "\nOld belief: ".toList)
      ++ (old_belief ++ ('\n' :: '\n' :: ("New belief: ".toList
      ++ (new_belief ++ ('\n' :: '\n' :: ("Change type: ".toList
      ++ (pyUpper ct.text ++ ['\n', '\n'])))))))) := by
    rw [hB, writeIteration_joinLines, hFL,
      joinLines_append (by simp) (by simp),
      show (eq80 :: iterLine iteration total ::
        ("Time: ".toList ++ time) :: eq80 :: [] ::
        ("PERSUADER: Agent ".toList ++ natDigits persuader_id ++ " @ ".toList
          ++ persuader_pos) ::
        ("Belief: ".toList ++ persuader_belief) :: [] ::
        ("DEFENDER: Agent ".toList ++ natDigits defender_id ++ " @ ".toList
          ++ defender_pos) ::
        ("Belief: ".toList ++ defender_belief) :: [] ::
        dash40 :: "CONVERSATION".toList :: dash40 :: [] ::
        (msgLines msgs ++ [dash40, []]))
      = (eq80 :: iterLine iteration total ::
        ("Time: ".toList ++ time) :: eq80 :: [] ::
        ("PERSUADER: Agent ".toList ++ natDigits persuader_id ++ " @ ".toList
          ++ persuader_pos) ::
        ("Belief: ".toList ++ persuader_belief) :: [] ::
        ("DEFENDER: Agent ".toList ++ natDigits defender_id ++ " @ ".toList
          ++ defender_pos) ::
        ("Belief: ".toList ++ defender_belief) :: [] ::
        dash40 :: "CONVERSATION".toList :: dash40 :: [] ::
        (msgLines msgs ++ [dash40])) ++ [[]] from by simp,
      joinLines_concat_nil (by simp)]
    simp only [joinLines,
      show ("DECISION\n".toList : List Char) = "DECISION".toList ++ ['\n'] from rfl,
      show ("\nOld belief: ".toList : List Char) = '\n' :: "Old belief: ".toList
        from rfl]
    simp [List.append_assoc]
  have hfindD : findFrom B ("DECISION\n".toList ++ dash40 ++ "\nOld belief: ".toList) 0
      = some (joinLines (eq80 :: iterLine iteration total ::
        ("Time: ".toList ++ time) :: eq80 :: [] ::
        ("PERSUADER: Agent ".toList ++ natDigits persuader_id ++ " @ ".toList
          ++ persuader_pos) ::
        ("Belief: ".toList ++ persuader_belief) :: [] ::
        ("DEFENDER: Agent ".toList ++ natDigits defender_id ++ " @ ".toList
          ++ defender_pos) ::
        ("Belief: ".toList ++ defender_belief) :: [] ::
        dash40 :: "CONVERSATION".toList :: dash40 :: [] ::
        (msgLines msgs ++ [dash40, []]))).length := by
    rw [hsD]
    apply findFrom_split 0 (by decide) (Nat.zero_le _) (by decide)
    rw [List.drop_zero]
    intro hcon
    have hsub : (dash40 ++ '\n' :: "Old belief: ".toList)
        <:+: ("DECISION\n".toList ++ dash40 ++ "\nOld belief: ".toList) :=
      ⟨"DECISION\n".toList, [], by
        simp [List.append_assoc,
          show ("\nOld belief: ".toList : List Char) = '\n' :: "Old belief: ".toList
            from rfl]⟩
    exact no_dashpat_in_front (by decide) (by decide) (by decide) (by decide)
      (C := [dash40, []]) ⟨Or.inr (Or.inl rfl), trivial⟩ (by simp)
      (by
        intro l hl
        fin_cases hl
        · simp [dash40, List.mem_replicate]
        · simp)
      htime hppos hdpos hpb.2.1 hdb.2.1 hmsgs (hsub.trans hcon)
  have hlenD : ((joinLines (eq80 :: iterLine iteration total ::
        ("Time: ".toList ++ time) :: eq80 :: [] ::
        ("PERSUADER: Agent ".toList ++ natDigits persuader_id ++ " @ ".toList
          ++ persuader_pos) ::
        ("Belief: ".toList ++ persuader_belief) :: [] ::
        ("DEFENDER: Agent ".toList ++ natDigits defender_id ++ " @ ".toList
          ++ defender_pos) ::
        ("Belief: ".toList ++ defender_belief) :: [] ::
        dash40 :: "CONVERSATION".toList :: dash40 :: [] ::
        (msgLines msgs ++ [dash40, []])))
      ++ "DECISION\n".toList ++ dash40 ++ "\nOld belief: ".toList).length
      = (joinLines (eq80 :: iterLine iteration total ::
        ("Time: ".toList ++ time) :: eq80 :: [] ::
        ("PERSUADER: Agent ".toList ++ natDigits persuader_id ++ " @ ".toList
          ++ persuader_pos) ::
        ("Belief: ".toList ++ persuader_belief) :: [] ::
        ("DEFENDER: Agent ".toList ++ natDigits defender_id ++ " @ ".toList
          ++ defender_pos) ::
        ("Belief: ".toList ++ defender_belief) :: [] ::
        dash40 :: "CONVERSATION".toList :: dash40 :: [] ::
        (msgLines msgs ++ [dash40, []]))).length + 9 + 40 + 13 := by
    simp only [List.length_append]
    rfl
  have hdropOld : B.drop ((joinLines (eq80 :: iterLine iteration total ::
        ("Time: ".toList ++ time) :: eq80 :: [] ::
        ("PERSUADER: Agent ".toList ++ natDigits persuader_id ++ " @ ".toList
          ++ persuader_pos) ::
        ("Belief: ".toList ++ persuader_belief) :: [] ::
        ("DEFENDER: Agent ".toList ++ natDigits defender_id ++ " @ ".toList
          ++ defender_pos) ::
        ("Belief: ".toList ++ defender_belief) :: [] ::
        dash40 :: "CONVERSATION".toList :: dash40 :: [] ::
        (msgLines msgs ++ [dash40, []]))).length + 9 + 40 + 13)
      = old_belief ++ ('\n' :: '\n' :: ("New belief: ".toList
      ++ (new_belief ++ ('\n' :: '\n' :: ("Change type: ".toList
      ++ (pyUpper ct.text ++ ['\n', '\n'])))))) := by
    rw [show B = ((joinLines (eq80 :: iterLine iteration total ::
        ("Time: ".toList ++ time) :: eq80 :: [] ::
        ("PERSUADER: Agent ".toList ++ natDigits persuader_id ++ " @ ".toList
          ++ persuader_pos) ::
        ("Belief: ".toList ++ persuader_belief) :: [] ::
        ("DEFENDER: Agent ".toList ++ natDigits defender_id ++ " @ ".toList
          ++ defender_pos) ::
        ("Belief: ".toList ++ defender_belief) :: [] ::
        dash40 :: "CONVERSATION".toList :: dash40 :: [] ::
        (msgLines msgs ++ [dash40, []])))
        ++ "DECISION\n".toList ++ dash40 ++ "\nOld belief: ".toList)
        ++ (old_belief ++ ('\n' :: '\n' :: ("New belief: ".toList
        ++ (new_belief ++ ('\n' :: '\n' :: ("Change type: ".toList
        ++ (pyUpper ct.text ++ ['\n', '\n'])))))))
      from by rw [hsD]; simp [List.append_assoc], ← hlenD, List.drop_left]
  have hlen6 : ((joinLines (eq80 :: iterLine iteration total ::
        ("Time: ".toList ++ time) :: eq80 :: [] ::
        ("PERSUADER: Agent ".toList ++ natDigits persuader_id ++ " @ ".toList
          ++ persuader_pos) ::
        ("Belief: ".toList ++ persuader_belief) :: [] ::
        ("DEFENDER: Agent ".toList ++ natDigits defender_id ++ " @ ".toList
          ++ defender_pos) ::
        ("Belief: ".toList ++ defender_belief) :: [] ::
        dash40 :: "CONVERSATION".toList :: dash40 :: [] ::
        (msgLines msgs ++ [dash40, []]))
      ++ "DECISION\n".toList ++ dash40 ++ "\nOld belief: ".toList ++ old_belief)).length
      = (joinLines (eq80 :: iterLine iteration total ::
        ("Time: ".toList ++ time) :: eq80 :: [] ::
        ("PERSUADER: Agent ".toList ++ natDigits persuader_id ++ " @ ".toList
          ++ persuader_pos) ::
        ("Belief: ".toList ++ persuader_belief) :: [] ::
        ("DEFENDER: Agent ".toList ++ natDigits defender_id ++ " @ ".toList
          ++ defender_pos) ::
        ("Belief: ".toList ++ defender_belief) :: [] ::
        dash40 :: "CONVERSATION".toList :: dash40 :: [] ::
        (msgLines msgs ++ [dash40, []]))).length + 9 + 40 + 13 + old_belief.length := by
    simp only [List.length_append]
    rfl
  have hfind6 : findFrom B "\n\nNew belief: ".toList
      ((joinLines (eq80 :: iterLine iteration total ::
        ("Time: ".toList ++ time) :: eq80 :: [] ::
        ("PERSUADER: Agent ".toList ++ natDigits persuader_id ++ " @ ".toList
          ++ persuader_pos) ::
        ("Belief: ".toList ++ persuader_belief) :: [] ::
        ("DEFENDER: Agent ".toList ++ natDigits defender_id ++ " @ ".toList
          ++ defender_pos) ::
        ("Belief: ".toList ++ defender_belief) :: [] ::
        dash40 :: "CONVERSATION".toList :: dash40 :: [] ::
        (msgLines msgs ++ [dash40, []]))).length + 9 + 40 + 13 + 1)
      = some ((joinLines (eq80 :: iterLine iteration total ::
        ("Time: ".toList ++ time) :: eq80 :: [] ::
        ("PERSUADER: Agent ".toList ++ natDigits persuader_id ++ " @ ".toList
          ++ persuader_pos) ::
        ("Belief: ".toList ++ persuader_belief) :: [] ::
        ("DEFENDER: Agent ".toList ++ natDigits defender_id ++ " @ ".toList
          ++ defender_pos) ::
        ("Belief: ".toList ++ defender_belief) :: [] ::
        dash40 :: "CONVERSATION".toList :: dash40 :: [] ::
        (msgLines msgs ++ [dash40, []]))
      ++ "DECISION\n".toList ++ dash40 ++ "\nOld belief: ".toList ++ old_belief)).length := by
    rw [show B = (joinLines (eq80 :: iterLine iteration total ::
        ("Time: ".toList ++ time) :: eq80 :: [] ::
        ("PERSUADER: Agent ".toList ++ natDigits persuader_id ++ " @ ".toList
          ++ persuader_pos) ::
        ("Belief: ".toList ++ persuader_belief) :: [] ::
        ("DEFENDER: Agent ".toList ++ natDigits defender_id ++ " @ ".toList
          ++ defender_pos) ::
        ("Belief: ".toList ++ defender_belief) :: [] ::
        dash40 :: "CONVERSATION".toList :: dash40 :: [] ::
        (msgLines msgs ++ [dash40, []]))
      ++ "DECISION\n".toList ++ dash40 ++ "\nOld belief: ".toList ++ old_belief)
        ++ ("\n\nNew belief: ".toList ++ (new_belief
        ++ ('\n' :: '\n' :: ("Change type: ".toList
        ++ (pyUpper ct.text ++ ['\n', '\n'])))))
      from by
        rw [hsD]
        simp only [show ("\n\nNew belief: ".toList : List Char)
          = '\n' :: '\n' :: "New belief: ".toList from rfl]
        simp [List.append_assoc]]
    apply findFrom_split _ (by decide) ?_ (by decide) ?_
    · rw [hlen6]
      omega
    · have hxd : ((joinLines (eq80 :: iterLine iteration total ::
        ("Time: ".toList ++ time) :: eq80 :: [] ::
        ("PERSUADER: Agent ".toList ++ natDigits persuader_id ++ " @ ".toList
          ++ persuader_pos) ::
        ("Belief: ".toList ++ persuader_belief) :: [] ::
        ("DEFENDER: Agent ".toList ++ natDigits defender_id ++ " @ ".toList
          ++ defender_pos) ::
        ("Belief: ".toList ++ defender_belief) :: [] ::
        dash40 :: "CONVERSATION".toList :: dash40 :: [] ::
        (msgLines msgs ++ [dash40, []]))
      ++ "DECISION\n".toList ++ dash40 ++ "\nOld belief: ".toList ++ old_belief)).drop
          ((joinLines (eq80 :: iterLine iteration total ::
        ("Time: ".toList ++ time) :: eq80 :: [] ::
        ("PERSUADER: Agent ".toList ++ natDigits persuader_id ++ " @ ".toList
          ++ persuader_pos) ::
        ("Belief: ".toList ++ persuader_belief) :: [] ::
        ("DEFENDER: Agent ".toList ++ natDigits defender_id ++ " @ ".toList
          ++ defender_pos) ::
        ("Belief: ".toList ++ defender_belief) :: [] ::
        dash40 :: "CONVERSATION".toList :: dash40 :: [] ::
        (msgLines msgs ++ [dash40, []]))).length + 9 + 40 + 13 + 1) = old_belief.drop 1 := by
        rw [show (joinLines (eq80 :: iterLine iteration total ::
        ("Time: ".toList ++ time) :: eq80 :: [] ::
        ("PERSUADER: Agent ".toList ++ natDigits persuader_id ++ " @ ".toList
          ++ persuader_pos) ::
        ("Belief: ".toList ++ persuader_belief) :: [] ::
        ("DEFENDER: Agent ".toList ++ natDigits defender_id ++ " @ ".toList
          ++ defender_pos) ::
        ("Belief: ".toList ++ defender_belief) :: [] ::
        dash40 :: "CONVERSATION".toList :: dash40 :: [] ::
        (msgLines msgs ++ [dash40, []]))
      ++ "DECISION\n".toList ++ dash40 ++ "\nOld belief: ".toList ++ old_belief)
          = ((joinLines (eq80 :: iterLine iteration total ::
        ("Time: ".toList ++ time) :: eq80 :: [] ::
        ("PERSUADER: Agent ".toList ++ natDigits persuader_id ++ " @ ".toList
          ++ persuader_pos) ::
        ("Belief: ".toList ++ persuader_belief) :: [] ::
        ("DEFENDER: Agent ".toList ++ natDigits defender_id ++ " @ ".toList
          ++ defender_pos) ::
        ("Belief: ".toList ++ defender_belief) :: [] ::
        dash40 :: "CONVERSATION".toList :: dash40 :: [] ::
        (msgLines msgs ++ [dash40, []])))
            ++ "DECISION\n".toList ++ dash40 ++ "\nOld belief: ".toList) ++ old_belief
          from by simp [List.append_assoc]]
        rw [show (joinLines (eq80 :: iterLine iteration total ::
        ("Time: ".toList ++ time) :: eq80 :: [] ::
        ("PERSUADER: Agent ".toList ++ natDigits persuader_id ++ " @ ".toList
          ++ persuader_pos) ::
        ("Belief: ".toList ++ persuader_belief) :: [] ::
        ("DEFENDER: Agent ".toList ++ natDigits defender_id ++ " @ ".toList
          ++ defender_pos) ::
        ("Belief: ".toList ++ defender_belief) :: [] ::
        dash40 :: "CONVERSATION".toList :: dash40 :: [] ::
        (msgLines msgs ++ [dash40, []]))).length + 9 + 40 + 13 + 1
          = ((joinLines (eq80 :: iterLine iteration total ::
        ("Time: ".toList ++ time) :: eq80 :: [] ::
        ("PERSUADER: Agent ".toList ++ natDigits persuader_id ++ " @ ".toList
          ++ persuader_pos) ::
        ("Belief: ".toList ++ persuader_belief) :: [] ::
        ("DEFENDER: Agent ".toList ++ natDigits defender_id ++ " @ ".toList
          ++ defender_pos) ::
        ("Belief: ".toList ++ defender_belief) :: [] ::
        dash40 :: "CONVERSATION".toList :: dash40 :: [] ::
        (msgLines msgs ++ [dash40, []])))
            ++ "DECISION\n".toList ++ dash40 ++ "\nOld belief: ".toList).length + 1
          from by rw [hlenD]]
        exact drop_append_plus _ _ 1
      rw [hxd]
      exact not_infix_of_char (show '\n' ∈ "\n\nNew belief: ".toList by decide)
        (fun hm => hold.2.1 (List.mem_of_mem_drop hm))
  have hlen7 : ((joinLines (eq80 :: iterLine iteration total ::
        ("Time: ".toList ++ time) :: eq80 :: [] ::
        ("PERSUADER: Agent ".toList ++ natDigits persuader_id ++ " @ ".toList
          ++ persuader_pos) ::
        ("Belief: ".toList ++ persuader_belief) :: [] ::
        ("DEFENDER: Agent ".toList ++ natDigits defender_id ++ " @ ".toList
          ++ defender_pos) ::
        ("Belief: ".toList ++ defender_belief) :: [] ::
        dash40 :: "CONVERSATION".toList :: dash40 :: [] ::
        (msgLines msgs ++ [dash40, []]))
      ++ "DECISION\n".toList ++ dash40 ++ "\nOld belief: ".toList ++ old_belief
      ++ "\n\nNew belief: ".toList ++ new_belief)).length = ((joinLines (eq80 :: iterLine iteration total ::
        ("Time: ".toList ++ time) :: eq80 :: [] ::
        ("PERSUADER: Agent ".toList ++ natDigits persuader_id ++ " @ ".toList
          ++ persuader_pos) ::
        ("Belief: ".toList ++ persuader_belief) :: [] ::
        ("DEFENDER: Agent ".toList ++ natDigits defender_id ++ " @ ".toList
          ++ defender_pos) ::
        ("Belief: ".toList ++ defender_belief) :: [] ::
        dash40 :: "CONVERSATION".toList :: dash40 :: [] ::
        (msgLines msgs ++ [dash40, []]))
      ++ "DECISION\n".toList ++ dash40 ++ "\nOld belief: ".toList ++ old_belief)).length + 14 + new_belief.length := by
    simp only [List.length_append]
    rfl
  have hfind7 : findFrom B "\n\nChange type: ".toList
      (((joinLines (eq80 :: iterLine iteration total ::
        ("Time: ".toList ++ time) :: eq80 :: [] ::
        ("PERSUADER: Agent ".toList ++ natDigits persuader_id ++ " @ ".toList
          ++ persuader_pos) ::
        ("Belief: ".toList ++ persuader_belief) :: [] ::
        ("DEFENDER: Agent ".toList ++ natDigits defender_id ++ " @ ".toList
          ++ defender_pos) ::
        ("Belief: ".toList ++ defender_belief) :: [] ::
        dash40 :: "CONVERSATION".toList :: dash40 :: [] ::
        (msgLines msgs ++ [dash40, []]))
      ++ "DECISION\n".toList ++ dash40 ++ "\nOld belief: ".toList ++ old_belief)).length + 14 + 1)
      = some ((joinLines (eq80 :: iterLine iteration total ::
        ("Time: ".toList ++ time) :: eq80 :: [] ::
        ("PERSUADER: Agent ".toList ++ natDigits persuader_id ++ " @ ".toList
          ++ persuader_pos) ::
        ("Belief: ".toList ++ persuader_belief) :: [] ::
        ("DEFENDER: Agent ".toList ++ natDigits defender_id ++ " @ ".toList
          ++ defender_pos) ::
        ("Belief: ".toList ++ defender_belief) :: [] ::
        dash40 :: "CONVERSATION".toList :: dash40 :: [] ::
        (msgLines msgs ++ [dash40, []]))
      ++ "DECISION\n".toList ++ dash40 ++ "\nOld belief: ".toList ++ old_belief
      ++ "\n\nNew belief: ".toList ++ new_belief)).length := by
    rw [show B = (joinLines (eq80 :: iterLine iteration total ::
        ("Time: ".toList ++ time) :: eq80 :: [] ::
        ("PERSUADER: Agent ".toList ++ natDigits persuader_id ++ " @ ".toList
          ++ persuader_pos) ::
        ("Belief: ".toList ++ persuader_belief) :: [] ::
        ("DEFENDER: Agent ".toList ++ natDigits defender_id ++ " @ ".toList
          ++ defender_pos) ::
        ("Belief: ".toList ++ defender_belief) :: [] ::
        dash40 :: "CONVERSATION".toList :: dash40 :: [] ::
        (msgLines msgs ++ [dash40, []]))
      ++ "DECISION\n".toList ++ dash40 ++ "\nOld belief: ".toList ++ old_belief
      ++ "\n\nNew belief: ".toList ++ new_belief)
        ++ ("\n\nChange type: ".toList ++ (pyUpper ct.text ++ ['\n', '\n']))
      from by
        rw [hsD]
        simp only [show ("\n\nNew belief: ".toList : List Char)
            = '\n' :: '\n' :: "New belief: ".toList from rfl,
          show ("\n\nChange type: ".toList : List Char)
            = '\n' :: '\n' :: "Change type: ".toList from rfl]
        simp [List.append_assoc]]
    apply findFrom_split _ (by decide) ?_ (by decide) ?_
    · rw [hlen7]
      omega
    · have hxd : ((joinLines (eq80 :: iterLine iteration total ::
        ("Time: ".toList ++ time) :: eq80 :: [] ::
        ("PERSUADER: Agent ".toList ++ natDigits persuader_id ++ " @ ".toList
          ++ persuader_pos) ::
        ("Belief: ".toList ++ persuader_belief) :: [] ::
        ("DEFENDER: Agent ".toList ++ natDigits defender_id ++ " @ ".toList
          ++ defender_pos) ::
        ("Belief: ".toList ++ defender_belief) :: [] ::
        dash40 :: "CONVERSATION".toList :: dash40 :: [] ::
        (msgLines msgs ++ [dash40, []]))
      ++ "DECISION\n".toList ++ dash40 ++ "\nOld belief: ".toList ++ old_belief
      ++ "\n\nNew belief: ".toList ++ new_belief)).drop (((joinLines (eq80 :: iterLine iteration total ::
        ("Time: ".toList ++ time) :: eq80 :: [] ::
        ("PERSUADER: Agent ".toList ++ natDigits persuader_id ++ " @ ".toList
          ++ persuader_pos) ::
        ("Belief: ".toList ++ persuader_belief) :: [] ::
        ("DEFENDER: Agent ".toList ++ natDigits defender_id ++ " @ ".toList
          ++ defender_pos) ::
        ("Belief: ".toList ++ defender_belief) :: [] ::
        dash40 :: "CONVERSATION".toList :: dash40 :: [] ::
        (msgLines msgs ++ [dash40, []]))
      ++ "DECISION\n".toList ++ dash40 ++ "\nOld belief: ".toList ++ old_belief)).length + 14 + 1) = new_belief.drop 1 := by
        rw [show (joinLines (eq80 :: iterLine iteration total ::
        ("Time: ".toList ++ time) :: eq80 :: [] ::
        ("PERSUADER: Agent ".toList ++ natDigits persuader_id ++ " @ ".toList
          ++ persuader_pos) ::
        ("Belief: ".toList ++ persuader_belief) :: [] ::
        ("DEFENDER: Agent ".toList ++ natDigits defender_id ++ " @ ".toList
          ++ defender_pos) ::
        ("Belief: ".toList ++ defender_belief) :: [] ::
        dash40 :: "CONVERSATION".toList :: dash40 :: [] ::
        (msgLines msgs ++ [dash40, []]))
      ++ "DECISION\n".toList ++ dash40 ++ "\nOld belief: ".toList ++ old_belief
      ++ "\n\nNew belief: ".toList ++ new_belief)
          = ((joinLines (eq80 :: iterLine iteration total ::
        ("Time: ".toList ++ time) :: eq80 :: [] ::
        ("PERSUADER: Agent ".toList ++ natDigits persuader_id ++ " @ ".toList
          ++ persuader_pos) ::
        ("Belief: ".toList ++ persuader_belief) :: [] ::
        ("DEFENDER: Agent ".toList ++ natDigits defender_id ++ " @ ".toList
          ++ defender_pos) ::
        ("Belief: ".toList ++ defender_belief) :: [] ::
        dash40 :: "CONVERSATION".toList :: dash40 :: [] ::
        (msgLines msgs ++ [dash40, []]))
      ++ "DECISION\n".toList ++ dash40 ++ "\nOld belief: ".toList ++ old_belief) ++ "\n\nNew belief: ".toList) ++ new_belief
          from by simp [List.append_assoc]]
        rw [show ((joinLines (eq80 :: iterLine iteration total ::
        ("Time: ".toList ++ time) :: eq80 :: [] ::
        ("PERSUADER: Agent ".toList ++ natDigits persuader_id ++ " @ ".toList
          ++ persuader_pos) ::
        ("Belief: ".toList ++ persuader_belief) :: [] ::
        ("DEFENDER: Agent ".toList ++ natDigits defender_id ++ " @ ".toList
          ++ defender_pos) ::
        ("Belief: ".toList ++ defender_belief) :: [] ::
        dash40 :: "CONVERSATION".toList :: dash40 :: [] ::
        (msgLines msgs ++ [dash40, []]))
      ++ "DECISION\n".toList ++ dash40 ++ "\nOld belief: ".toList ++ old_belief)).length + 14 + 1
          = ((joinLines (eq80 :: iterLine iteration total ::
        ("Time: ".toList ++ time) :: eq80 :: [] ::
        ("PERSUADER: Agent ".toList ++ natDigits persuader_id ++ " @ ".toList
          ++ persuader_pos) ::
        ("Belief: ".toList ++ persuader_belief) :: [] ::
        ("DEFENDER: Agent ".toList ++ natDigits defender_id ++ " @ ".toList
          ++ defender_pos) ::
        ("Belief: ".toList ++ defender_belief) :: [] ::
        dash40 :: "CONVERSATION".toList :: dash40 :: [] ::
        (msgLines msgs ++ [dash40, []]))
      ++ "DECISION\n".toList ++ dash40 ++ "\nOld belief: ".toList ++ old_belief) ++ "\n\nNew belief: ".toList).length + 1
          from by simp only [List.length_append]; rfl]
        exact drop_append_plus _ _ 1
      rw [hxd]
      exact not_infix_of_char (show '\n' ∈ "\n\nChange type: ".toList by decide)
        (fun hm => hnw.2.1 (List.mem_of_mem_drop hm))
  unfold findDecision
  simp only [hfindD, hfind6, hfind7, Option.bind_eq_bind, Option.some_bind]
  have hdropW : B.drop (((joinLines (eq80 :: iterLine iteration total ::
        ("Time: ".toList ++ time) :: eq80 :: [] ::
        ("PERSUADER: Agent ".toList ++ natDigits persuader_id ++ " @ ".toList
          ++ persuader_pos) ::
        ("Belief: ".toList ++ persuader_belief) :: [] ::
        ("DEFENDER: Agent ".toList ++ natDigits defender_id ++ " @ ".toList
          ++ defender_pos) ::
        ("Belief: ".toList ++ defender_belief) :: [] ::
        dash40 :: "CONVERSATION".toList :: dash40 :: [] ::
        (msgLines msgs ++ [dash40, []]))
      ++ "DECISION\n".toList ++ dash40 ++ "\nOld belief: ".toList ++ old_belief
      ++ "\n\nNew belief: ".toList ++ new_belief)).length + 15)
      = pyUpper ct.text ++ ['\n', '\n'] := by
    rw [show B = ((joinLines (eq80 :: iterLine iteration total ::
        ("Time: ".toList ++ time) :: eq80 :: [] ::
        ("PERSUADER: Agent ".toList ++ natDigits persuader_id ++ " @ ".toList
          ++ persuader_pos) ::
        ("Belief: ".toList ++ persuader_belief) :: [] ::
        ("DEFENDER: Agent ".toList ++ natDigits defender_id ++ " @ ".toList
          ++ defender_pos) ::
        ("Belief: ".toList ++ defender_belief) :: [] ::
        dash40 :: "CONVERSATION".toList :: dash40 :: [] ::
        (msgLines msgs ++ [dash40, []]))
      ++ "DECISION\n".toList ++ dash40 ++ "\nOld belief: ".toList ++ old_belief
      ++ "\n\nNew belief: ".toList ++ new_belief) ++ "\n\nChange type: ".toList)
        ++ (pyUpper ct.text ++ ['\n', '\n'])
      from by
        rw [hsD]
        simp only [show ("\n\nNew belief: ".toList : List Char)
            = '\n' :: '\n' :: "New belief: ".toList from rfl,
          show ("\n\nChange type: ".toList : List Char)
            = '\n' :: '\n' :: "Change type: ".toList from rfl]
        simp [List.append_assoc]]
    rw [show ((joinLines (eq80 :: iterLine iteration total ::
        ("Time: ".toList ++ time) :: eq80 :: [] ::
        ("PERSUADER: Agent ".toList ++ natDigits persuader_id ++ " @ ".toList
          ++ persuader_pos) ::
        ("Belief: ".toList ++ persuader_belief) :: [] ::
        ("DEFENDER: Agent ".toList ++ natDigits defender_id ++ " @ ".toList
          ++ defender_pos) ::
        ("Belief: ".toList ++ defender_belief) :: [] ::
        dash40 :: "CONVERSATION".toList :: dash40 :: [] ::
        (msgLines msgs ++ [dash40, []]))
      ++ "DECISION\n".toList ++ dash40 ++ "\nOld belief: ".toList ++ old_belief
      ++ "\n\nNew belief: ".toList ++ new_belief)).length + 15
      = ((joinLines (eq80 :: iterLine iteration total ::
        ("Time: ".toList ++ time) :: eq80 :: [] ::
        ("PERSUADER: Agent ".toList ++ natDigits persuader_id ++ " @ ".toList
          ++ persuader_pos) ::
        ("Belief: ".toList ++ persuader_belief) :: [] ::
        ("DEFENDER: Agent ".toList ++ natDigits defender_id ++ " @ ".toList
          ++ defender_pos) ::
        ("Belief: ".toList ++ defender_belief) :: [] ::
        dash40 :: "CONVERSATION".toList :: dash40 :: [] ::
        (msgLines msgs ++ [dash40, []]))
      ++ "DECISION\n".toList ++ dash40 ++ "\nOld belief: ".toList ++ old_belief
      ++ "\n\nNew belief: ".toList ++ new_belief) ++ "\n\nChange type: ".toList).length
      from by simp only [List.length_append]; rfl]
    exact List.drop_left _ _
  have hw : (pyUpper ct.text ++ ['\n', '\n']).takeWhile isWordChar
      = pyUpper ct.text := by
    cases ct <;> decide
  show (if ((B.drop (((joinLines (eq80 :: iterLine iteration total ::
        ("Time: ".toList ++ time) :: eq80 :: [] ::
        ("PERSUADER: Agent ".toList ++ natDigits persuader_id ++ " @ ".toList
          ++ persuader_pos) ::
        ("Belief: ".toList ++ persuader_belief) :: [] ::
        ("DEFENDER: Agent ".toList ++ natDigits defender_id ++ " @ ".toList
          ++ defender_pos) ::
        ("Belief: ".toList ++ defender_belief) :: [] ::
        dash40 :: "CONVERSATION".toList :: dash40 :: [] ::
        (msgLines msgs ++ [dash40, []]))
      ++ "DECISION\n".toList ++ dash40 ++ "\nOld belief: ".toList ++ old_belief
      ++ "\n\nNew belief: ".toList ++ new_belief)).length + 15)).takeWhile isWordChar).isEmpty = true
    then none else _) = _
  rw [hdropW, hw, if_neg (by cases ct <;> decide)]
  have hdropOS : B.drop ((joinLines (eq80 :: iterLine iteration total ::
        ("Time: ".toList ++ time) :: eq80 :: [] ::
        ("PERSUADER: Agent ".toList ++ natDigits persuader_id ++ " @ ".toList
          ++ persuader_pos) ::
        ("Belief: ".toList ++ persuader_belief) :: [] ::
        ("DEFENDER: Agent ".toList ++ natDigits defender_id ++ " @ ".toList
          ++ defender_pos) ::
        ("Belief: ".toList ++ defender_belief) :: [] ::
        dash40 :: "CONVERSATION".toList :: dash40 :: [] ::
        (msgLines msgs ++ [dash40, []]))).length + 9 + 40 + 13)
      = old_belief ++ ('\n' :: '\n' :: ("New belief: ".toList
      ++ (new_belief ++ ('\n' :: '\n' :: ("Change type: ".toList
      ++ (pyUpper ct.text ++ ['\n', '\n'])))))) := hdropOld
  have hdropNS : B.drop (((joinLines (eq80 :: iterLine iteration total ::
        ("Time: ".toList ++ time) :: eq80 :: [] ::
        ("PERSUADER: Agent ".toList ++ natDigits persuader_id ++ " @ ".toList
          ++ persuader_pos) ::
        ("Belief: ".toList ++ persuader_belief) :: [] ::
        ("DEFENDER: Agent ".toList ++ natDigits defender_id ++ " @ ".toList
          ++ defender_pos) ::
        ("Belief: ".toList ++ defender_belief) :: [] ::
        dash40 :: "CONVERSATION".toList :: dash40 :: [] ::
        (msgLines msgs ++ [dash40, []]))
      ++ "DECISION\n".toList ++ dash40 ++ "\nOld belief: ".toList ++ old_belief)).length + 14)
      = new_belief ++ ('\n' :: '\n' :: ("Change type: ".toList
      ++ (pyUpper ct.text ++ ['\n', '\n']))) := by
    rw [show B = ((joinLines (eq80 :: iterLine iteration total ::
        ("Time: ".toList ++ time) :: eq80 :: [] ::
        ("PERSUADER: Agent ".toList ++ natDigits persuader_id ++ " @ ".toList
          ++ persuader_pos) ::
        ("Belief: ".toList ++ persuader_belief) :: [] ::
        ("DEFENDER: Agent ".toList ++ natDigits defender_id ++ " @ ".toList
          ++ defender_pos) ::
        ("Belief: ".toList ++ defender_belief) :: [] ::
        dash40 :: "CONVERSATION".toList :: dash40 :: [] ::
        (msgLines msgs ++ [dash40, []]))
      ++ "DECISION\n".toList ++ dash40 ++ "\nOld belief: ".toList ++ old_belief) ++ "\n\nNew belief: ".toList)
        ++ (new_belief ++ ('\n' :: '\n' :: ("Change type: ".toList
        ++ (pyUpper ct.text ++ ['\n', '\n']))))
      from by
        rw [hsD]
        simp only [show ("\n\nNew belief: ".toList : List Char)
          = '\n' :: '\n' :: "New belief: ".toList from rfl]
        simp [List.append_assoc]]
    rw [show ((joinLines (eq80 :: iterLine iteration total ::
        ("Time: ".toList ++ time) :: eq80 :: [] ::
        ("PERSUADER: Agent ".toList ++ natDigits persuader_id ++ " @ ".toList
          ++ persuader_pos) ::
        ("Belief: ".toList ++ persuader_belief) :: [] ::
        ("DEFENDER: Agent ".toList ++ natDigits defender_id ++ " @ ".toList
          ++ defender_pos) ::
        ("Belief: ".toList ++ defender_belief) :: [] ::
        dash40 :: "CONVERSATION".toList :: dash40 :: [] ::
        (msgLines msgs ++ [dash40, []]))
      ++ "DECISION\n".toList ++ dash40 ++ "\nOld belief: ".toList ++ old_belief)).length + 14
      = ((joinLines (eq80 :: iterLine iteration total ::
        ("Time: ".toList ++ time) :: eq80 :: [] ::
        ("PERSUADER: Agent ".toList ++ natDigits persuader_id ++ " @ ".toList
          ++ persuader_pos) ::
        ("Belief: ".toList ++ persuader_belief) :: [] ::
        ("DEFENDER: Agent ".toList ++ natDigits defender_id ++ " @ ".toList
          ++ defender_pos) ::
        ("Belief: ".toList ++ defender_belief) :: [] ::
        dash40 :: "CONVERSATION".toList :: dash40 :: [] ::
        (msgLines msgs ++ [dash40, []]))
      ++ "DECISION\n".toList ++ dash40 ++ "\nOld belief: ".toList ++ old_belief) ++ "\n\nNew belief: ".toList).length
      from by simp only [List.length_append]; rfl]
    exact List.drop_left _ _
  rw [hdropOS, hdropNS,
    show ((joinLines (eq80 :: iterLine iteration total ::
        ("Time: ".toList ++ time) :: eq80 :: [] ::
        ("PERSUADER: Agent ".toList ++ natDigits persuader_id ++ " @ ".toList
          ++ persuader_pos) ::
        ("Belief: ".toList ++ persuader_belief) :: [] ::
        ("DEFENDER: Agent ".toList ++ natDigits defender_id ++ " @ ".toList
          ++ defender_pos) ::
        ("Belief: ".toList ++ defender_belief) :: [] ::
        dash40 :: "CONVERSATION".toList :: dash40 :: [] ::
        (msgLines msgs ++ [dash40, []]))
      ++ "DECISION\n".toList ++ dash40 ++ "\nOld belief: ".toList ++ old_belief)).length - ((joinLines (eq80 :: iterLine iteration total ::
        ("Time: ".toList ++ time) :: eq80 :: [] ::
        ("PERSUADER: Agent ".toList ++ natDigits persuader_id ++ " @ ".toList
          ++ persuader_pos) ::
        ("Belief: ".toList ++ persuader_belief) :: [] ::
        ("DEFENDER: Agent ".toList ++ natDigits defender_id ++ " @ ".toList
          ++ defender_pos) ::
        ("Belief: ".toList ++ defender_belief) :: [] ::
        dash40 :: "CONVERSATION".toList :: dash40 :: [] ::
        (msgLines msgs ++ [dash40, []]))).length + 9 + 40 + 13) = old_belief.length
      from by rw [hlen6]; omega,
    show ((joinLines (eq80 :: iterLine iteration total ::
        ("Time: ".toList ++ time) :: eq80 :: [] ::
        ("PERSUADER: Agent ".toList ++ natDigits persuader_id ++ " @ ".toList
          ++ persuader_pos) ::
        ("Belief: ".toList ++ persuader_belief) :: [] ::
        ("DEFENDER: Agent ".toList ++ natDigits defender_id ++ " @ ".toList
          ++ defender_pos) ::
        ("Belief: ".toList ++ defender_belief) :: [] ::
        dash40 :: "CONVERSATION".toList :: dash40 :: [] ::
        (msgLines msgs ++ [dash40, []]))
      ++ "DECISION\n".toList ++ dash40 ++ "\nOld belief: ".toList ++ old_belief
      ++ "\n\nNew belief: ".toList ++ new_belief)).length - (((joinLines (eq80 :: iterLine iteration total ::
        ("Time: ".toList ++ time) :: eq80 :: [] ::
        ("PERSUADER: Agent ".toList ++ natDigits persuader_id ++ " @ ".toList
          ++ persuader_pos) ::
        ("Belief: ".toList ++ persuader_belief) :: [] ::
        ("DEFENDER: Agent ".toList ++ natDigits defender_id ++ " @ ".toList
          ++ defender_pos) ::
        ("Belief: ".toList ++ defender_belief) :: [] ::
        dash40 :: "CONVERSATION".toList :: dash40 :: [] ::
        (msgLines msgs ++ [dash40, []]))
      ++ "DECISION\n".toList ++ dash40 ++ "\nOld belief: ".toList ++ old_belief)).length + 14) = new_belief.length
      from by rw [hlen7]; omega,
    List.take_left, List.take_left,
    show pyLower (pyStrip (pyUpper (ChangeType.text ct))) = ct.text
      from by cases ct <;> decide]

/-- The decision-region text, as the decision stop pattern plus a remainder. -/
theorem decJoin_eq (old_belief new_belief : List Char) (ct : ChangeType) :
    ('\n' :: joinLines (decLines old_belief new_belief ct))
      = ("\n".toList ++ dash40 ++ "\nDECISION".toList)
        ++ ('\n' :: (dash40 ++ '\n' :: ("Old belief: ".toList ++ (old_belief
        ++ '\n' :: '\n' :: ("New belief: ".toList ++ (new_belief
        ++ '\n' :: '\n' :: ("Change type: ".toList
        ++ (pyUpper ct.text ++ ['\n', '\n'])))))))) := by
  unfold decLines
  simp only [joinLines,
    show ("\n".toList : List Char) = ['\n'] from rfl,
    show ("\nDECISION".toList : List Char) = '\n' :: "DECISION".toList from rfl]
  simp [List.append_assoc]

/-- The message header pattern never occurs in the decision-region join. -/
theorem noRound_decJoin {old_belief new_belief : List Char} {ct : ChangeType}
    (hold : scanClean old_belief) (hnw : scanClean new_belief) :
    ¬ "[Round".toList <:+: joinLines (decLines old_belief new_belief ct) := by
  intro hcon
  obtain ⟨l, hl, hinf⟩ := infix_joinLines_single (by decide) (by decide) hcon
  unfold decLines at hl
  fin_cases hl
  · exact not_infix_of_char (show '[' ∈ "[Round".toList by decide) (by decide) hinf
  · exact not_infix_of_char (show '[' ∈ "[Round".toList by decide) (by decide) hinf
  · exact not_infix_of_char (show '[' ∈ "[Round".toList by decide) (by decide) hinf
  · rw [show ("[Round".toList : List Char) = '[' :: "Round".toList from rfl] at hinf
    have h2 := infix_cons_right_of_not_mem (by decide) hinf
    exact hold.2.2.2.2.2 (by
      rw [show ("[Round".toList : List Char) = '[' :: "Round".toList from rfl]
      exact h2)
  · rw [List.infix_nil] at hinf
    exact absurd hinf (by decide)
  · rw [show ("[Round".toList : List Char) = '[' :: "Round".toList from rfl] at hinf
    have h2 := infix_cons_right_of_not_mem (by decide) hinf
    exact hnw.2.2.2.2.2 (by
      rw [show ("[Round".toList : List Char) = '[' :: "Round".toList from rfl]
      exact h2)
  · rw [List.infix_nil] at hinf
    exact absurd hinf (by decide)
  · rw [show ("[Round".toList : List Char) = '[' :: "Round".toList from rfl] at hinf
    have h2 := infix_cons_right_of_not_mem (by decide) hinf
    refine not_infix_of_char (show 'o' ∈ ('[' :: "Round".toList : List Char) by decide)
      (not_mem_ctUpper (by decide) (by decide) (by decide)) h2
  · rw [List.infix_nil] at hinf
    exact absurd hinf (by decide)
  · rw [List.infix_nil] at hinf
    exact absurd hinf (by decide)

/-- Ditto for the pattern with its trailing space. -/
theorem noRoundSp_decJoin {old_belief new_belief : List Char} {ct : ChangeType}
    (hold : scanClean old_belief) (hnw : scanClean new_belief) :
    ¬ "[Round ".toList <:+: joinLines (decLines old_belief new_belief ct) :=
  fun h => noRound_decJoin hold hnw
    ((show ("[Round".toList : List Char) <+: "[Round ".toList
      from ⟨[' '], rfl⟩).isInfix.trans h)

theorem take_append_plus (u v : List Char) (k : Nat) :
    (u ++ v).take (u.length + k) = u ++ v.take k := by
  rw [List.take_append_eq_append_take]
  congr 1
  · exact List.take_of_length_le (by omega)
  · congr 1
    omega

set_option maxHeartbeats 2000000 in
/-- One run of the message `finditer` over a written block: starting at the
head of the remaining messages it parses them in order and stops at the
decision section. -/
theorem parseMessagesAux_run {B XR : List Char} {old_belief new_belief : List Char}
    {ct : ChangeType} (hold : scanClean old_belief) (hnw : scanClean new_belief)
    (hsplit : B = XR ++ (("\n".toList ++ dash40 ++ "\nDECISION".toList)
      ++ ('\n' :: (dash40 ++ '\n' :: ("Old belief: ".toList ++ (old_belief
      ++ '\n' :: '\n' :: ("New belief: ".toList ++ (new_belief
      ++ '\n' :: '\n' :: ("Change type: ".toList
      ++ (pyUpper ct.text ++ ['\n', '\n']))))))))))
    (hnoxR : ¬ ("\n".toList ++ dash40 ++ "\nDECISION".toList) <:+: XR) :
    ∀ (ms : List Msg) (fuel : Nat) (xa : List Char) (i : Nat),
      (∀ m ∈ ms, msgClean m) →
      B = xa ++ joinLines (msgLines ms ++ decLines old_belief new_belief ct) →
      findFrom B "[Round ".toList i = (if ms.isEmpty then none else some xa.length) →
      ms.length < fuel →
      parseMessagesAux B fuel i
        = ms.map (fun m => ⟨m.round, m.speaker, pyStrip m.content⟩) := by
  intro ms
  induction ms with
  | nil =>
    intro fuel xa i _ _ hfind _
    simp only [List.isEmpty_nil, if_pos] at hfind
    cases fuel with
    | zero => rfl
    | succ f =>
      unfold parseMessagesAux
      rw [hfind]
      rfl
  | cons m rest ih =>
    intro fuel xa i hclean hJ hfind hfuel
    simp only [List.isEmpty_cons, Bool.false_eq_true, if_false] at hfind
    obtain ⟨f, rfl⟩ : ∃ f, fuel = f + 1 := ⟨fuel - 1, by omega⟩
    have hmc := hclean m (List.mem_cons_self m rest)
    have hcontLen : 0 < m.content.length := List.length_pos.mpr hmc.1.1
    have hMDne : msgLines rest ++ decLines old_belief new_belief ct ≠ [] := by
      simp [decLines]
    have hB1 : B = xa ++ ("[Round ".toList ++ (natDigits m.round ++ ("] ".toList
        ++ (pyUpper m.speaker ++ (':' :: '\n' :: (m.content ++ ('\n' :: '\n' ::
        joinLines (msgLines rest ++ decLines old_belief new_belief ct)))))))) := by
      rw [hJ, show msgLines (m :: rest) ++ decLines old_belief new_belief ct
          = msgHdrLine m :: m.content :: [] :: (msgLines rest
            ++ decLines old_belief new_belief ct) from rfl,
        joinLines_cons_cons, joinLines_cons_cons, joinLines_cons_of_ne hMDne]
      simp [msgHdrLine, List.append_assoc]
    unfold parseMessagesAux
    rw [hfind]
    have hdrop7 : B.drop (xa.length + 7) = natDigits m.round ++ ("] ".toList
        ++ (pyUpper m.speaker ++ (':' :: '\n' :: (m.content ++ ('\n' :: '\n' ::
        joinLines (msgLines rest ++ decLines old_belief new_belief ct)))))) := by
      rw [hB1]
      exact drop_prefix_lit rfl
    have hds : (B.drop (xa.length + 7)).takeWhile isDigitChar = natDigits m.round := by
      rw [hdrop7]
      refine takeWhile_digits_boundary _ _ (natDigits_all_digit m.round) ?_
      intro c hc
      simp only [show ("] ".toList : List Char) = ']' :: " ".toList from rfl,
        List.cons_append, List.head?_cons, Option.some.injEq] at hc
      rw [← hc]
      decide
    show (if ((B.drop (xa.length + 7)).takeWhile isDigitChar).isEmpty = true
      then [] else _) = _
    rw [hds, if_neg (by simp [natDigits_ne_nil])]
    have hs2 : B = (xa ++ "[Round ".toList ++ natDigits m.round) ++ ("] ".toList
        ++ (pyUpper m.speaker ++ (':' :: '\n' :: (m.content ++ ('\n' :: '\n' ::
        joinLines (msgLines rest ++ decLines old_belief new_belief ct)))))) := by
      rw [hB1]
      simp [List.append_assoc]
    have hlen2 : (xa ++ "[Round ".toList ++ natDigits m.round).length
        = xa.length + 7 + (natDigits m.round).length := by
      simp only [List.length_append]
      rfl
    have hdropJ : B.drop (xa.length + 7 + (natDigits m.round).length)
        = "] ".toList ++ (pyUpper m.speaker ++ (':' :: '\n' :: (m.content
        ++ ('\n' :: '\n' ::
        joinLines (msgLines rest ++ decLines old_belief new_belief ct))))) := by
      rw [hs2, ← hlen2, List.drop_left]
    show (if "] ".toList.isPrefixOf (B.drop (xa.length + 7
        + (natDigits m.round).length)) = true then _ else []) = _
    rw [hdropJ, if_isPrefix_append]
    have hs3 : B = (xa ++ "[Round ".toList ++ natDigits m.round ++ "] ".toList)
        ++ (pyUpper m.speaker ++ (':' :: '\n' :: (m.content ++ ('\n' :: '\n' ::
        joinLines (msgLines rest ++ decLines old_belief new_belief ct))))) := by
      rw [hB1]
      simp [List.append_assoc]
    have hlen3 : (xa ++ "[Round ".toList ++ natDigits m.round ++ "] ".toList).length
        = xa.length + 7 + (natDigits m.round).length + 2 := by
      simp only [List.length_append]
      rfl
    have hdropSpk : B.drop (xa.length + 7 + (natDigits m.round).length + 2)
        = pyUpper m.speaker ++ (':' :: '\n' :: (m.content ++ ('\n' :: '\n' ::
        joinLines (msgLines rest ++ decLines old_belief new_belief ct)))) := by
      rw [hs3, ← hlen3, List.drop_left]
    have hspk : (if "PERSUADER:\n".toList.isPrefixOf (B.drop (xa.length + 7
          + (natDigits m.round).length + 2)) = true
        then some (("persuader".toList : List Char), 9)
        else if "DEFENDER:\n".toList.isPrefixOf (B.drop (xa.length + 7
          + (natDigits m.round).length + 2)) = true
        then some (("defender".toList : List Char), 8) else none)
        = some (m.speaker, (pyUpper m.speaker).length) := by
      rw [hdropSpk]
      rcases hmc.2 with hs | hs <;> rw [hs]
      · rw [show pyUpper "persuader".toList = "PERSUADER".toList from by decide,
          show ("PERSUADER".toList : List Char) ++ (':' :: '\n' :: (m.content
              ++ ('\n' :: '\n' ::
              joinLines (msgLines rest ++ decLines old_belief new_belief ct))))
            = "PERSUADER:\n".toList ++ (m.content ++ ('\n' :: '\n' ::
              joinLines (msgLines rest ++ decLines old_belief new_belief ct)))
            from by simp,
          if_isPrefix_append]
        rfl
      · rw [show pyUpper "defender".toList = "DEFENDER".toList from by decide,
          show ("DEFENDER".toList : List Char) ++ (':' :: '\n' :: (m.content
              ++ ('\n' :: '\n' ::
              joinLines (msgLines rest ++ decLines old_belief new_belief ct))))
            = "DEFENDER:\n".toList ++ (m.content ++ ('\n' :: '\n' ::
              joinLines (msgLines rest ++ decLines old_belief new_belief ct)))
            from by simp,
          if_neg ?_, if_isPrefix_append]
        · rfl
        · intro hcon
          have h2 := List.isPrefixOf_iff_prefix.mp hcon
          rw [show ("PERSUADER:\n".toList : List Char)
              = 'P' :: "ERSUADER:\n".toList from rfl,
            show ("DEFENDER:\n".toList : List Char) ++ (m.content ++ ('\n' :: '\n' ::
              joinLines (msgLines rest ++ decLines old_belief new_belief ct)))
              = 'D' :: ("EFENDER:\n".toList ++ (m.content ++ ('\n' :: '\n' ::
              joinLines (msgLines rest ++ decLines old_belief new_belief ct))))
              from rfl] at h2
          exact not_prefix_of_head_ne (by decide) h2
    rw [hspk]
    have hs4 : B = (xa ++ "[Round ".toList ++ natDigits m.round ++ "] ".toList
        ++ pyUpper m.speaker ++ [':', '\n'])
        ++ (m.content ++ ('\n' :: '\n' :: joinLines (msgLines rest ++ decLines old_belief new_belief ct))) := by
      rw [hB1]
      simp [List.append_assoc]
    have hlen6 : ((xa ++ "[Round ".toList ++ natDigits m.round ++ "] ".toList
        ++ pyUpper m.speaker ++ [':', '\n'])).length = xa.length + 7 + (natDigits m.round).length + 2 + (pyUpper m.speaker).length + 2 := by
      simp only [List.length_append]
      rfl
    have hdropCS : B.drop (xa.length + 7 + (natDigits m.round).length + 2 + (pyUpper m.speaker).length + 2)
        = m.content ++ ('\n' :: '\n' :: joinLines (msgLines rest ++ decLines old_belief new_belief ct)) := by
      rw [hs4, ← hlen6, List.drop_left]
    have hdropCS1 : B.drop (xa.length + 7 + (natDigits m.round).length + 2 + (pyUpper m.speaker).length + 2 + 1)
        = m.content.drop 1 ++ ('\n' :: '\n' :: joinLines (msgLines rest ++ decLines old_belief new_belief ct)) := by
      rw [hs4, show xa.length + 7 + (natDigits m.round).length + 2 + (pyUpper m.speaker).length + 2 + 1 = ((xa ++ "[Round ".toList ++ natDigits m.round ++ "] ".toList
        ++ pyUpper m.speaker ++ [':', '\n'])).length + 1 from by rw [hlen6],
        drop_append_plus, List.drop_append_of_le_length hcontLen]
    have hdrLen : (msgHdrLine m).length
        = (natDigits m.round).length + (pyUpper m.speaker).length + 10 := by
      simp [msgHdrLine, List.length_append]
      omega
    have hmsgNe : msgLines (m :: rest) ≠ [] := by
      rw [show msgLines (m :: rest)
        = msgHdrLine m :: m.content :: [] :: msgLines rest from rfl]
      simp
    have hXReq : XR = xa ++ joinLines (msgLines (m :: rest)) := by
      have hcat : XR ++ ('\n' :: joinLines (decLines old_belief new_belief ct))
          = (xa ++ joinLines (msgLines (m :: rest)))
            ++ ('\n' :: joinLines (decLines old_belief new_belief ct)) := by
        rw [decJoin_eq, ← hsplit, hJ,
          joinLines_append hmsgNe (by simp [decLines]), decJoin_eq]
        simp [List.append_assoc]
      exact List.append_cancel_right hcat
    have hXRleB : XR.length ≤ B.length := by
      rw [hsplit, List.length_append]
      omega
    have hstop2 : ∀ i2, i2 ≤ XR.length →
        findFrom B ("\n".toList ++ dash40 ++ "\nDECISION".toList) i2
          = some XR.length := by
      intro i2 hi2
      rw [hsplit]
      apply findFrom_split _ (by decide) hi2 (by decide)
      intro hcon
      exact hnoxR (hcon.trans (List.drop_suffix i2 XR).isInfix)
    cases rest with
    | nil =>
      have hJnil : joinLines (msgLines ([] : List Msg)
          ++ decLines old_belief new_belief ct)
          = joinLines (decLines old_belief new_belief ct) := by
        simp [msgLines]
      have hJone : joinLines (msgLines [m])
          = msgHdrLine m ++ '\n' :: (m.content ++ ['\n']) := by
        simp [msgLines, joinLines]
      have hXRlen : XR.length = xa.length + 7 + (natDigits m.round).length + 2 + (pyUpper m.speaker).length + 2 + m.content.length + 1 := by
        rw [hXReq, List.length_append, hJone]
        simp only [List.length_append, List.length_cons, List.length_nil, hdrLen]
        omega
      have hstop1 : findFrom B "[Round".toList (xa.length + 7 + (natDigits m.round).length + 2 + (pyUpper m.speaker).length + 2 + 1) = none := by
        apply findFrom_eq_none_of_not_infix
        rw [hdropCS1, hJnil]
        intro hcon
        rcases infix_append_cons_split (by decide) hcon with h1 | h1
        · exact hmc.1.2.2.2.2.2 (h1.trans (List.drop_suffix 1 m.content).isInfix)
        · rcases infix_append_cons_split (by decide)
            (show "[Round".toList <:+: ([] : List Char)
              ++ '\n' :: joinLines (decLines old_belief new_belief ct)
              from by simpa using h1) with h2 | h2
          · rw [List.infix_nil] at h2
            exact absurd h2 (by decide)
          · exact noRound_decJoin hold hnw h2
      simp only [hstop1, hstop2 (xa.length + 7 + (natDigits m.round).length + 2 + (pyUpper m.speaker).length + 2 + 1) (by omega), Option.getD_none,
        Option.getD_some]
      rw [Nat.min_eq_right hXRleB]
      have hrec : parseMessagesAux B f XR.length = [] := by
        have hJ2 : B = (XR ++ ['\n']) ++ joinLines (msgLines ([] : List Msg)
            ++ decLines old_belief new_belief ct) := by
          rw [hJnil, hsplit, ← decJoin_eq]
          simp
        refine ih f (XR ++ ['\n']) XR.length (by intro x hx; cases hx) hJ2 ?_
          (by simp at hfuel ⊢; omega)
        show findFrom B "[Round ".toList XR.length = none
        apply findFrom_eq_none_of_not_infix
        have hdropXR : B.drop XR.length
            = '\n' :: joinLines (decLines old_belief new_belief ct) := by
          rw [hsplit, List.drop_left, ← decJoin_eq]
        rw [hdropXR]
        intro hcon
        rcases infix_append_cons_split (by decide)
          (show "[Round ".toList <:+: ([] : List Char)
            ++ '\n' :: joinLines (decLines old_belief new_belief ct)
            from by simpa using hcon) with h2 | h2
        · rw [List.infix_nil] at h2
          exact absurd h2 (by decide)
        · exact noRoundSp_decJoin hold hnw h2
      rw [show XR.length - (xa.length + 7 + (natDigits m.round).length + 2 + (pyUpper m.speaker).length + 2) = m.content.length + 1 from by omega,
        hdropCS, hJnil, take_append_plus,
        show ('\n' :: '\n' :: joinLines (decLines old_belief new_belief ct)).take 1
          = ['\n'] from rfl,
        pyStrip_append_spaces (by decide), digitsToNat_natDigits, hrec]
      simp
    | cons r rest' =>
      have hne3 : msgLines (r :: rest') ≠ [] := by
        rw [show msgLines (r :: rest')
          = msgHdrLine r :: r.content :: [] :: msgLines rest' from rfl]
        simp
      have hJnext : B = (xa ++ "[Round ".toList ++ natDigits m.round ++ "] ".toList
          ++ pyUpper m.speaker ++ [':', '\n'] ++ m.content ++ ['\n', '\n'])
          ++ joinLines (msgLines (r :: rest')
            ++ decLines old_belief new_belief ct) := by
        rw [hB1]
        simp [List.append_assoc]
      have hlenXP : ((xa ++ "[Round ".toList ++ natDigits m.round ++ "] ".toList
          ++ pyUpper m.speaker ++ [':', '\n'] ++ m.content ++ ['\n', '\n'])).length = xa.length + 7 + (natDigits m.round).length + 2 + (pyUpper m.speaker).length + 2 + m.content.length + 2 := by
        simp only [List.length_append, List.length_cons, List.length_nil,
          show ("[Round ".toList : List Char).length = 7 from rfl,
          show ("] ".toList : List Char).length = 2 from rfl]
      have hheadNext : joinLines (msgLines (r :: rest')
            ++ decLines old_belief new_belief ct)
          = "[Round ".toList ++ (natDigits r.round ++ ("] ".toList
            ++ (pyUpper r.speaker ++ (':' :: '\n' :: (r.content ++ ('\n' :: '\n' ::
            joinLines (msgLines rest' ++ decLines old_belief new_belief ct))))))) := by
        rw [show msgLines (r :: rest') ++ decLines old_belief new_belief ct
            = msgHdrLine r :: r.content :: [] :: (msgLines rest'
              ++ decLines old_belief new_belief ct) from rfl,
          joinLines_cons_cons, joinLines_cons_cons,
          joinLines_cons_of_ne (by simp [decLines])]
        simp [msgHdrLine, List.append_assoc]
      have hstop1c : findFrom B "[Round".toList (xa.length + 7 + (natDigits m.round).length + 2 + (pyUpper m.speaker).length + 2 + 1)
          = some ((xa ++ "[Round ".toList ++ natDigits m.round ++ "] ".toList
          ++ pyUpper m.speaker ++ [':', '\n'] ++ m.content ++ ['\n', '\n'])).length := by
        rw [show B = (xa ++ "[Round ".toList ++ natDigits m.round ++ "] ".toList
          ++ pyUpper m.speaker ++ [':', '\n'] ++ m.content ++ ['\n', '\n'])
            ++ ("[Round".toList ++ (' ' :: (natDigits r.round ++ ("] ".toList
            ++ (pyUpper r.speaker ++ (':' :: '\n' :: (r.content ++ ('\n' :: '\n' ::
            joinLines (msgLines rest'
              ++ decLines old_belief new_belief ct)))))))))
          from by
            rw [hJnext, hheadNext]
            simp [show ("[Round ".toList : List Char) = "[Round".toList ++ [' ']
              from rfl, List.append_assoc]]
        apply findFrom_split _ (by decide) ?_ (by decide) ?_
        · rw [hlenXP]
          omega
        · have hxd : ((xa ++ "[Round ".toList ++ natDigits m.round ++ "] ".toList
          ++ pyUpper m.speaker ++ [':', '\n'] ++ m.content ++ ['\n', '\n'])).drop (xa.length + 7 + (natDigits m.round).length + 2 + (pyUpper m.speaker).length + 2 + 1)
              = m.content.drop 1 ++ ['\n', '\n'] := by
            rw [show (xa ++ "[Round ".toList ++ natDigits m.round ++ "] ".toList
          ++ pyUpper m.speaker ++ [':', '\n'] ++ m.content ++ ['\n', '\n'])
              = (xa ++ "[Round ".toList ++ natDigits m.round ++ "] ".toList
                ++ pyUpper m.speaker ++ [':', '\n']) ++ (m.content ++ ['\n', '\n'])
              from by simp [List.append_assoc],
              show xa.length + 7 + (natDigits m.round).length + 2 + (pyUpper m.speaker).length + 2 + 1
              = (xa ++ "[Round ".toList ++ natDigits m.round ++ "] ".toList
                ++ pyUpper m.speaker ++ [':', '\n']).length + 1 from by rw [hlen6],
              drop_append_plus, List.drop_append_of_le_length hcontLen]
          rw [hxd]
          intro hcon
          rcases infix_append_cons_split (by decide) hcon with h1 | h1
          · exact hmc.1.2.2.2.2.2 (h1.trans (List.drop_suffix 1 m.content).isInfix)
          · have hll := h1.length_le
            simp at hll
      have hJoinCons : joinLines (msgLines (m :: r :: rest'))
          = msgHdrLine m ++ '\n' :: (m.content ++ '\n' :: '\n' ::
            joinLines (msgLines (r :: rest'))) := by
        rw [show msgLines (m :: r :: rest')
            = msgHdrLine m :: m.content :: [] :: msgLines (r :: rest') from rfl,
          joinLines_cons_cons, joinLines_cons_cons, joinLines_cons_of_ne hne3]
        simp
      have hXRlenC : XR.length = xa.length + 7 + (natDigits m.round).length + 2 + (pyUpper m.speaker).length + 2 + m.content.length + 2
          + (joinLines (msgLines (r :: rest'))).length := by
        rw [hXReq, List.length_append, hJoinCons]
        simp only [List.length_append, List.length_cons, List.length_nil, hdrLen,
          show ("[Round ".toList : List Char).length = 7 from rfl,
          show ("] ".toList : List Char).length = 2 from rfl]
        omega
      simp only [hstop1c, hstop2 (xa.length + 7 + (natDigits m.round).length + 2 + (pyUpper m.speaker).length + 2 + 1) (by omega), Option.getD_some]
      rw [Nat.min_eq_left (by omega)]
      have hrec : parseMessagesAux B f ((xa ++ "[Round ".toList ++ natDigits m.round ++ "] ".toList
          ++ pyUpper m.speaker ++ [':', '\n'] ++ m.content ++ ['\n', '\n'])).length
          = (r :: rest').map (fun m => ⟨m.round, m.speaker, pyStrip m.content⟩) := by
        refine ih f (xa ++ "[Round ".toList ++ natDigits m.round ++ "] ".toList
          ++ pyUpper m.speaker ++ [':', '\n'] ++ m.content ++ ['\n', '\n']) ((xa ++ "[Round ".toList ++ natDigits m.round ++ "] ".toList
          ++ pyUpper m.speaker ++ [':', '\n'] ++ m.content ++ ['\n', '\n'])).length
          (fun x hx => hclean x (List.mem_cons_of_mem m hx)) hJnext ?_
          (by simp at hfuel ⊢; omega)
        show findFrom B "[Round ".toList ((xa ++ "[Round ".toList ++ natDigits m.round ++ "] ".toList
          ++ pyUpper m.speaker ++ [':', '\n'] ++ m.content ++ ['\n', '\n'])).length
          = some ((xa ++ "[Round ".toList ++ natDigits m.round ++ "] ".toList
          ++ pyUpper m.speaker ++ [':', '\n'] ++ m.content ++ ['\n', '\n'])).length
        apply findFrom_here
        · rw [hJnext]
          simp only [List.length_append]
          omega
        · rw [hJnext, List.drop_left, hheadNext]
          exact List.isPrefixOf_iff_prefix.mpr ⟨_, rfl⟩
      rw [show ((xa ++ "[Round ".toList ++ natDigits m.round ++ "] ".toList
          ++ pyUpper m.speaker ++ [':', '\n'] ++ m.content ++ ['\n', '\n'])).length - (xa.length + 7 + (natDigits m.round).length + 2 + (pyUpper m.speaker).length + 2) = m.content.length + 2
          from by rw [hlenXP]; omega,
        hdropCS, take_append_plus,
        show ('\n' :: '\n' :: joinLines (msgLines (r :: rest')
          ++ decLines old_belief new_belief ct)).take 2 = ['\n', '\n'] from rfl,
        pyStrip_append_spaces (by decide), digitsToNat_natDigits, hrec]
      simp



/-- The message header pattern does not occur before the conversation body. -/
theorem noRoundSp_front {iteration total persuader_id : Nat}
    {persuader_pos : List Char} {defender_id : Nat} {defender_pos : List Char}
    {persuader_belief defender_belief time : List Char}
    (htime : timeClean time) (hppos : posClean persuader_pos)
    (hdpos : posClean defender_pos) (hpb : scanClean persuader_belief)
    (hdb : scanClean defender_belief) :
    ¬ "[Round ".toList <:+: joinLines [eq80, iterLine iteration total, "Time: ".toList ++ time, eq80, [],
      "PERSUADER: Agent ".toList ++ natDigits persuader_id ++ " @ ".toList
        ++ persuader_pos,
      "Belief: ".toList ++ persuader_belief, [],
      "DEFENDER: Agent ".toList ++ natDigits defender_id ++ " @ ".toList
        ++ defender_pos,
      "Belief: ".toList ++ defender_belief, [],
      dash40, "CONVERSATION".toList, dash40, [], []] := by
  intro hcon
  have hRnd : ("[Round".toList : List Char) <+: "[Round ".toList := ⟨[' '], rfl⟩
  obtain ⟨l, hl, hinf⟩ := infix_joinLines_single (by decide) (by decide) hcon
  fin_cases hl
  · exact not_infix_of_char (show '[' ∈ "[Round ".toList by decide) (by decide) hinf
  · exact not_infix_of_char (show '[' ∈ "[Round ".toList by decide)
      (not_mem_iterLine (by decide) (by decide) (by decide)) hinf
  · refine not_infix_of_char (show '[' ∈ "[Round ".toList by decide) ?_ hinf
    intro hm
    rcases List.mem_append.mp hm with h | h
    · simp at h
    · exact not_mem_timeClean htime (by decide) (by decide) (by decide) (by decide)
        (by decide) h
  · exact not_infix_of_char (show '[' ∈ "[Round ".toList by decide) (by decide) hinf
  · rw [List.infix_nil] at hinf
    exact absurd hinf (by decide)
  · rw [show ("[Round ".toList : List Char) = '[' :: "Round ".toList from rfl,
      show ("PERSUADER: Agent ".toList ++ natDigits persuader_id ++ " @ ".toList
          ++ persuader_pos)
        = ("PERSUADER: Agent ".toList ++ natDigits persuader_id ++ " @ ".toList)
          ++ persuader_pos from by simp [List.append_assoc]] at hinf
    have h2 := infix_cons_right_of_not_mem (fun hm => by
      rcases List.mem_append.mp hm with h | h
      · rcases List.mem_append.mp h with h | h
        · simp at h
        · exact not_mem_natDigits (by decide) h
      · simp at h) hinf
    exact not_infix_of_char (show 'R' ∈ ('[' :: "Round ".toList : List Char) by decide)
      (not_mem_posClean hppos (by decide) (by decide) (by decide) (by decide)
        (by decide) (by decide) (by decide) (by decide)) h2
  · rw [show ("[Round ".toList : List Char) = '[' :: "Round ".toList from rfl] at hinf
    have h2 := infix_cons_right_of_not_mem (by decide) hinf
    exact hpb.2.2.2.2.2 (hRnd.isInfix.trans (by
      rw [show ("[Round ".toList : List Char) = '[' :: "Round ".toList from rfl]
      exact h2))
  · rw [List.infix_nil] at hinf
    exact absurd hinf (by decide)
  · rw [show ("[Round ".toList : List Char) = '[' :: "Round ".toList from rfl,
      show ("DEFENDER: Agent ".toList ++ natDigits defender_id ++ " @ ".toList
          ++ defender_pos)
        = ("DEFENDER: Agent ".toList ++ natDigits defender_id ++ " @ ".toList)
          ++ defender_pos from by simp [List.append_assoc]] at hinf
    have h2 := infix_cons_right_of_not_mem (fun hm => by
      rcases List.mem_append.mp hm with h | h
      · rcases List.mem_append.mp h with h | h
        · simp at h
        · exact not_mem_natDigits (by decide) h
      · simp at h) hinf
    exact not_infix_of_char (show 'R' ∈ ('[' :: "Round ".toList : List Char) by decide)
      (not_mem_posClean hdpos (by decide) (by decide) (by decide) (by decide)
        (by decide) (by decide) (by decide) (by decide)) h2
  · rw [show ("[Round ".toList : List Char) = '[' :: "Round ".toList from rfl] at hinf
    have h2 := infix_cons_right_of_not_mem (by decide) hinf
    exact hdb.2.2.2.2.2 (hRnd.isInfix.trans (by
      rw [show ("[Round ".toList : List Char) = '[' :: "Round ".toList from rfl]
      exact h2))
  · rw [List.infix_nil] at hinf
    exact absurd hinf (by decide)
  · exact not_infix_of_char (show '[' ∈ "[Round ".toList by decide) (by decide) hinf
  · exact not_infix_of_char (show '[' ∈ "[Round ".toList by decide) (by decide) hinf
  · exact not_infix_of_char (show '[' ∈ "[Round ".toList by decide) (by decide) hinf
  · rw [List.infix_nil] at hinf
    exact absurd hinf (by decide)
  · rw [List.infix_nil] at hinf
    exact absurd hinf (by decide)

set_option maxHeartbeats 2000000 in
/-- The message `finditer` on a written block recovers the transcript in
order, with each content stripped. -/
theorem parseMessages_block {B : List Char} {iteration total persuader_id : Nat}
    {persuader_pos : List Char} {defender_id : Nat} {defender_pos : List Char}
    {persuader_belief defender_belief time : List Char} {msgs : List Msg}
    {old_belief new_belief : List Char} {ct : ChangeType}
    (htime : timeClean time) (hppos : posClean persuader_pos)
    (hdpos : posClean defender_pos) (hpb : scanClean persuader_belief)
    (hdb : scanClean defender_belief) (hmsgs : ∀ m ∈ msgs, msgClean m)
    (hold : scanClean old_belief) (hnw : scanClean new_belief)
    (hB : B = writeIteration iteration total persuader_id persuader_pos defender_id
      defender_pos persuader_belief defender_belief time msgs old_belief new_belief ct) :
    parseMessages B
      = msgs.map (fun m => ⟨m.round, m.speaker, pyStrip m.content⟩) := by
  have hchainNe : (eq80 :: iterLine iteration total ::
      ("Time: ".toList ++ time) :: eq80 :: [] ::
      ("PERSUADER: Agent ".toList ++ natDigits persuader_id ++ " @ ".toList
        ++ persuader_pos) ::
      ("Belief: ".toList ++ persuader_belief) :: [] ::
      ("DEFENDER: Agent ".toList ++ natDigits defender_id ++ " @ ".toList
        ++ defender_pos) ::
      ("Belief: ".toList ++ defender_belief) :: [] ::
      dash40 :: "CONVERSATION".toList :: dash40 :: [] :: msgLines msgs) ≠ ([] : List (List Char)) := by simp
  have hchainEq : eq80 :: iterLine iteration total :: bodyLines time persuader_id
        persuader_pos persuader_belief defender_id defender_pos defender_belief msgs
        old_belief new_belief ct
      = (eq80 :: iterLine iteration total ::
      ("Time: ".toList ++ time) :: eq80 :: [] ::
      ("PERSUADER: Agent ".toList ++ natDigits persuader_id ++ " @ ".toList
        ++ persuader_pos) ::
      ("Belief: ".toList ++ persuader_belief) :: [] ::
      ("DEFENDER: Agent ".toList ++ natDigits defender_id ++ " @ ".toList
        ++ defender_pos) ::
      ("Belief: ".toList ++ defender_belief) :: [] ::
      dash40 :: "CONVERSATION".toList :: dash40 :: [] :: msgLines msgs) ++ decLines old_belief new_belief ct := by
    unfold bodyLines
    simp [List.append_assoc]
  have hsplitR : B = joinLines (eq80 :: iterLine iteration total ::
      ("Time: ".toList ++ time) :: eq80 :: [] ::
      ("PERSUADER: Agent ".toList ++ natDigits persuader_id ++ " @ ".toList
        ++ persuader_pos) ::
      ("Belief: ".toList ++ persuader_belief) :: [] ::
      ("DEFENDER: Agent ".toList ++ natDigits defender_id ++ " @ ".toList
        ++ defender_pos) ::
      ("Belief: ".toList ++ defender_belief) :: [] ::
      dash40 :: "CONVERSATION".toList :: dash40 :: [] :: msgLines msgs)
      ++ (("\n".toList ++ dash40 ++ "\nDECISION".toList) ++ ('\n' :: (dash40 ++ '\n' :: ("Old belief: ".toList ++ (old_belief
      ++ '\n' :: '\n' :: ("New belief: ".toList ++ (new_belief
      ++ '\n' :: '\n' :: ("Change type: ".toList
      ++ (pyUpper ct.text ++ ['\n', '\n']))))))))) := by
    rw [hB, writeIteration_joinLines, hchainEq,
      joinLines_append hchainNe (by simp [decLines]), decJoin_eq]
  have hnoxRR : ¬ ("\n".toList ++ dash40 ++ "\nDECISION".toList) <:+: joinLines (eq80 :: iterLine iteration total ::
      ("Time: ".toList ++ time) :: eq80 :: [] ::
      ("PERSUADER: Agent ".toList ++ natDigits persuader_id ++ " @ ".toList
        ++ persuader_pos) ::
      ("Belief: ".toList ++ persuader_belief) :: [] ::
      ("DEFENDER: Agent ".toList ++ natDigits defender_id ++ " @ ".toList
        ++ defender_pos) ::
      ("Belief: ".toList ++ defender_belief) :: [] ::
      dash40 :: "CONVERSATION".toList :: dash40 :: [] :: msgLines msgs) := by
    intro hcon
    have hsub : (dash40 ++ '\n' :: "DECISION".toList) <:+: ("\n".toList ++ dash40 ++ "\nDECISION".toList) :=
      ⟨['\n'], [], by
        simp [List.append_assoc,
          show ("\n".toList : List Char) = ['\n'] from rfl,
          show ("\nDECISION".toList : List Char) = '\n' :: "DECISION".toList
            from rfl]⟩
    have h1 : joinLines (eq80 :: iterLine iteration total ::
      ("Time: ".toList ++ time) :: eq80 :: [] ::
      ("PERSUADER: Agent ".toList ++ natDigits persuader_id ++ " @ ".toList
        ++ persuader_pos) ::
      ("Belief: ".toList ++ persuader_belief) :: [] ::
      ("DEFENDER: Agent ".toList ++ natDigits defender_id ++ " @ ".toList
        ++ defender_pos) ::
      ("Belief: ".toList ++ defender_belief) :: [] ::
      dash40 :: "CONVERSATION".toList :: dash40 :: [] :: (msgLines msgs ++ [[]]))
        = joinLines (eq80 :: iterLine iteration total ::
      ("Time: ".toList ++ time) :: eq80 :: [] ::
      ("PERSUADER: Agent ".toList ++ natDigits persuader_id ++ " @ ".toList
        ++ persuader_pos) ::
      ("Belief: ".toList ++ persuader_belief) :: [] ::
      ("DEFENDER: Agent ".toList ++ natDigits defender_id ++ " @ ".toList
        ++ defender_pos) ::
      ("Belief: ".toList ++ defender_belief) :: [] ::
      dash40 :: "CONVERSATION".toList :: dash40 :: [] :: msgLines msgs) ++ ['\n'] := by
      rw [show (eq80 :: iterLine iteration total ::
      ("Time: ".toList ++ time) :: eq80 :: [] ::
      ("PERSUADER: Agent ".toList ++ natDigits persuader_id ++ " @ ".toList
        ++ persuader_pos) ::
      ("Belief: ".toList ++ persuader_belief) :: [] ::
      ("DEFENDER: Agent ".toList ++ natDigits defender_id ++ " @ ".toList
        ++ defender_pos) ::
      ("Belief: ".toList ++ defender_belief) :: [] ::
      dash40 :: "CONVERSATION".toList :: dash40 :: [] :: (msgLines msgs ++ [[]]))
        = (eq80 :: iterLine iteration total ::
      ("Time: ".toList ++ time) :: eq80 :: [] ::
      ("PERSUADER: Agent ".toList ++ natDigits persuader_id ++ " @ ".toList
        ++ persuader_pos) ::
      ("Belief: ".toList ++ persuader_belief) :: [] ::
      ("DEFENDER: Agent ".toList ++ natDigits defender_id ++ " @ ".toList
        ++ defender_pos) ::
      ("Belief: ".toList ++ defender_belief) :: [] ::
      dash40 :: "CONVERSATION".toList :: dash40 :: [] :: msgLines msgs) ++ [[]] from by simp, joinLines_concat_nil hchainNe]
    have h2 : (dash40 ++ '\n' :: "DECISION".toList)
        <:+: joinLines (eq80 :: iterLine iteration total ::
      ("Time: ".toList ++ time) :: eq80 :: [] ::
      ("PERSUADER: Agent ".toList ++ natDigits persuader_id ++ " @ ".toList
        ++ persuader_pos) ::
      ("Belief: ".toList ++ persuader_belief) :: [] ::
      ("DEFENDER: Agent ".toList ++ natDigits defender_id ++ " @ ".toList
        ++ defender_pos) ::
      ("Belief: ".toList ++ defender_belief) :: [] ::
      dash40 :: "CONVERSATION".toList :: dash40 :: [] :: msgLines msgs) ++ ['\n'] :=
      (hsub.trans hcon).trans (List.prefix_append _ _).isInfix
    rw [← h1] at h2
    exact no_dashpat_in_front (by decide) (by decide) (by decide) (by decide)
      (C := [[]]) trivial (by simp) (by simp) htime hppos hdpos hpb.2.1 hdb.2.1
      hmsgs h2
  have hL16eq : joinLines [eq80, iterLine iteration total, "Time: ".toList ++ time, eq80, [],
      "PERSUADER: Agent ".toList ++ natDigits persuader_id ++ " @ ".toList
        ++ persuader_pos,
      "Belief: ".toList ++ persuader_belief, [],
      "DEFENDER: Agent ".toList ++ natDigits defender_id ++ " @ ".toList
        ++ defender_pos,
      "Belief: ".toList ++ defender_belief, [],
      dash40, "CONVERSATION".toList, dash40, [], []]
      = joinLines [eq80, iterLine iteration total, "Time: ".toList ++ time, eq80, [],
      "PERSUADER: Agent ".toList ++ natDigits persuader_id ++ " @ ".toList
        ++ persuader_pos,
      "Belief: ".toList ++ persuader_belief, [],
      "DEFENDER: Agent ".toList ++ natDigits defender_id ++ " @ ".toList
        ++ defender_pos,
      "Belief: ".toList ++ defender_belief, [],
      dash40, "CONVERSATION".toList, dash40, []] ++ ['\n'] := by
    rw [show [eq80, iterLine iteration total, "Time: ".toList ++ time, eq80, [],
      "PERSUADER: Agent ".toList ++ natDigits persuader_id ++ " @ ".toList
        ++ persuader_pos,
      "Belief: ".toList ++ persuader_belief, [],
      "DEFENDER: Agent ".toList ++ natDigits defender_id ++ " @ ".toList
        ++ defender_pos,
      "Belief: ".toList ++ defender_belief, [],
      dash40, "CONVERSATION".toList, dash40, [], []]
      = [eq80, iterLine iteration total, "Time: ".toList ++ time, eq80, [],
      "PERSUADER: Agent ".toList ++ natDigits persuader_id ++ " @ ".toList
        ++ persuader_pos,
      "Belief: ".toList ++ persuader_belief, [],
      "DEFENDER: Agent ".toList ++ natDigits defender_id ++ " @ ".toList
        ++ defender_pos,
      "Belief: ".toList ++ defender_belief, [],
      dash40, "CONVERSATION".toList, dash40, []] ++ [[]] from by simp, joinLines_concat_nil (by simp)]
  cases msgs with
  | nil =>
    show parseMessagesAux B (B.length + 1) 0 = _
    have hxa : B = (joinLines (eq80 :: iterLine iteration total ::
      ("Time: ".toList ++ time) :: eq80 :: [] ::
      ("PERSUADER: Agent ".toList ++ natDigits persuader_id ++ " @ ".toList
        ++ persuader_pos) ::
      ("Belief: ".toList ++ persuader_belief) :: [] ::
      ("DEFENDER: Agent ".toList ++ natDigits defender_id ++ " @ ".toList
        ++ defender_pos) ::
      ("Belief: ".toList ++ defender_belief) :: [] ::
      dash40 :: "CONVERSATION".toList :: dash40 :: [] :: msgLines ([] : List Msg)) ++ ['\n'])
        ++ joinLines (msgLines ([] : List Msg)
          ++ decLines old_belief new_belief ct) := by
      rw [hsplitR, ← decJoin_eq]
      simp [msgLines]
    rw [parseMessagesAux_run hold hnw hsplitR hnoxRR []
      (B.length + 1)
      (joinLines (eq80 :: iterLine iteration total ::
      ("Time: ".toList ++ time) :: eq80 :: [] ::
      ("PERSUADER: Agent ".toList ++ natDigits persuader_id ++ " @ ".toList
        ++ persuader_pos) ::
      ("Belief: ".toList ++ persuader_belief) :: [] ::
      ("DEFENDER: Agent ".toList ++ natDigits defender_id ++ " @ ".toList
        ++ defender_pos) ::
      ("Belief: ".toList ++ defender_belief) :: [] ::
      dash40 :: "CONVERSATION".toList :: dash40 :: [] :: msgLines ([] : List Msg)) ++ ['\n'])
      0 (by intro x hx; cases hx) hxa ?_ (by simp)]
    show findFrom B "[Round ".toList 0 = none
    apply findFrom_eq_none_of_not_infix
    rw [List.drop_zero, hsplitR, ← decJoin_eq]
    intro hcon
    rcases infix_append_cons_split (by decide) hcon with h1 | h1
    · have h3 : ("[Round ".toList : List Char)
            <:+: joinLines [eq80, iterLine iteration total, "Time: ".toList ++ time, eq80, [],
      "PERSUADER: Agent ".toList ++ natDigits persuader_id ++ " @ ".toList
        ++ persuader_pos,
      "Belief: ".toList ++ persuader_belief, [],
      "DEFENDER: Agent ".toList ++ natDigits defender_id ++ " @ ".toList
        ++ defender_pos,
      "Belief: ".toList ++ defender_belief, [],
      dash40, "CONVERSATION".toList, dash40, []] ++ ['\n'] := by
          refine (?_ : ("[Round ".toList : List Char) <:+: joinLines [eq80, iterLine iteration total, "Time: ".toList ++ time, eq80, [],
      "PERSUADER: Agent ".toList ++ natDigits persuader_id ++ " @ ".toList
        ++ persuader_pos,
      "Belief: ".toList ++ persuader_belief, [],
      "DEFENDER: Agent ".toList ++ natDigits defender_id ++ " @ ".toList
        ++ defender_pos,
      "Belief: ".toList ++ defender_belief, [],
      dash40, "CONVERSATION".toList, dash40, []]).trans
            (List.prefix_append _ _).isInfix
          rw [show joinLines [eq80, iterLine iteration total, "Time: ".toList ++ time, eq80, [],
      "PERSUADER: Agent ".toList ++ natDigits persuader_id ++ " @ ".toList
        ++ persuader_pos,
      "Belief: ".toList ++ persuader_belief, [],
      "DEFENDER: Agent ".toList ++ natDigits defender_id ++ " @ ".toList
        ++ defender_pos,
      "Belief: ".toList ++ defender_belief, [],
      dash40, "CONVERSATION".toList, dash40, []]
            = joinLines (eq80 :: iterLine iteration total ::
      ("Time: ".toList ++ time) :: eq80 :: [] ::
      ("PERSUADER: Agent ".toList ++ natDigits persuader_id ++ " @ ".toList
        ++ persuader_pos) ::
      ("Belief: ".toList ++ persuader_belief) :: [] ::
      ("DEFENDER: Agent ".toList ++ natDigits defender_id ++ " @ ".toList
        ++ defender_pos) ::
      ("Belief: ".toList ++ defender_belief) :: [] ::
      dash40 :: "CONVERSATION".toList :: dash40 :: [] :: msgLines ([] : List Msg))
            from by simp [msgLines]]
          exact h1
      rw [← hL16eq] at h3
      exact noRoundSp_front htime hppos hdpos hpb hdb h3
    · exact noRoundSp_decJoin hold hnw h1
  | cons m ms' =>
    show parseMessagesAux B (B.length + 1) 0 = _
    have hMDne : msgLines ms' ++ decLines old_belief new_belief ct ≠ [] := by
      simp [decLines]
    have hheadNext : joinLines (msgLines (m :: ms')
          ++ decLines old_belief new_belief ct)
        = "[Round ".toList ++ (natDigits m.round ++ ("] ".toList
          ++ (pyUpper m.speaker ++ (':' :: '\n' :: (m.content ++ ('\n' :: '\n' ::
          joinLines (msgLines ms' ++ decLines old_belief new_belief ct))))))) := by
      rw [show msgLines (m :: ms') ++ decLines old_belief new_belief ct
          = msgHdrLine m :: m.content :: [] :: (msgLines ms'
            ++ decLines old_belief new_belief ct) from rfl,
        joinLines_cons_cons, joinLines_cons_cons, joinLines_cons_of_ne hMDne]
      simp [msgHdrLine, List.append_assoc]
    have hxa : B = joinLines [eq80, iterLine iteration total, "Time: ".toList ++ time, eq80, [],
      "PERSUADER: Agent ".toList ++ natDigits persuader_id ++ " @ ".toList
        ++ persuader_pos,
      "Belief: ".toList ++ persuader_belief, [],
      "DEFENDER: Agent ".toList ++ natDigits defender_id ++ " @ ".toList
        ++ defender_pos,
      "Belief: ".toList ++ defender_belief, [],
      dash40, "CONVERSATION".toList, dash40, [], []]
        ++ joinLines (msgLines (m :: ms')
          ++ decLines old_belief new_belief ct) := by
      rw [hB, writeIteration_joinLines,
        show eq80 :: iterLine iteration total :: bodyLines time persuader_id
            persuader_pos persuader_belief defender_id defender_pos defender_belief
            (m :: ms') old_belief new_belief ct
          = [eq80, iterLine iteration total, "Time: ".toList ++ time, eq80, [],
      "PERSUADER: Agent ".toList ++ natDigits persuader_id ++ " @ ".toList
        ++ persuader_pos,
      "Belief: ".toList ++ persuader_belief, [],
      "DEFENDER: Agent ".toList ++ natDigits defender_id ++ " @ ".toList
        ++ defender_pos,
      "Belief: ".toList ++ defender_belief, [],
      dash40, "CONVERSATION".toList, dash40, []]
            ++ (msgLines (m :: ms') ++ decLines old_belief new_belief ct) from by
          unfold bodyLines
          simp [List.append_assoc],
        joinLines_append (by simp) (by
          intro hcon
          rw [show msgLines (m :: ms') ++ decLines old_belief new_belief ct
            = msgHdrLine m :: m.content :: [] :: (msgLines ms'
              ++ decLines old_belief new_belief ct) from rfl] at hcon
          cases hcon),
        hL16eq]
      simp [List.append_assoc]
    have hfind0 : findFrom B "[Round ".toList 0
        = some (joinLines [eq80, iterLine iteration total, "Time: ".toList ++ time, eq80, [],
      "PERSUADER: Agent ".toList ++ natDigits persuader_id ++ " @ ".toList
        ++ persuader_pos,
      "Belief: ".toList ++ persuader_belief, [],
      "DEFENDER: Agent ".toList ++ natDigits defender_id ++ " @ ".toList
        ++ defender_pos,
      "Belief: ".toList ++ defender_belief, [],
      dash40, "CONVERSATION".toList, dash40, [], []]).length := by
      rw [show B = joinLines [eq80, iterLine iteration total, "Time: ".toList ++ time, eq80, [],
      "PERSUADER: Agent ".toList ++ natDigits persuader_id ++ " @ ".toList
        ++ persuader_pos,
      "Belief: ".toList ++ persuader_belief, [],
      "DEFENDER: Agent ".toList ++ natDigits defender_id ++ " @ ".toList
        ++ defender_pos,
      "Belief: ".toList ++ defender_belief, [],
      dash40, "CONVERSATION".toList, dash40, [], []]
          ++ ("[Round ".toList ++ (natDigits m.round ++ ("] ".toList
          ++ (pyUpper m.speaker ++ (':' :: '\n' :: (m.content ++ ('\n' :: '\n' ::
          joinLines (msgLines ms' ++ decLines old_belief new_belief ct))))))))
        from by rw [hxa, hheadNext]]
      apply findFrom_split 0 (by decide) (Nat.zero_le _) (by decide)
      rw [List.drop_zero]
      intro hcon
      exact noRoundSp_front htime hppos hdpos hpb hdb hcon
    have hfuelOk : (m :: ms').length < B.length + 1 := by
      have hmlen : ∀ ms2 : List Msg, ms2.length
          ≤ (joinLines (msgLines ms2 ++ decLines old_belief new_belief ct)).length := by
        intro ms2
        induction ms2 with
        | nil => simp
        | cons x xs ihx =>
          rw [show msgLines (x :: xs) ++ decLines old_belief new_belief ct
              = msgHdrLine x :: x.content :: [] :: (msgLines xs
                ++ decLines old_belief new_belief ct) from rfl,
            joinLines_cons_cons, joinLines_cons_cons,
            joinLines_cons_of_ne (by simp [decLines])]
          simp only [List.length_append, List.length_cons]
          omega
      have h4 := hmlen (m :: ms')
      have h5 : B.length = (joinLines [eq80, iterLine iteration total, "Time: ".toList ++ time, eq80, [],
      "PERSUADER: Agent ".toList ++ natDigits persuader_id ++ " @ ".toList
        ++ persuader_pos,
      "Belief: ".toList ++ persuader_belief, [],
      "DEFENDER: Agent ".toList ++ natDigits defender_id ++ " @ ".toList
        ++ defender_pos,
      "Belief: ".toList ++ defender_belief, [],
      dash40, "CONVERSATION".toList, dash40, [], []]).length
          + (joinLines (msgLines (m :: ms')
            ++ decLines old_belief new_belief ct)).length := by
        rw [hxa, List.length_append]
      omega
    rw [parseMessagesAux_run hold hnw hsplitR hnoxRR (m :: ms') (B.length + 1)
      (joinLines [eq80, iterLine iteration total, "Time: ".toList ++ time, eq80, [],
      "PERSUADER: Agent ".toList ++ natDigits persuader_id ++ " @ ".toList
        ++ persuader_pos,
      "Belief: ".toList ++ persuader_belief, [],
      "DEFENDER: Agent ".toList ++ natDigits defender_id ++ " @ ".toList
        ++ defender_pos,
      "Belief: ".toList ++ defender_belief, [],
      dash40, "CONVERSATION".toList, dash40, [], []]) 0 hmsgs hxa (by exact hfind0) hfuelOk]

set_option maxHeartbeats 1000000 in
/-- Round trip: `parse_log_file` on a written iteration block recovers the
iteration number and every field, with the beliefs and message contents
whitespace-stripped. -/
theorem parse_log_file_writeIteration {B : List Char}
    {iteration total persuader_id : Nat}
    {persuader_pos : List Char} {defender_id : Nat} {defender_pos : List Char}
    {persuader_belief defender_belief time : List Char} {msgs : List Msg}
    {old_belief new_belief : List Char} {ct : ChangeType}
    (htime : timeClean time) (hppos : posClean persuader_pos)
    (hdpos : posClean defender_pos) (hpb : scanClean persuader_belief)
    (hdb : scanClean defender_belief) (hmsgs : ∀ m ∈ msgs, msgClean m)
    (hold : scanClean old_belief) (hnw : scanClean new_belief)
    (hB : B = writeIteration iteration total persuader_id persuader_pos defender_id
      defender_pos persuader_belief defender_belief time msgs old_belief new_belief ct) :
    parse_log_file B = some (iteration,
      ⟨persuader_id, defender_id, pyStrip persuader_belief, pyStrip defender_belief,
        msgs.map (fun m => ⟨m.round, m.speaker, pyStrip m.content⟩),
        pyStrip old_belief, pyStrip new_belief, ct.text⟩) := by
  have hH := parseHeader_block htime hppos hdpos hpb.2.1 hdb.2.1 hmsgs hold.2.1
    hnw.2.1 hB
  have hP := findPersuader_block htime hppos hpb hB
  have hD := findDefender_block htime hppos hdpos hpb hdb hB
  have hM := parseMessages_block htime hppos hdpos hpb hdb hmsgs hold hnw hB
  have hDec := findDecision_block htime hppos hdpos hpb hdb hmsgs hold hnw hB
  unfold parse_log_file parseIterationBody
  simp only [hH, hP, hD, hDec, hM, Option.bind_eq_bind, Option.some_bind]

/-! ### Claims C1 and C10 -/

/-- C1, counterexample: the writer/parser round trip is not exact.  The
persuader belief `"a "` (trailing space) is written verbatim, but
`parse_log_file` recovers the stripped `"a"`, because every captured group
passes through `.strip()` in `parse_log_file`. -/
theorem parse_roundtrip_exact_counterexample :
    parse_log_file (writeIteration 1 1 0 "r".toList 1 "r".toList
        "a ".toList "b".toList "2".toList [] "c".toList "d".toList ChangeType.changed)
      = some (1, ⟨0, 1, "a".toList, "b".toList, [], "c".toList, "d".toList,
          "changed".toList⟩)
    ∧ "a ".toList ≠ "a".toList := by
  constructor
  · have h : parse_log_file (writeIteration 1 1 0 "r".toList 1 "r".toList
        "a ".toList "b".toList "2".toList [] "c".toList "d".toList
        ChangeType.changed)
        = some (1, ⟨0, 1, pyStrip "a ".toList, pyStrip "b".toList,
            ([] : List Msg).map (fun m => ⟨m.round, m.speaker, pyStrip m.content⟩),
            pyStrip "c".toList, pyStrip "d".toList, ChangeType.changed.text⟩) :=
      parse_log_file_writeIteration (by unfold timeClean; decide)
        (by unfold posClean; decide) (by unfold posClean; decide)
        (by unfold scanClean; decide) (by unfold scanClean; decide)
        (by intro m hm; cases hm) (by unfold scanClean; decide)
        (by unfold scanClean; decide) rfl
    rw [h]
    decide
  · decide

/-- C1, amended: for a written iteration record whose free-text fields avoid
the parser's own delimiters — the two beliefs, every message content and the
decision's old and new beliefs are nonempty and contain no newline, no `'='`
and none of the substrings `"PERSUADER: Agent "`, `"DEFENDER: Agent "`,
`"[Round"` (`scanClean`/`msgClean`); the timestamp is isoformat-like
(`timeClean`); the positions are lowercase word strings (`posClean`) —
re-parsing recovers the iteration number, both agent ids, the ordered
transcript's round numbers and speakers, and the change type exactly, and
each belief, message content and decision field up to Python's `.strip()`.
The delimiter conditions are needed: a message content containing
`"[Round"` would be cut short by the lookahead of the message regex, beyond
mere stripping. -/
theorem parse_roundtrip_stripped {iteration total persuader_id : Nat}
    {persuader_pos : List Char} {defender_id : Nat} {defender_pos : List Char}
    {persuader_belief defender_belief time : List Char} {msgs : List Msg}
    {old_belief new_belief : List Char} {ct : ChangeType}
    (htime : timeClean time) (hppos : posClean persuader_pos)
    (hdpos : posClean defender_pos) (hpb : scanClean persuader_belief)
    (hdb : scanClean defender_belief) (hmsgs : ∀ m ∈ msgs, msgClean m)
    (hold : scanClean old_belief) (hnw : scanClean new_belief) :
    parse_log_file (writeIteration iteration total persuader_id persuader_pos
        defender_id defender_pos persuader_belief defender_belief time msgs
        old_belief new_belief ct)
      = some (iteration, ⟨persuader_id, defender_id, pyStrip persuader_belief,
          pyStrip defender_belief,
          msgs.map (fun m => ⟨m.round, m.speaker, pyStrip m.content⟩),
          pyStrip old_belief, pyStrip new_belief, ct.text⟩) :=
  parse_log_file_writeIteration htime hppos hdpos hpb hdb hmsgs hold hnw rfl

/-- Witness for the amended C1 round trip at a concrete record with trailing
whitespace in the persuader belief and in the message content. -/
theorem parse_roundtrip_stripped_witness :
    parse_log_file (writeIteration 1 1 0 "r".toList 1 "r".toList
        "a ".toList "b".toList "2".toList
        [⟨1, "persuader".toList, "hi ".toList⟩] "c".toList "d".toList
        ChangeType.changed)
      = some (1, ⟨0, 1, pyStrip "a ".toList, pyStrip "b".toList,
          [⟨1, "persuader".toList, pyStrip "hi ".toList⟩],
          pyStrip "c".toList, pyStrip "d".toList, "changed".toList⟩) :=
  parse_roundtrip_stripped (by unfold timeClean; decide)
    (by unfold posClean; decide) (by unfold posClean; decide)
    (by unfold scanClean; decide) (by unfold scanClean; decide)
    (by
      intro m hm
      rw [List.mem_singleton] at hm
      subst hm
      unfold msgClean scanClean
      decide)
    (by unfold scanClean; decide) (by unfold scanClean; decide)

/-- C10: when the block header, persuader section and defender section all
parse but the DECISION section does not, `parse_log_file` still returns the
iteration, defaulting `old_belief` and `new_belief` to the defender's
starting belief and `change_type` to `unchanged`. -/
theorem parse_missing_decision_defaults {content : List Char} {num : Nat}
    {t : List Char} {pid did : Nat} {pb db : List Char}
    (hH : parseHeader content = some (num, t))
    (hP : findPersuader t = some (pid, pb))
    (hD : findDefender t = some (did, db))
    (hDec : findDecision t = none) :
    parse_log_file content
      = some (num, ⟨pid, did, pb, db, parseMessages t, db, db,
          "unchanged".toList⟩) := by
  unfold parse_log_file parseIterationBody
  simp only [hH, hP, hD, hDec, Option.bind_eq_bind, Option.some_bind]

set_option maxRecDepth 100000 in
/-- Witness for C10 on a concrete block that stops before any DECISION
section. -/
theorem parse_missing_decision_defaults_witness :
    parse_log_file (eq80 ++ "\nITERATION 1/1\nPERSUADER: Agent 0 @ r\nBelief: a\n\nDEFENDER: Agent 1 @ r\nBelief: b\n\n".toList ++ dash40 ++ "\n".toList)
      = some (1, ⟨0, 1, "a".toList, "b".toList,
          parseMessages (eq80 ++ "\nITERATION 1/1\nPERSUADER: Agent 0 @ r\nBelief: a\n\nDEFENDER: Agent 1 @ r\nBelief: b\n\n".toList ++ dash40 ++ "\n".toList),
          "b".toList, "b".toList, "unchanged".toList⟩) :=
  parse_missing_decision_defaults (by decide) (by decide) (by decide) (by decide)
